import Mathlib

/-!
The polling synchronisation engine of `tsm`.

A shallow embedding of the cadence loop of `cmd/poll.go` (`cmdService.Poll`,
`formatScan`, `logDeviceInfo`, `getSampleInterval`, `pollArgsParse`), of the scan cache and
sampler set-up of `snmp/service.go` (`snmpScan.copy`, `saveScan`, `GetScan`, `PollStart`)
and of the configuration helpers of `config/configuration.go` that `formatScan` calls
(`DataOidsInfo`, `ValueString`, `reverseBits`, `bitmapString`).

Conventions.
* A `time.Duration` is an `Int` count of nanoseconds; where the 64-bit width matters the
  wrap-around is written out (`wrapInt64`). Its functions are in the namespace `Duration`.
* A `time.Time` is an `Int` count of nanoseconds since Go's zero time (January 1 of year 1,
  00:00:00 UTC), wall clock only; calendar fields are read in UTC, the location every scan
  timestamp carries (`QueryOids` and `GetScan` return `time.Now().UTC()`). Its methods are
  in the namespace `Time`.
* A Go `map[string]string` is an association list; indexing a missing key gives `""`.
* A run-time panic (index out of range) is `none`.
* Calls to the `rlog` package are recorded as `LogCall` values, one constructor per call site.
-/

namespace TSM

/-! ## `time.Duration` and `time.Time` -/

/-- The constant `time.Second`. -/
def Second : Int := 1000000000

/-- The smallest `time.Duration`, `-1 << 63`. -/
def minDuration : Int := -9223372036854775808

/-- The largest `time.Duration`, `1<<63 - 1`. -/
def maxDuration : Int := 9223372036854775807

/-- A value is representable as a Go `int64`. -/
def IsInt64 (x : Int) : Prop := minDuration ≤ x ∧ x ≤ maxDuration

instance (x : Int) : Decidable (IsInt64 x) := by unfold IsInt64; infer_instance

/-- Two's-complement wrap-around of 64-bit signed arithmetic. -/
def wrapInt64 (x : Int) : Int := (x + 9223372036854775808) % 18446744073709551616 - 9223372036854775808

/-- Go's `t.Add(d)`. -/
def Time.Add (t : Int) (d : Int) : Int := t + d

/-- Go's `t.Sub(u)`: the difference `t - u`, saturated to the range of `time.Duration`. -/
def Time.Sub (t u : Int) : Int :=
  if t - u < minDuration then minDuration
  else if maxDuration < t - u then maxDuration
  else t - u

/-- Go's `t.Round(d)`: `t` rounded to the nearest multiple of `d` since the zero time,
halfway values rounding up; `t` itself when `d <= 0`. -/
def Time.Round (t : Int) (d : Int) : Int :=
  if d ≤ 0 then t
  else
    let r := t % d
    if r + r < d then t - r else t + (d - r)

/-! ## Drift classification (`poll.go`, lines 134 and 208-235) -/

/-- The three branches of the drift test of the cadence loop. -/
inductive Drift where
  | farFuture
  | tooEarly
  | onTime
  deriving DecidableEq, Repr

/-- The assignment `hInterval := dInterval / 2` (Go integer division, truncating toward zero). -/
def hInterval (dInterval : Int) : Int := Int.tdiv dInterval 2

/-- The branch the `if offset > hInterval {..} else if offset < -hInterval {..}` chain takes
for `offset = ts.Sub(targetTime)`. -/
def classify (dInterval : Int) (targetTime ts : Int) : Drift :=
  let offset := Time.Sub ts targetTime
  if offset > hInterval dInterval then Drift.farFuture
  else if offset < -hInterval dInterval then Drift.tooEarly
  else Drift.onTime

/-! ## Floating point (`float64`, `float32`)

The finite values of a binary floating-point format are the dyadic rationals
`± mant * 2 ^ exp`; the operations below are the exactly rounded IEEE 754 ones
(round to nearest, ties to even) that the Go code uses. -/

/-- A `float64` value (a `float32` is a `float64` whose value fits the narrower format). -/
inductive Float64 where
  /-- The value `(-1) ^ neg * mant * 2 ^ exp`. -/
  | finite (neg : Bool) (mant : Nat) (exp : Int)
  | inf (neg : Bool)
  | nan
  deriving DecidableEq, Repr

/-- Floor of the base-2 logarithm, by halving at most `fuel` times. -/
def log2Fuel : Nat → Nat → Nat
  | 0, _ => 0
  | fuel + 1, n => if n < 2 then 0 else log2Fuel fuel (n / 2) + 1

/-- Floor of the base-2 logarithm of a positive natural number. -/
def floorLog2 (n : Nat) : Nat := log2Fuel n n

/-- The quotient `num / den` rounded to the nearest integer, ties to the even one. -/
def roundHalfEven (num den : Nat) : Nat :=
  let q := num / den
  let r := num % den
  if 2 * r < den then q
  else if den < 2 * r then q + 1
  else if q % 2 = 0 then q else q + 1

/-- The numerator and denominator of `num / den * 2 ^ (-u)`. -/
def scalePow2 (num den : Nat) (u : Int) : Nat × Nat :=
  if 0 ≤ u then (num, den * 2 ^ u.toNat) else (num * 2 ^ (-u).toNat, den)

/-- Floor of the base-2 logarithm of the positive rational `num / den`. -/
def floorLog2Rat (num den : Nat) : Int :=
  let k0 : Int := (floorLog2 num : Int) - (floorLog2 den : Int)
  let s := scalePow2 num den k0
  if s.2 ≤ s.1 then k0 else k0 - 1

/-- The rational `± num / den` rounded to the binary format of precision `prec` bits with
exponent range `emin .. emax`: gradual underflow below `2 ^ emin`, overflow to infinity. -/
def roundBinary (prec : Nat) (emin emax : Int) (neg : Bool) (num den : Nat) : Float64 :=
  if num = 0 ∨ den = 0 then Float64.finite neg 0 0
  else
    let k := floorLog2Rat num den
    let u : Int := max k emin - ((prec : Int) - 1)
    let s := scalePow2 num den u
    let n := roundHalfEven s.1 s.2
    if emax < (floorLog2 n : Int) + u then Float64.inf neg else Float64.finite neg n u

/-- Rounding to `float64`. -/
def round64 (neg : Bool) (num den : Nat) : Float64 := roundBinary 53 (-1022) 1023 neg num den

/-- Rounding to `float32`. -/
def round32 (neg : Bool) (num den : Nat) : Float64 := roundBinary 24 (-126) 127 neg num den

/-- The conversion `float64(i)` of an integer. -/
def Float64.ofInt (i : Int) : Float64 := round64 (decide (i < 0)) i.natAbs 1

/-- The conversion `float32(f)`. -/
def Float64.toFloat32 : Float64 → Float64
  | Float64.finite neg mant exp =>
      let s := scalePow2 mant 1 (-exp)
      round32 neg s.1 s.2
  | f => f

/-- The signed numerator of a finite value over the common denominator `2 ^ (-e)`. -/
def signedAt (neg : Bool) (mant : Nat) (exp e : Int) : Int :=
  let m : Int := (mant : Int) * 2 ^ (exp - e).toNat
  if neg then -m else m

/-- The comparison `a < b` of IEEE 754: false as soon as one side is NaN. -/
def Float64.lt : Float64 → Float64 → Bool
  | Float64.nan, _ => false
  | _, Float64.nan => false
  | Float64.inf na, Float64.inf nb => na && !nb
  | Float64.inf na, Float64.finite _ _ _ => na
  | Float64.finite _ _ _, Float64.inf nb => !nb
  | Float64.finite na ma ea, Float64.finite nb mb eb =>
      decide (signedAt na ma ea (min ea eb) < signedAt nb mb eb (min ea eb))

/-- The comparison `a > b`. -/
def Float64.gt (a b : Float64) : Bool := Float64.lt b a

/-- The sum `a + b` of two finite values, rounded to `float64`. -/
def Float64.addFinite (na : Bool) (ma : Nat) (ea : Int) (nb : Bool) (mb : Nat) (eb : Int) : Float64 :=
  let e := min ea eb
  let v := signedAt na ma ea e + signedAt nb mb eb e
  let s := scalePow2 v.natAbs 1 (-e)
  if v = 0 then Float64.finite (na && nb) 0 0 else round64 (decide (v < 0)) s.1 s.2

/-- The sum `a + b`. -/
def Float64.add : Float64 → Float64 → Float64
  | Float64.nan, _ => Float64.nan
  | _, Float64.nan => Float64.nan
  | Float64.inf na, Float64.inf nb => if na = nb then Float64.inf na else Float64.nan
  | Float64.inf na, Float64.finite _ _ _ => Float64.inf na
  | Float64.finite _ _ _, Float64.inf nb => Float64.inf nb
  | Float64.finite na ma ea, Float64.finite nb mb eb => Float64.addFinite na ma ea nb mb eb

/-- The product `a * b`. -/
def Float64.mul : Float64 → Float64 → Float64
  | Float64.nan, _ => Float64.nan
  | _, Float64.nan => Float64.nan
  | Float64.inf na, Float64.inf nb => Float64.inf (na != nb)
  | Float64.inf na, Float64.finite nb mb _ => if mb = 0 then Float64.nan else Float64.inf (na != nb)
  | Float64.finite na ma _, Float64.inf nb => if ma = 0 then Float64.nan else Float64.inf (na != nb)
  | Float64.finite na ma ea, Float64.finite nb mb eb =>
      let s := scalePow2 (ma * mb) 1 (-(ea + eb))
      round64 (na != nb) s.1 s.2

/-- The quotient `a / 1e9` of a finite value by the constant `1e9`. -/
def Float64.divE9 : Float64 → Float64
  | Float64.finite neg mant exp =>
      let s := scalePow2 mant 1000000000 (-exp)
      round64 neg s.1 s.2
  | f => f

/-- The value of a finite float truncated toward zero. -/
def truncFinite (neg : Bool) (mant : Nat) (exp : Int) : Int :=
  let s := scalePow2 mant 1 (-exp)
  if neg then -((s.1 / s.2 : Nat) : Int) else ((s.1 / s.2 : Nat) : Int)

/-- What the model takes from the Go implementation rather than defining it: the parser
`strconv.ParseFloat`, and the results of float-to-integer conversions whose value the
target type cannot represent, which the Go specification leaves implementation-dependent. -/
structure GoRuntime where
  /-- The call `strconv.ParseFloat(s, bitSize)`: the value and the error returned. -/
  ParseFloat : String → Nat → Float64 × Option String
  /-- The conversion `int64(f)` when the truncation of `f` is not an `int64`. -/
  int64OfFloat : Float64 → Int
  /-- The conversion `uint(f)` when the truncation of `f` is not a `uint`. -/
  uintOfFloat : Float64 → Nat
  /-- The call `fmt.Sprintf("%0<w>b", v)` for a width `w` that `fmt` gives up reading, its
  digits before the last making a number beyond 1000000. -/
  SprintfWideBin : Int → Nat → String

/-- The conversion `int64(f)` (also `time.Duration(f)`). -/
def Float64.toInt64 (rt : GoRuntime) : Float64 → Int
  | Float64.finite neg mant exp =>
      if IsInt64 (truncFinite neg mant exp) then truncFinite neg mant exp
      else wrapInt64 (rt.int64OfFloat (Float64.finite neg mant exp))
  | f => wrapInt64 (rt.int64OfFloat f)

/-- The conversion `uint(f)` (64 bits wide). -/
def Float64.toUint (rt : GoRuntime) : Float64 → Nat
  | Float64.finite neg mant exp =>
      if 0 ≤ truncFinite neg mant exp ∧ truncFinite neg mant exp < 18446744073709551616 then
        (truncFinite neg mant exp).toNat
      else rt.uintOfFloat (Float64.finite neg mant exp) % 18446744073709551616
  | f => rt.uintOfFloat f % 18446744073709551616

/-! ## `fmt` verbs -/

/-- The digits of `n` in base `base`, most significant first, prepended to `acc`. -/
def digitsFuel (base : Nat) : Nat → Nat → List Char → List Char
  | 0, _, acc => acc
  | fuel + 1, n, acc =>
      if n < base then Nat.digitChar n :: acc
      else digitsFuel base fuel (n / base) (Nat.digitChar (n % base) :: acc)

/-- The verb `%d` on a natural number. -/
def fmtNat (n : Nat) : String := String.mk (digitsFuel 10 (n + 1) n [])

/-- The verb `%b` on a natural number. -/
def fmtBin (n : Nat) : String := String.mk (digitsFuel 2 (n + 1) n [])

/-- The string `s` padded on the left with `c` up to `width` characters. -/
def padLeft (c : Char) (width : Nat) (s : String) : String :=
  String.mk (List.replicate (width - s.length) c) ++ s

/-- The string `s` padded on the right with blanks up to `width` characters. -/
def padRight (width : Nat) (s : String) : String :=
  s ++ String.mk (List.replicate (width - s.length) ' ')

/-- The verb `%0<width>d`: zero padding after the sign. -/
def fmtIntZero (width : Nat) (i : Int) : String :=
  if i < 0 then "-" ++ padLeft '0' (width - 1) (fmtNat i.natAbs)
  else padLeft '0' width (fmtNat i.natAbs)

/-- The verb `%.<prec>f`. -/
def fmtFixed (prec : Nat) : Float64 → String
  | Float64.nan => "NaN"
  | Float64.inf false => "+Inf"
  | Float64.inf true => "-Inf"
  | Float64.finite neg mant exp =>
      let s := scalePow2 (mant * 10 ^ prec) 1 (-exp)
      let n := roundHalfEven s.1 s.2
      (if neg then "-" else "") ++ fmtNat (n / 10 ^ prec) ++
        (if prec = 0 then "" else "." ++ padLeft '0' prec (fmtNat (n % 10 ^ prec)))

/-- The verb `%4.1f`. -/
def fmtF41 (f : Float64) : String := padLeft ' ' 4 (fmtFixed 1 f)

/-- Go's `d.Seconds()`: `float64(d / Second) + float64(d % Second) / 1e9`. -/
def Duration.Seconds (d : Int) : Float64 :=
  Float64.add (Float64.ofInt (Int.tdiv d Second)) (Float64.divE9 (Float64.ofInt (Int.tmod d Second)))

/-! ## Calendar fields of a `time.Time` in UTC -/

/-- Whole seconds since the zero time. -/
def Time.absSeconds (t : Int) : Int := t / 1000000000

/-- Whole days since January 1 of year 1. -/
def Time.absDays (t : Int) : Int := Time.absSeconds t / 86400

/-- Second of the day, `0 .. 86399`. -/
def Time.secondOfDay (t : Int) : Nat := (Time.absSeconds t % 86400).toNat

/-- Year, month and day of the proleptic Gregorian calendar for a day count since
January 1 of year 1 (the count is first moved to an era that starts on March 1 of year 0). -/
def civilFromDays (z : Int) : Int × Nat × Nat :=
  let z1 := z + 306
  let era := z1 / 146097
  let doe := (z1 - era * 146097).toNat
  let yoe := (doe - doe / 1460 + doe / 36524 - doe / 146096) / 365
  let doy := doe - (365 * yoe + yoe / 4 - yoe / 100)
  let mp := (5 * doy + 2) / 153
  let d := doy - (153 * mp + 2) / 5 + 1
  let m := if mp < 10 then mp + 3 else mp - 9
  let y : Int := (yoe : Int) + era * 400
  (if m ≤ 2 then y + 1 else y, m, d)

/-- Go's `t.Year()`. -/
def Time.Year (t : Int) : Int := (civilFromDays (Time.absDays t)).1

/-- Go's `t.Month()`. -/
def Time.Month (t : Int) : Nat := (civilFromDays (Time.absDays t)).2.1

/-- Go's `t.Day()`. -/
def Time.Day (t : Int) : Nat := (civilFromDays (Time.absDays t)).2.2

/-- Go's `t.Hour()`. -/
def Time.Hour (t : Int) : Nat := Time.secondOfDay t / 3600

/-- Go's `t.Minute()`. -/
def Time.Minute (t : Int) : Nat := Time.secondOfDay t % 3600 / 60

/-- Go's `t.Second()`. -/
def Time.Sec (t : Int) : Nat := Time.secondOfDay t % 60

/-- The first `fmt.Sprintf` of `formatScan`: `"%04d %02d %02d %02d %02d %02d"`. -/
def fmtStamp (ts : Int) : String :=
  fmtIntZero 4 (Time.Year ts) ++ " " ++ fmtIntZero 2 (Time.Month ts) ++ " " ++
    fmtIntZero 2 (Time.Day ts) ++ " " ++ fmtIntZero 2 (Time.Hour ts) ++ " " ++
    fmtIntZero 2 (Time.Minute ts) ++ " " ++ fmtIntZero 2 (Time.Sec ts)

/-! ## `config/configuration.go` -/

/-- A Go `map[string]string`. -/
abbrev StringMap := List (String × String)

/-- The index expression `m[key]`: the zero value `""` for a missing key. -/
def StringMap.index (m : StringMap) (key : String) : String := (m.lookup key).getD ""

/-- The struct `OidInfo` (the field `Type` is spelled `Typ`). -/
structure OidInfo where
  Oid : String
  Chancode : String
  Label : String
  Units : String
  Typ : String
  Scaling : Float64
  Values : List String
  Result : String
  Register : Nat
  RegisterType : String
  deriving DecidableEq, Repr

/-- The struct `DeviceInfo`. -/
structure DeviceInfo where
  GroupOid : String
  ModelGroup : String
  Modellist : List String
  Static : List OidInfo
  Status : List OidInfo
  Measurements : List OidInfo
  Alarms : List OidInfo
  Faults : List OidInfo
  deriving DecidableEq, Repr

/-- The struct `oids`. -/
structure oids where
  EMCOids : List OidInfo
  DeviceGroups : List DeviceInfo
  deriving DecidableEq, Repr

/-- The struct `generalConfig`. -/
structure generalConfig where
  Sta : String
  Net : String
  Loc : String
  deriving DecidableEq, Repr

/-- The struct `TSMConfig`. -/
structure TSMConfig where
  General : generalConfig
  Oids : oids
  deriving DecidableEq, Repr

/-- The package-level variables `curModelGroup` and `curModelNdx`. -/
structure ModelVars where
  curModelGroup : String
  curModelNdx : Nat
  deriving DecidableEq, Repr

/-- The value of the package-level variables at program start. -/
def ModelVars.zero : ModelVars := { curModelGroup := "", curModelNdx := 0 }

/-- The largest `uint64`. -/
def maxUint64 : Nat := 18446744073709551615

/-- The digit loop of `strconv.ParseUint(s, 10, 64)`: `0` at the first byte that is not a
decimal digit, the largest `uint64` as soon as the value leaves the range. -/
def parseUintLoop : List Char → Nat → Nat
  | [], n => n
  | c :: cs, n =>
      if c.isDigit then
        if maxUint64 / 10 + 1 ≤ n then maxUint64
        else if maxUint64 < n * 10 + (c.toNat - 48) then maxUint64
        else parseUintLoop cs (n * 10 + (c.toNat - 48))
      else 0

/-- The value `val` of `val, _ := strconv.ParseUint(resstr, 10, 64)`. -/
def ParseUint (s : String) : Nat := if s = "" then 0 else parseUintLoop s.data 0

/-- The shift `x << s` on `uint64`. -/
def shl64 (x s : Nat) : Nat := if s < 64 then x * 2 ^ s % 18446744073709551616 else 0

/-- The loop `for num != 0 { ret += (num & 1) << power; num = num >> 1; power -= 1 }`. -/
def reverseBitsLoop : Nat → Nat → Nat → Nat → Nat
  | 0, ret, _, _ => ret
  | fuel + 1, ret, num, power =>
      if num = 0 then ret
      else reverseBitsLoop fuel ((ret + shl64 (num % 2) power) % 18446744073709551616) (num / 2)
        ((power + 18446744073709551615) % 18446744073709551616)

/-- The function `reverseBits(num uint64, len uint) uint64`; `num` halves at every turn of
the loop, so `num` turns are enough. -/
def reverseBits (num len : Nat) : Nat :=
  reverseBitsLoop num 0 num ((len + 18446744073709551615) % 18446744073709551616)

/-- Go's `strings.TrimRight(s, " ,")`. -/
def trimRightSpaceComma (s : String) : String :=
  String.mk (s.data.reverse.dropWhile (fun c => c = ' ' ∨ c = ',')).reverse

/-- The function `bitmapString(bits uint64, bitmap []string) string`. -/
def bitmapString (bits : Nat) (bitmap : List String) : String :=
  trimRightSpaceComma
    ((List.range 64).foldl
      (fun res ndx =>
        if ndx < bitmap.length then
          if bits / 2 ^ ndx % 2 ≠ 0 then res ++ bitmap.getD ndx "" ++ ", " else res
        else res)
      "")

/-- The calls `fmtstr := fmt.Sprintf("%%0%db", w)` and `fmt.Sprintf(fmtstr, v)`: zero padding
to width `w`; for a negative `w` the minus sign is read as the left-justify flag. `fmt` reads
the digits of the width one by one and gives up when the number read so far, before the next
digit, is beyond 1000000: widths up to 10000009 are padded. -/
def sprintfZeroBin (rt : GoRuntime) (w : Int) (v : Nat) : String :=
  if 1000000 < w.natAbs / 10 then rt.SprintfWideBin w v
  else if w < 0 then padRight w.natAbs (fmtBin v)
  else padLeft '0' w.natAbs (fmtBin v)

/-- The method `OidInfo.ValueString`: the string returned and the lines it prints on the
standard output; `none` when `oidInfo.Values[val]` is out of range. -/
def OidInfo.ValueString (rt : GoRuntime) (oidInfo : OidInfo) (resstr : String) :
    Option (String × List String) :=
  if oidInfo.Typ = "string" then some (resstr, [])
  else if oidInfo.Typ = "number" then
    some (fmtF41 (Float64.mul (rt.ParseFloat resstr 64).1 oidInfo.Scaling), [])
  else if oidInfo.Typ = "bitreverse" then
    some (sprintfZeroBin rt (Float64.toInt64 rt oidInfo.Scaling)
      (reverseBits (ParseUint resstr) (Float64.toUint rt oidInfo.Scaling)), [])
  else if oidInfo.Typ = "map" then
    match oidInfo.Values.get? (ParseUint resstr) with
    | none => none
    | some v => some (v, [])
  else if oidInfo.Typ = "bitmap" then
    let res := bitmapString (ParseUint resstr) oidInfo.Values
    some (if res = "" then "None" else res, [])
  else some (resstr, ["ToString WOWZA:  " ++ resstr ++ "\n"])

/-- The method `TSMConfig.DataOidsInfo`: the identifier list, the `OidInfo` list and the
error; `none` when `DeviceGroups[curModelNdx]` is out of range. -/
def TSMConfig.DataOidsInfo (cfg : TSMConfig) (g : ModelVars) :
    Option (List String × List OidInfo × Option String) :=
  if g.curModelGroup = "" then
    some ([], [], some "Model moust be set before calling DataOidsInfo")
  else
    match cfg.Oids.DeviceGroups.get? g.curModelNdx with
    | none => none
    | some dg =>
        let oidInfo := dg.Status ++ dg.Measurements ++ dg.Alarms ++ dg.Faults
        some (oidInfo.map (fun oidinfo => oidinfo.Oid), oidInfo, none)

/-! ## `cmd/poll.go`: formatting -/

/-- The loop `for _, oidinfo := range oidInfos { outstr += " code:value" }` of `formatScan`:
the string built (`none` when `ValueString` panics) and the lines printed up to there. -/
def formatPairs (rt : GoRuntime) (scan : StringMap) :
    List OidInfo → String → List String → Option String × List String
  | [], outstr, prints => (some outstr, prints)
  | oidinfo :: rest, outstr, prints =>
      match OidInfo.ValueString rt oidinfo (StringMap.index scan oidinfo.Oid) with
      | none => (none, prints)
      | some (v, p) =>
          formatPairs rt scan rest (outstr ++ " " ++ oidinfo.Chancode ++ ":" ++ v) (prints ++ p)

/-- The function `formatScan`: the line returned (`none` when a panic ends the call) and the
lines printed on the standard output while building it. -/
def formatScan (rt : GoRuntime) (g : ModelVars) (sampleInterval : Int) (cfg : TSMConfig)
    (ts : Int) (scan : StringMap) : Option String × List String :=
  let outstr := fmtStamp ts
  let outstr := outstr ++ " " ++ cfg.General.Net ++ " " ++ cfg.General.Sta ++ " " ++
    cfg.General.Loc ++ " " ++ fmtFixed 0 (Duration.Seconds sampleInterval)
  match TSMConfig.DataOidsInfo cfg g with
  | none => (none, [])
  | some (_, oidInfos, _) => formatPairs rt scan oidInfos outstr []

/-- A call to the `rlog` package made by the polling code, one constructor per call site. -/
inductive LogCall where
  /-- The call `rlog.ErrMsg(fmt.Sprintf("invalid sample interval ..."))` in `getSampleInterval`. -/
  | invalidSampleInterval (msg : String)
  /-- The call `rlog.DebugMsg("next target time: %v\n", targetTime.String())`. -/
  | nextTargetTime (targetTime : Int)
  /-- The call `rlog.ErrMsg("no rpm scan available\n")`. -/
  | noScanAvailable
  /-- The call `rlog.DebugMsg("Scan time:   %s", ts.String())`. -/
  | scanTime (ts : Int)
  /-- The call `rlog.DebugMsg("(%s) %s: %s", oidinfo.Chancode, oidinfo.Oid, (*scan)[oidinfo.Oid])`. -/
  | dataValue (chancode oid value : String)
  /-- The call `rlog.NoticeMsg("initial rpm scan received")`. -/
  | initialScanReceived
  /-- The call `rlog.NoticeMsg("%s: %s", oidinfo.Label, (*scan)[oidinfo.Oid])` in `logDeviceInfo`. -/
  | deviceInfo (label value : String)
  /-- The call `rlog.DebugMsg("got done signal")`. -/
  | gotDoneSignal
  /-- The call `rlog.WarningMsg("well, this is awkward, a scan from more than 1/2 interval in the future")`. -/
  | futureScan
  /-- The call `rlog.WarningMsg("incrementing TargetTime by one interval (to catch up) creating a gap")`. -/
  | incrementingTargetTime
  /-- The call `rlog.ErrMsg("missing scan: current scan time (%v) not found within 1/2 interval of target (%v)", ts, targetTime)`. -/
  | missingScan (ts targetTime : Int)
  /-- The call `rlog.WarningMsg("repeating previous scan value")`. -/
  | repeatingPreviousScan
  /-- The call `rlog.NoticeMsg(fmt.Sprintf("running %s command on host: %s:%s\n", c.args[0], c.Host, c.Port))`. -/
  | runningCommand (arg0 host port : String)
  /-- The call `rlog.NoticeMsg(fmt.Sprintf("Controller identified as model: %s", modelGroup))`. -/
  | controllerIdentified (modelGroup : String)
  /-- The call `rlog.NoticeMsg(fmt.Sprintf("polling interval: %.0f sec(s)\n", dInterval.Seconds()))`. -/
  | pollingInterval (dInterval : Int)
  /-- The call `rlog.ErrMsg("could not start internal polling loop... quitting")`. -/
  | couldNotStart
  /-- The call `rlog.NoticeMsg("internal polling loop spawned")`. -/
  | loopSpawned
  /-- The call `rlog.NoticeMsg("poll exiting")`. -/
  | pollExiting
  /-- The call `rlog.ErrMsg(err.Error())` of the sampler goroutine. -/
  | samplerError (msg : String)
  /-- The call `rlog.DebugMsg("debug: context.Done message received, shutting down internal polling loop")`. -/
  | samplerDone
  deriving DecidableEq, Repr

/-- The function `logDeviceInfo`. -/
def logDeviceInfo (staticOidInfo : List OidInfo) (_ts : Int) (scan : StringMap) : List LogCall :=
  staticOidInfo.map (fun oidinfo => LogCall.deviceInfo oidinfo.Label (StringMap.index scan oidinfo.Oid))

/-! ## `cmd/poll.go`: the interval argument -/

/-- The constant `MinSampleInterval`. -/
def MinSampleInterval : Int := 1 * Second

/-- The constant `MaxSampleInterval`. -/
def MaxSampleInterval : Int := 60 * Second

/-- The message of the error `getSampleInterval` builds for a value outside the range. -/
def invalidIntervalMsg (val : Float64) : String :=
  "invalid sample interval " ++ fmtFixed 6 val ++ " must be between " ++
    fmtFixed 0 (Duration.Seconds MinSampleInterval) ++ " and " ++
    fmtFixed 0 (Duration.Seconds MaxSampleInterval) ++ " seconds"

/-- The function `getSampleInterval`: the value, the error and the `rlog` calls made. -/
def getSampleInterval (rt : GoRuntime) (intstr : String) : Float64 × Option String × List LogCall :=
  match rt.ParseFloat intstr 32 with
  | (_, some err) => (Float64.finite false 0 0, some err, [])
  | (val, none) =>
      if Float64.lt val (Duration.Seconds MinSampleInterval) ||
          Float64.gt val (Duration.Seconds MaxSampleInterval) then
        (Float64.finite false 0 0, some (invalidIntervalMsg val),
          [LogCall.invalidSampleInterval (invalidIntervalMsg val)])
      else (val, none, [])

/-- The function `pollArgsParse`: the duration, the error and the `rlog` calls made; `none`
when `args[2]` is out of range. -/
def pollArgsParse (rt : GoRuntime) (args : List String) :
    Option (Int × Option String × List LogCall) :=
  if args.length < 1 then
    some (0, some "not enough parameters, polling interval must be specified", [])
  else
    match args.get? 2 with
    | none => none
    | some intstr =>
        match getSampleInterval rt intstr with
        | (_, some err, logs) => some (0, some err, logs)
        | (intervalSecsf64, none, logs) =>
            let fInterval := Float64.toFloat32 intervalSecsf64
            some (wrapInt64 (Float64.toInt64 rt fInterval * Second), none, logs)

/-! ## `cmd/poll.go`: the cadence loop of `cmdService.Poll` (lines 158-241) -/

/-- What the loop reads and never writes: the Go implementation, the interval `dInterval`,
the configuration `c.TSMCfg`, the package variables of `config`, and the lists
`staticOidInfo` and `dataOidInfo` that `initOids` filled. -/
structure PollEnv where
  rt : GoRuntime
  dInterval : Int
  cfg : TSMConfig
  vars : ModelVars
  staticOidInfo : List OidInfo
  dataOidInfo : List OidInfo

/-- The local variables of `Poll` that live across iterations of the loop. -/
structure LoopState where
  scan : Option StringMap
  prevScan : Option StringMap
  ts : Int
  offset : Int
  err : Option String
  targetTime : Int
  first : Bool
  scanMissed : Bool
  scanRepeated : Bool
  exiting : Bool
  deriving DecidableEq, Repr

/-- The variables as lines 158-168 leave them, `now` being the value of `time.Now()`. -/
def LoopState.init (dInterval : Int) (now : Int) : LoopState :=
  { scan := none, prevScan := none, ts := 0, offset := 0, err := none,
    targetTime := Time.Add (Time.Round now dInterval) dInterval,
    first := true, scanMissed := false, scanRepeated := false, exiting := false }

/-- Which case of the `select` runs in an iteration: the timer, with the triple that
`c.snmpService.GetScan()` then returns, or the channel `sigdone`. -/
inductive Wake where
  | timer (ts : Int) (scan : Option StringMap) (err : Option String)
  | sigdone
  deriving DecidableEq, Repr

/-- The effect of one iteration of the loop: the variables afterwards, the `rlog` calls, the
writes on the standard output, and whether a panic ended the iteration. -/
structure CycleOut where
  state : LoopState
  logs : List LogCall
  stdout : List String
  panicked : Bool
  deriving DecidableEq, Repr

/-- The target time an iteration started from the state `st` waits on: line 172,
`targetTime = targetTime.Add(dInterval)`. -/
def waitTarget (env : PollEnv) (st : LoopState) : Int := Time.Add st.targetTime env.dInterval

/-- Lines 237-239: `scanRepeated = false`, then
`fmt.Printf("%s\n", formatScan(dInterval, c.TSMCfg, ts, scan))`. -/
def emitRecord (env : PollEnv) (st : LoopState) (logs : List LogCall) (ts : Int)
    (scan : StringMap) : CycleOut :=
  match formatScan env.rt env.vars env.dInterval env.cfg ts scan with
  | (none, prints) =>
      { state := { st with scanRepeated := false }, logs := logs, stdout := prints, panicked := true }
  | (some line, prints) =>
      { state := { st with scanRepeated := false }, logs := logs,
        stdout := prints ++ [line ++ "\n"], panicked := false }

/-- One iteration of the loop `for !exiting { ... }`, lines 172-239. -/
def cycle (env : PollEnv) (st : LoopState) (w : Wake) : CycleOut :=
  let targetTime := Time.Add st.targetTime env.dInterval
  let logs := [LogCall.nextTargetTime targetTime]
  match w with
  | Wake.sigdone =>
      { state := { st with targetTime := targetTime, exiting := true },
        logs := logs ++ [LogCall.gotDoneSignal], stdout := [], panicked := false }
  | Wake.timer ts none err =>
      { state := { st with targetTime := targetTime, prevScan := st.scan, ts := ts, scan := none,
                           err := err, scanMissed := true, first := true },
        logs := logs ++ (if st.scanMissed then [] else [LogCall.noScanAvailable]),
        stdout := [], panicked := false }
  | Wake.timer ts (some data) err =>
      let logs := logs ++ [LogCall.scanTime ts] ++
        env.dataOidInfo.map
          (fun oidinfo => LogCall.dataValue oidinfo.Chancode oidinfo.Oid (StringMap.index data oidinfo.Oid)) ++
        (if st.first then LogCall.initialScanReceived :: logDeviceInfo env.staticOidInfo ts data else [])
      let st1 : LoopState :=
        { st with targetTime := targetTime, prevScan := st.scan, ts := ts, scan := some data,
                  err := err, first := false, scanMissed := false,
                  offset := Time.Sub ts targetTime }
      match classify env.dInterval targetTime ts with
      | Drift.farFuture =>
          emitRecord env { st1 with targetTime := Time.Round ts env.dInterval, first := true }
            (logs ++ [LogCall.futureScan, LogCall.incrementingTargetTime]) ts data
      | Drift.tooEarly =>
          if st1.prevScan.isSome && !st1.scanRepeated then
            { state := { st1 with scanRepeated := true, scan := st1.prevScan },
              logs := logs ++ [LogCall.missingScan ts targetTime, LogCall.repeatingPreviousScan],
              stdout := [], panicked := false }
          else
            { state := { st1 with first := true },
              logs := logs ++ [LogCall.missingScan ts targetTime], stdout := [], panicked := false }
      | Drift.onTime => emitRecord env st1 logs ts data

/-- The loop on a sequence of wake-ups: the effects of the iterations run, in order. The
loop stops once `exiting` is set, and a panic ends the program. -/
def run (env : PollEnv) : LoopState → List Wake → List CycleOut
  | _, [] => []
  | st, w :: ws =>
      if st.exiting then []
      else (cycle env st w) :: (if (cycle env st w).panicked then [] else run env (cycle env st w).state ws)

/-- Everything a run wrote on the standard output. -/
def runStdout (outs : List CycleOut) : List String := (outs.map (fun o => o.stdout)).flatten

/-! ## `snmp/service.go`: the scan cache and the sampler period -/

/-- The assignment `m[key] = val`. -/
def StringMap.set : StringMap → String → String → StringMap
  | [], key, val => [(key, val)]
  | (k, v) :: rest, key, val =>
      if k = key then (key, val) :: rest else (k, v) :: StringMap.set rest key val

/-- The keys of a Go map are pairwise different. -/
def StringMap.WellFormed (m : StringMap) : Prop := (m.map Prod.fst).Nodup

instance (m : StringMap) : Decidable (StringMap.WellFormed m) := by
  unfold StringMap.WellFormed; infer_instance

/-- The struct `snmpScan`. -/
structure snmpScan where
  TS : Int
  Data : StringMap
  deriving DecidableEq, Repr

/-- The method `snmpScan.copy`: a new map filled by `newdata[key] = val` over the entries. -/
def snmpScan.copy (scan : snmpScan) : snmpScan :=
  { TS := scan.TS,
    Data := scan.Data.foldl (fun newdata kv => StringMap.set newdata kv.1 kv.2) [] }

/-- The fields of `snmpService` the polling code reads or writes (`CurrentScan == nil` is
`none`). -/
structure snmpService where
  host : String
  port : Nat
  ready : Bool
  internalInterval : Int
  CurrentScan : Option snmpScan
  deriving DecidableEq, Repr

/-- The method `saveScan`. -/
def snmpService.saveScan (tsdev : snmpService) (ts : Int) (results : StringMap) : snmpService :=
  { tsdev with CurrentScan := some { TS := ts, Data := results } }

/-- The method `GetScan`, `now` being the value of `time.Now().UTC()`: the service afterwards
and the triple returned. -/
def snmpService.GetScan (tsdev : snmpService) (now : Int) :
    snmpService × Int × Option StringMap × Option String :=
  match tsdev.CurrentScan with
  | none => (tsdev, now, none, some "scan unavailable")
  | some cur =>
      ({ tsdev with CurrentScan := none }, (snmpScan.copy cur).TS, some (snmpScan.copy cur).Data, none)

/-- The part of the method `PollStart` that runs before the sampler goroutine: the service
afterwards, the error returned, and whether the goroutine is started. -/
def snmpService.PollStart (tsdev : snmpService) (sampleInterval : Int) :
    snmpService × Option String × Bool :=
  let tsdev1 := { tsdev with internalInterval := Int.tdiv sampleInterval 3 }
  if !tsdev1.ready then
    (tsdev1, some ("TSEMC1Device is not connected to host: " ++ tsdev1.host), false)
  else (tsdev1, none, true)

/-! ## `config/configuration.go`: the current model -/

/-- The loop of `SetModel` over the device groups from index `ndx` on. -/
def setModelLoop (model : String) : List DeviceInfo → Nat → ModelVars → ModelVars
  | [], _, g => g
  | devGroup :: rest, ndx, g =>
      setModelLoop model rest (ndx + 1)
        (if model = devGroup.ModelGroup then { curModelGroup := model, curModelNdx := ndx } else g)

/-- The method `TSMConfig.SetModel`: the package variables afterwards. -/
def TSMConfig.SetModel (cfg : TSMConfig) (g : ModelVars) (model : String) : ModelVars :=
  setModelLoop model cfg.Oids.DeviceGroups 0 g

/-- The method `TSMConfig.StaticOidsInfo`; `none` when `DeviceGroups[curModelNdx]` is out of
range. -/
def TSMConfig.StaticOidsInfo (cfg : TSMConfig) (g : ModelVars) :
    Option (List String × List OidInfo × Option String) :=
  if g.curModelGroup = "" then
    some ([], [], some "Model moust be set before calling StaticOidsInfo")
  else
    match cfg.Oids.DeviceGroups.get? g.curModelNdx with
    | none => none
    | some dg =>
        let oidInfo := cfg.Oids.EMCOids ++ dg.Static
        some (oidInfo.map (fun oidinfo => oidinfo.Oid), oidInfo, none)

/-- The method `TSMConfig.ModelInfo`: the group identifiers and the map from model to model
group. -/
def TSMConfig.ModelInfo (cfg : TSMConfig) : List String × StringMap :=
  (cfg.Oids.DeviceGroups.map (fun devGroup => devGroup.GroupOid),
   cfg.Oids.DeviceGroups.foldl
     (fun modelMap devGroup =>
       devGroup.Modellist.foldl (fun m model => StringMap.set m model devGroup.ModelGroup) modelMap)
     [])

/-! ## `snmp/service.go`: the sampler -/

/-- A variable of the answer of `tsdev.SNMPParams.Get`: an octet string, or a value that
`g.ToBigInt` turns into an integer. -/
inductive SnmpVar where
  | octetString (value : String)
  | other (bigInt : Int)
  deriving DecidableEq, Repr

/-- The text `g.ToBigInt(variable.Value).String()`. -/
def fmtBigInt (i : Int) : String := if i < 0 then "-" ++ fmtNat i.natAbs else fmtNat i.natAbs

/-- The loop of `QueryOids` over the variables of the answer, from index `i` on; `none` when
`(*oids)[i]` is out of range. -/
def queryResults (oids : List String) : List SnmpVar → Nat → StringMap → Option StringMap
  | [], _, results => some results
  | snmpVar :: rest, i, results =>
      match oids.get? i with
      | none => none
      | some oid =>
          queryResults oids rest (i + 1)
            (StringMap.set results oid
              (match snmpVar with
               | SnmpVar.octetString value => value
               | SnmpVar.other bigInt => fmtBigInt bigInt))

/-- The method `QueryOids`, given what `tsdev.SNMPParams.Get(*oids)` answers (an error or the
variables) and the value `now` of the clock: the timestamp, the map and the error returned;
`none` when the answer has more variables than `oids`. -/
def QueryOids (oids : List String) (get : Except String (List SnmpVar)) (now : Int) :
    Option (Int × StringMap × Option String) :=
  match get with
  | Except.error err => some (now, [], some err)
  | Except.ok snmpVars =>
      match queryResults oids snmpVars 0 [] with
      | none => none
      | some results => some (now, results, none)

/-- The method `queryDeviceVars`: the service afterwards and the error returned. -/
def snmpService.queryDeviceVars (tsdev : snmpService) (oids : List String)
    (get : Except String (List SnmpVar)) (now : Int) : Option (snmpService × Option String) :=
  match QueryOids oids get now with
  | none => none
  | some (_, _, some err) => some (tsdev, some err)
  | some (ts, results, none) => some (tsdev.saveScan ts results, none)

/-- The local state of the sampler goroutine of `PollStart`: the anchor `trigtime` and
whether the goroutine is still in its loop. -/
structure Sampler where
  trigtime : Int
  running : Bool
  deriving DecidableEq, Repr

/-- Which case of the `select` of the sampler runs: the timer, with the answer of the device
to the query it triggers and the clock, or `ctx.Done()`. -/
inductive SamplerEvent where
  | tick (get : Except String (List SnmpVar)) (now : Int)
  | done

/-- One iteration of the loop of the sampler goroutine (lines 208-222): the service and the
sampler afterwards and the `rlog` calls; `none` when `QueryOids` panics. -/
def samplerStep (oids : List String) (tsdev : snmpService) (sm : Sampler) (e : SamplerEvent) :
    Option (snmpService × Sampler × List LogCall) :=
  let trigtime := Time.Add sm.trigtime tsdev.internalInterval
  match e with
  | SamplerEvent.done => some (tsdev, { trigtime := trigtime, running := false }, [LogCall.samplerDone])
  | SamplerEvent.tick get now =>
      match tsdev.queryDeviceVars oids get now with
      | none => none
      | some (tsdev1, some err) =>
          some (tsdev1, { trigtime := trigtime, running := true }, [LogCall.samplerError err])
      | some (tsdev1, none) => some (tsdev1, { trigtime := trigtime, running := true }, [])

/-- The struct `cmdService` without its two interface fields. -/
structure cmdService where
  Host : String
  Port : String
  Community : String
  args : List String
  TSMCfg : TSMConfig

/-- The package variables of `cmd` that `initOids` assigns. -/
structure OidVars where
  staticOids : List String
  staticOidInfo : List OidInfo
  dataOids : List String
  dataOidInfo : List OidInfo
  allOids : List String
  deriving DecidableEq, Repr

/-- The value of these variables at program start. -/
def OidVars.zero : OidVars :=
  { staticOids := [], staticOidInfo := [], dataOids := [], dataOidInfo := [], allOids := [] }

/-- The function `initOids`: the variables afterwards and the error returned; `none` when a
panic ends the call. -/
def initOids (c : cmdService) (g : ModelVars) (v : OidVars) : Option (OidVars × Option String) :=
  match c.TSMCfg.StaticOidsInfo g with
  | none => none
  | some (staticOids, staticOidInfo, some err) =>
      some ({ v with staticOids := staticOids, staticOidInfo := staticOidInfo }, some err)
  | some (staticOids, staticOidInfo, none) =>
      match c.TSMCfg.DataOidsInfo g with
      | none => none
      | some (dataOids, dataOidInfo, some err) =>
          some ({ v with staticOids := staticOids, staticOidInfo := staticOidInfo,
                         dataOids := dataOids, dataOidInfo := dataOidInfo }, some err)
      | some (dataOids, dataOidInfo, none) =>
          some ({ staticOids := staticOids, staticOidInfo := staticOidInfo, dataOids := dataOids,
                  dataOidInfo := dataOidInfo, allOids := staticOids ++ dataOids }, none)

/-- A call `Poll` makes on the service, on the context of the sampler or on the wait group. -/
inductive PollCall where
  /-- The call `c.snmpService.InitAndConnect(c.Host, c.Port, c.Community)`. -/
  | initAndConnect (host port community : String)
  /-- The call `c.snmpService.QueryOids(modelGroupOids)`. -/
  | queryOids (oids : List String)
  /-- The call `c.snmpService.PollStart(ctx, &wg, &allOids, dInterval)`. -/
  | pollStart (oids : List String) (dInterval : Int)
  /-- The call `c.snmpService.GetScan()`. -/
  | getScan
  /-- The call `cancel()`. -/
  | cancel
  /-- The call `wg.Wait()`. -/
  | wgWait
  /-- The call `c.snmpService.Close()`. -/
  | close
  deriving DecidableEq, Repr

/-- What the service answers during `queryForModel`: the error of `InitAndConnect`, and the
map (in the order `range` visits it) and the error of `QueryOids`. -/
structure ModelQuery where
  connectErr : Option String
  results : StringMap
  queryErr : Option String

/-- The method `queryForModel`: the three values returned, the package variables of
`config` afterwards, the `rlog` calls and the calls on the service. -/
def queryForModel (c : cmdService) (g : ModelVars) (q : ModelQuery) :
    (String × String × Option String) × ModelVars × List LogCall × List PollCall :=
  match q.connectErr with
  | some err => (("", "", some err), g, [], [PollCall.initAndConnect c.Host c.Port c.Community])
  | none =>
      let calls := [PollCall.initAndConnect c.Host c.Port c.Community,
        PollCall.queryOids c.TSMCfg.ModelInfo.1, PollCall.close]
      match q.queryErr with
      | some err => (("", "", some err), g, [], calls)
      | none =>
          let found := q.results.foldl
            (fun acc kv => if kv.2 ≠ "0" then (kv.2, StringMap.index c.TSMCfg.ModelInfo.2 kv.2) else acc)
            ("", "")
          if found.1 = "" then
            (("", "", some ("Model not found in Model Group OID list [&[" ++
              " ".intercalate c.TSMCfg.ModelInfo.1 ++ "]]\n")), g, [], calls)
          else
            ((found.1, found.2, none), c.TSMCfg.SetModel g found.2,
              [LogCall.controllerIdentified found.2], calls)

/-- The calls on the service made by the iteration that runs the case `w` of the `select`. -/
def wakeCalls : Wake → List PollCall
  | Wake.timer _ _ _ => [PollCall.getScan]
  | Wake.sigdone => []

/-- How a call of `Poll` ends: it returns an error or nil, a panic ends the program, or the
script runs out while the loop is still waiting. -/
inductive PollResult where
  | returned (err : Option String)
  | panicked
  | running
  deriving DecidableEq, Repr

/-- The effect of (a part of) `Poll`. -/
structure PollOut where
  result : PollResult
  logs : List LogCall
  stdout : List String
  calls : List PollCall
  cycles : List CycleOut
  deriving DecidableEq, Repr

/-- How the loop `for !exiting` ends, from the effects of the iterations run: by the last
iteration setting `exiting` (nil is returned), by a panic, or not yet. -/
def loopResult (outs : List CycleOut) : PollResult :=
  match outs.getLast? with
  | none => PollResult.running
  | some o =>
      if o.panicked then PollResult.panicked
      else if o.state.exiting then PollResult.returned none
      else PollResult.running

/-- Lines 164-247 of `Poll`, with the deferred `c.snmpService.Close()`: the loop on the
wake-ups of the script started at the time `now`, then `cancel()`, `wg.Wait()`, the notice
`poll exiting` and `return nil`. The deferred call also runs when a panic unwinds. -/
def pollLoop (env : PollEnv) (now : Int) (wakes : List Wake) : PollOut :=
  let outs := run env (LoopState.init env.dInterval now) wakes
  let logs := (outs.map (fun o => o.logs)).flatten
  let calls := ((wakes.take outs.length).map wakeCalls).flatten
  match loopResult outs with
  | PollResult.returned err =>
      { result := PollResult.returned err, logs := logs ++ [LogCall.pollExiting],
        stdout := runStdout outs,
        calls := calls ++ [PollCall.cancel, PollCall.wgWait, PollCall.close], cycles := outs }
  | PollResult.panicked =>
      { result := PollResult.panicked, logs := logs, stdout := runStdout outs,
        calls := calls ++ [PollCall.close], cycles := outs }
  | PollResult.running =>
      { result := PollResult.running, logs := logs, stdout := runStdout outs, calls := calls,
        cycles := outs }

/-- What the service and the clock answer during `Poll`. -/
structure PollScript where
  /-- The answers during `queryForModel`. -/
  modelQuery : ModelQuery
  /-- The error of `InitAndConnect` at line 138. -/
  connectErr : Option String
  /-- The error of `PollStart` at line 149. -/
  startErr : Option String
  /-- The value of `time.Now()` at line 164. -/
  now : Int
  /-- The cases of the `select` that run, with the triples `GetScan` returns. -/
  wakes : List Wake

/-- The method `cmdService.Poll`, from the package variables `g` of `config` and `v` of
`cmd`: how it ends, what it logs and writes, and the calls it makes. -/
def Poll (rt : GoRuntime) (c : cmdService) (g : ModelVars) (v : OidVars) (s : PollScript) :
    PollOut :=
  match c.args.head? with
  | none => { result := PollResult.panicked, logs := [], stdout := [], calls := [], cycles := [] }
  | some arg0 =>
      let q := queryForModel c g s.modelQuery
      let modelGroup := q.1.2.1
      let g1 := c.TSMCfg.SetModel q.2.1 modelGroup
      let logs := [LogCall.runningCommand arg0 c.Host c.Port] ++ q.2.2.1 ++
        [LogCall.controllerIdentified modelGroup]
      let calls := q.2.2.2
      match pollArgsParse rt c.args with
      | none => { result := PollResult.panicked, logs := logs, stdout := [], calls := calls, cycles := [] }
      | some (_, some err, plogs) =>
          { result := PollResult.returned (some err), logs := logs ++ plogs, stdout := [],
            calls := calls, cycles := [] }
      | some (dInterval, none, plogs) =>
          let logs := logs ++ plogs ++ [LogCall.pollingInterval dInterval]
          let calls := calls ++ [PollCall.initAndConnect c.Host c.Port c.Community]
          match s.connectErr with
          | some err =>
              { result := PollResult.returned (some err), logs := logs, stdout := [],
                calls := calls, cycles := [] }
          | none =>
              match initOids c g1 v with
              | none =>
                  { result := PollResult.panicked, logs := logs, stdout := [],
                    calls := calls ++ [PollCall.close], cycles := [] }
              | some (v1, _) =>
                  let calls := calls ++ [PollCall.pollStart v1.allOids dInterval]
                  match s.startErr with
                  | some err =>
                      { result := PollResult.returned (some err),
                        logs := logs ++ [LogCall.couldNotStart], stdout := [],
                        calls := calls ++ [PollCall.cancel, PollCall.wgWait, PollCall.close],
                        cycles := [] }
                  | none =>
                      let loop := pollLoop
                        { rt := rt, dInterval := dInterval, cfg := c.TSMCfg, vars := g1,
                          staticOidInfo := v1.staticOidInfo, dataOidInfo := v1.dataOidInfo }
                        s.now s.wakes
                      { result := loop.result, logs := logs ++ [LogCall.loopSpawned] ++ loop.logs,
                        stdout := loop.stdout, calls := calls ++ loop.calls, cycles := loop.cycles }

/-- An iteration of the loop of `Poll` run against the scan cache of the service `tsdev`:
in the timer case `GetScan` is called at the time `now`. -/
def cycleOn (env : PollEnv) (st : LoopState) (tsdev : snmpService) :
    Option Int → CycleOut × snmpService
  | none => (cycle env st Wake.sigdone, tsdev)
  | some now =>
      (cycle env st (Wake.timer (tsdev.GetScan now).2.1 (tsdev.GetScan now).2.2.1
        (tsdev.GetScan now).2.2.2), (tsdev.GetScan now).1)

/-! ## `Poll` and the sampler goroutine side by side

`Poll` and the goroutine started by `PollStart` share the service, the context and the
`sync.WaitGroup`. A schedule says which of the two takes its next step, and what its
environment answers then. -/

/-- Where the goroutine of `PollStart` (service.go:200-223) is. -/
inductive TaskPc where
  /-- No `go` statement has run. -/
  | absent
  /-- The `go` statement has run and the body has not started: the `wg.Add(1)` of line 201
  is still to come. -/
  | spawned
  /-- In the loop `for`, after `wg.Add(1)`, `defer wg.Done()` and `trigtime := time.Now()`. -/
  | looping
  /-- Returned from the case `ctx.Done()`; the deferred `wg.Done()` has run. -/
  | finished
  /-- A panic in `QueryOids` has ended the goroutine, and the program. -/
  | panicked
  deriving DecidableEq, Repr

/-- Where `Poll` is, from the return of `PollStart` (line 149) on. -/
inductive PollPc where
  /-- In the loop `for !exiting`, at the `select`. -/
  | inLoop
  /-- Before `cancel()` (line 152 or 242). -/
  | atCancel
  /-- At `wg.Wait()` (line 153 or 243), which has not returned. -/
  | atWait
  /-- After `wg.Wait()`: the `return` and the deferred `Close()` are still to come. -/
  | atReturn
  /-- The deferred `c.snmpService.Close()` has run and `Poll` has returned. -/
  | returned
  /-- A panic has ended `Poll`, and the program. -/
  | panicked
  deriving DecidableEq, Repr

/-- What `Poll` and the sampler goroutine share, and where each of them is. -/
structure PollSystem where
  /-- The service, with its scan cache. -/
  tsdev : snmpService
  /-- The counter of the `sync.WaitGroup` of line 147. -/
  wg : Int
  /-- Whether `cancel()` has been called on the context of line 146. -/
  cancelled : Bool
  /-- Whether the `c.snmpService.Close()` deferred at line 142 has run. -/
  closed : Bool
  pc : PollPc
  /-- The error `Poll` returns. -/
  err : Option String
  /-- The variables of the loop of `Poll`. -/
  loop : LoopState
  /-- The effects of the iterations of the loop of `Poll` run so far. -/
  cycles : List CycleOut
  task : TaskPc
  /-- The variables of the goroutine. -/
  sampler : Sampler
  /-- The `rlog` calls of the goroutine. -/
  taskLogs : List LogCall

/-- The state when `PollStart` (line 149) has returned and `Poll` has set up its loop at the
time `now`. The `wg.Add(1)` and the deferred `wg.Done()` of `PollStart` itself (lines 193 and
194) leave the counter at 0; the goroutine, if the `go` statement has run, has not started.
On an error `Poll` goes to `cancel()`, `wg.Wait()` and `return err`. -/
def PollSystem.start (dInterval : Int) (tsdev : snmpService) (now : Int) : PollSystem :=
  { tsdev := (tsdev.PollStart dInterval).1, wg := 0 + 1 - 1, cancelled := false, closed := false,
    pc := if (tsdev.PollStart dInterval).2.1 = none then PollPc.inLoop else PollPc.atCancel,
    err := (tsdev.PollStart dInterval).2.1,
    loop := LoopState.init dInterval now, cycles := [],
    task := if (tsdev.PollStart dInterval).2.2 then TaskPc.spawned else TaskPc.absent,
    sampler := { trigtime := 0, running := false }, taskLogs := [] }

/-- A step of a schedule: who runs, and what the environment answers. -/
inductive Sched where
  /-- The timer case of the `select` of `Poll` runs (line 176), `GetScan` being called at
  the time `now`. -/
  | pollTimer (now : Int)
  /-- The case `sigdone` of the `select` of `Poll` runs (line 202). -/
  | pollSignal
  /-- The next statement of `Poll` after its loop: `cancel()`, then `wg.Wait()`, then the
  return with the deferred `Close()`. -/
  | pollNext
  /-- The body of the goroutine starts at the time `now`: `wg.Add(1)`, `defer wg.Done()`,
  `trigtime := time.Now()`. -/
  | taskStart (now : Int)
  /-- The timer case of the `select` of the goroutine runs (line 211), the device answering
  `get` at the time `now`. -/
  | taskTick (get : Except String (List SnmpVar)) (now : Int)
  /-- The case `ctx.Done()` of the `select` of the goroutine runs (line 217). -/
  | taskDone

/-- No panic has ended the program. -/
def PollSystem.alive (s : PollSystem) : Bool :=
  decide (s.pc ≠ PollPc.panicked) && decide (s.task ≠ TaskPc.panicked)

/-- The state after `Poll` has run the iteration with the effect `r.1` on its variables and
`r.2` on the service: the loop goes on unless `exiting` is set, and a panic runs the deferred
`Close()`. -/
def PollSystem.afterCycle (s : PollSystem) (r : CycleOut × snmpService) : PollSystem :=
  { s with tsdev := r.2, loop := r.1.state, cycles := s.cycles ++ [r.1],
           pc := if r.1.panicked then PollPc.panicked
                 else if r.1.state.exiting then PollPc.atCancel else PollPc.inLoop,
           closed := s.closed || r.1.panicked }

/-- One step of the schedule; `none` when the step cannot be taken in the state `s`: a
`select` case of a party that is not at its `select`, `wg.Wait()` while the counter is not 0,
`ctx.Done()` before `cancel()`, or any step after a panic. -/
def PollSystem.step (env : PollEnv) (oids : List String) (s : PollSystem) :
    Sched → Option PollSystem
  | Sched.pollTimer now =>
      if s.alive ∧ s.pc = PollPc.inLoop then
        some (s.afterCycle (cycleOn env s.loop s.tsdev (some now)))
      else none
  | Sched.pollSignal =>
      if s.alive ∧ s.pc = PollPc.inLoop then
        some (s.afterCycle (cycleOn env s.loop s.tsdev none))
      else none
  | Sched.pollNext =>
      if s.alive then
        match s.pc with
        | PollPc.atCancel => some { s with cancelled := true, pc := PollPc.atWait }
        | PollPc.atWait => if s.wg = 0 then some { s with pc := PollPc.atReturn } else none
        | PollPc.atReturn => some { s with closed := true, pc := PollPc.returned }
        | _ => none
      else none
  | Sched.taskStart now =>
      if s.alive ∧ s.task = TaskPc.spawned then
        some { s with wg := s.wg + 1, task := TaskPc.looping,
                      sampler := { trigtime := now, running := true } }
      else none
  | Sched.taskTick get now =>
      if s.alive ∧ s.task = TaskPc.looping then
        match samplerStep oids s.tsdev s.sampler (SamplerEvent.tick get now) with
        | none => some { s with wg := s.wg - 1, task := TaskPc.panicked }
        | some (tsdev1, sm1, logs) =>
            some { s with tsdev := tsdev1, sampler := sm1, taskLogs := s.taskLogs ++ logs }
      else none
  | Sched.taskDone =>
      if s.alive ∧ s.task = TaskPc.looping ∧ s.cancelled then
        match samplerStep oids s.tsdev s.sampler SamplerEvent.done with
        | none => some { s with wg := s.wg - 1, task := TaskPc.panicked }
        | some (tsdev1, sm1, logs) =>
            some { s with tsdev := tsdev1, sampler := sm1, taskLogs := s.taskLogs ++ logs,
                          wg := s.wg - 1, task := TaskPc.finished }
      else none

/-- A whole schedule; `none` when one of its steps cannot be taken. -/
def PollSystem.exec (env : PollEnv) (oids : List String) :
    PollSystem → List Sched → Option PollSystem
  | s, [] => some s
  | s, x :: xs =>
      match s.step env oids x with
      | none => none
      | some s1 => PollSystem.exec env oids s1 xs

/-! ## A Go implementation to evaluate the model on -/

/-- An optional sign at the head of `cs`: whether it is a minus, and the rest. -/
def takeSign : List Char → Bool × List Char
  | '+' :: cs => (false, cs)
  | '-' :: cs => (true, cs)
  | cs => (false, cs)

/-- Whether `c` is one of the letters `a` to `f`, in either case. -/
def isHexLetter (c : Char) : Bool := decide ('a' ≤ c.toLower) && decide (c.toLower ≤ 'f')

/-- The value of a decimal or hexadecimal digit. -/
def digitValue (c : Char) : Nat := if c.isDigit then c.toNat - 48 else c.toLower.toNat - 87

/-- The loop of `underscoreOK` of `strconv` over the number proper: `saw` is the kind of the
last character seen, `0` for a digit or a base prefix, `_` for an underscore, `!` for
anything else, `^` at the beginning. -/
def underscoreOKLoop (hex : Bool) : List Char → Char → Bool
  | [], saw => decide (saw ≠ '_')
  | c :: cs, saw =>
      if c.isDigit ∨ (hex = true ∧ isHexLetter c = true) then underscoreOKLoop hex cs '0'
      else if c = '_' then (if saw ≠ '0' then false else underscoreOKLoop hex cs '_')
      else if saw = '_' then false
      else underscoreOKLoop hex cs '!'

/-- The function `underscoreOK` of `strconv`: underscores are allowed only between digits,
or between a base prefix and a digit. -/
def underscoreOK (cs : List Char) : Bool :=
  match (takeSign cs).2 with
  | '0' :: x :: r =>
      if x.toLower = 'b' ∨ x.toLower = 'o' ∨ x.toLower = 'x' then
        underscoreOKLoop (decide (x.toLower = 'x')) r '0'
      else underscoreOKLoop false ('0' :: x :: r) '^'
  | r => underscoreOKLoop false r '^'

/-- What the mantissa loop of `readFloat` has read: the digits as a number, how many of
them came after the point, and the flags `sawdot`, `sawdigits` and `underscores`. -/
structure Mantissa where
  mant : Nat
  frac : Nat
  sawdot : Bool
  sawdigits : Bool
  underscores : Bool

/-- The mantissa loop of `readFloat` of `strconv`, in base 16 after the prefix `0x`: what
was read, and the rest of the input from the first character that ends the loop. -/
def readMantissa (hex : Bool) : List Char → Mantissa → Mantissa × List Char
  | [], m => (m, [])
  | c :: cs, m =>
      if c = '_' then readMantissa hex cs { m with underscores := true }
      else if c = '.' then
        if m.sawdot then (m, c :: cs) else readMantissa hex cs { m with sawdot := true }
      else if c.isDigit ∨ (hex = true ∧ isHexLetter c = true) then
        readMantissa hex cs
          { m with sawdigits := true, mant := m.mant * (if hex then 16 else 10) + digitValue c,
                   frac := if m.sawdot then m.frac + 1 else m.frac }
      else (m, c :: cs)

/-- The exponent loop of `readFloat`: digits and underscores, the value no longer growing
once it has reached 10000. -/
def readExponent : List Char → Nat → Bool → Nat × Bool × List Char
  | [], e, u => (e, u, [])
  | c :: cs, e, u =>
      if c = '_' then readExponent cs e true
      else if c.isDigit then
        readExponent cs (if e < 10000 then e * 10 + (c.toNat - 48) else e) u
      else (e, u, c :: cs)

/-- The function `readFloat` of `strconv` on a whole input: a decimal literal
`[sign] digits [. digits] [(e|E) [sign] digits]` or a hexadecimal one
`[sign] 0x digits [. digits] (p|P) [sign] digits`, with at least one mantissa digit and
underscores where `underscoreOK` allows them. The result is the sign, whether the literal
is hexadecimal, the mantissa digits as a number, how many of them follow the point, and the
exponent; `none` when the input is not such a literal. -/
def readFloat (cs : List Char) : Option (Bool × Bool × Nat × Nat × Int) :=
  let hex : Bool := match (takeSign cs).2 with
    | '0' :: x :: _ :: _ => decide (x.toLower = 'x')
    | _ => false
  let r := readMantissa hex (if hex then (takeSign cs).2.drop 2 else (takeSign cs).2)
    { mant := 0, frac := 0, sawdot := false, sawdigits := false, underscores := false }
  if r.1.sawdigits = false then none
  else
    match r.2 with
    | [] =>
        if hex then none
        else if r.1.underscores = true ∧ underscoreOK cs = false then none
        else some ((takeSign cs).1, false, r.1.mant, r.1.frac, 0)
    | c :: r3 =>
        if c.toLower = (if hex then 'p' else 'e') then
          match (takeSign r3).2 with
          | [] => none
          | d :: r4 =>
              if d.isDigit then
                let x := readExponent (d :: r4) 0 r.1.underscores
                if x.2.2 ≠ [] then none
                else if x.2.1 = true ∧ underscoreOK cs = false then none
                else some ((takeSign cs).1, hex, r.1.mant, r.1.frac,
                  if (takeSign r3).1 then -(x.1 : Int) else (x.1 : Int))
              else none
        else none

/-- What `strconv.Quote` writes for one character of the ASCII range; characters beyond it
are taken as printable and written as they are. -/
def quoteChar (c : Char) : List Char :=
  if c = Char.ofNat 34 ∨ c = Char.ofNat 92 then [Char.ofNat 92, c]
  else if 32 ≤ c.toNat ∧ c.toNat < 127 then [c]
  else if c.toNat = 7 then [Char.ofNat 92, 'a']
  else if c.toNat = 8 then [Char.ofNat 92, 'b']
  else if c.toNat = 12 then [Char.ofNat 92, 'f']
  else if c.toNat = 10 then [Char.ofNat 92, 'n']
  else if c.toNat = 13 then [Char.ofNat 92, 'r']
  else if c.toNat = 9 then [Char.ofNat 92, 't']
  else if c.toNat = 11 then [Char.ofNat 92, 'v']
  else if c.toNat < 32 ∨ c.toNat = 127 then
    [Char.ofNat 92, 'x', Nat.digitChar (c.toNat / 16), Nat.digitChar (c.toNat % 16)]
  else [c]

/-- The function `strconv.Quote`. -/
def Quote (s : String) : String :=
  String.mk ([Char.ofNat 34] ++ (s.data.map quoteChar).flatten ++ [Char.ofNat 34])

/-- The error text of `strconv.ParseFloat`:
`"strconv.ParseFloat: parsing " + Quote(s) + ": " + reason`. -/
def parseFloatError (s reason : String) : String :=
  "strconv.ParseFloat: parsing " ++ Quote s ++ ": " ++ reason

/-- The function `strconv.ParseFloat`: the special values, and the decimal and hexadecimal
literals of `readFloat`, of which it gives the nearest value of the format of `bitSize`
bits, infinity with a range error on overflow. -/
def refParseFloat (s : String) (bitSize : Nat) : Float64 × Option String :=
  let low := String.mk (s.data.map Char.toLower)
  if low = "nan" then (Float64.nan, none)
  else if low = "inf" ∨ low = "+inf" ∨ low = "infinity" ∨ low = "+infinity" then
    (Float64.inf false, none)
  else if low = "-inf" ∨ low = "-infinity" then (Float64.inf true, none)
  else
    match readFloat s.data with
    | none => (Float64.finite false 0 0, some (parseFloatError s "invalid syntax"))
    | some (neg, hex, mant, frac, exp) =>
        let b : Nat := if hex then 2 else 10
        let e : Int := if hex then exp - 4 * (frac : Int) else exp - (frac : Int)
        let num := if 0 ≤ e then mant * b ^ e.toNat else mant
        let den := if 0 ≤ e then 1 else b ^ (-e).toNat
        match (if bitSize = 32 then round32 neg num den else round64 neg num den) with
        | Float64.inf n => (Float64.inf n, some (parseFloatError s "value out of range"))
        | f => (f, none)

/-- A Go implementation: `refParseFloat`; `int64(f)` of a value that does not fit is
`-1 << 63`, the result of the amd64 conversion instruction; `uint(f)` of a value that does
not fit is `1 << 63`; a width beyond the limit of `fmt` gives its bad-verb text. -/
def refRuntime : GoRuntime :=
  { ParseFloat := refParseFloat
    int64OfFloat := fun _ => minDuration
    uintOfFloat := fun _ => 9223372036854775808
    SprintfWideBin := fun _ v => "%!(NOVERB)%!(EXTRA uint64=" ++ fmtNat v ++ ")" }

/-! ## Vocabulary of the statements -/

/-- What an iteration that reaches line 239 with the scan `data` taken at `ts` writes on the
standard output: the lines `ValueString` prints, then the record and a newline (the record
is missing when `formatScan` panics). -/
def recordWrites (env : PollEnv) (ts : Int) (data : StringMap) : List String :=
  match formatScan env.rt env.vars env.dInterval env.cfg ts data with
  | (some line, prints) => prints ++ [line ++ "\n"]
  | (none, prints) => prints

/-- The wake-up of an iteration whose `GetScan` returns the scan `s`. -/
def scanWake (s : Int × StringMap) : Wake := Wake.timer s.1 (some s.2) none

/-- Every scan of the list is within half an interval of the target time of its iteration,
the target times starting at `T` and advancing by `I`. -/
def AllOnTime (I : Int) : Int → List (Int × StringMap) → Prop
  | _, [] => True
  | T, s :: rest => (-(I / 2) ≤ s.1 - T ∧ s.1 - T ≤ I / 2) ∧ AllOnTime I (T + I) rest

/-- The six calendar fields of the record, zero padded. -/
def stampFields (ts : Int) : List String :=
  [fmtIntZero 4 (Time.Year ts), fmtIntZero 2 (Time.Month ts), fmtIntZero 2 (Time.Day ts),
   fmtIntZero 2 (Time.Hour ts), fmtIntZero 2 (Time.Minute ts), fmtIntZero 2 (Time.Sec ts)]

/-- The field `code:value` of the record for the identifier `oidinfo`: its channel code and
`ValueString` of the raw value `scan[oid]` (empty where `ValueString` panics). -/
def pairField (rt : GoRuntime) (scan : StringMap) (oidinfo : OidInfo) : String :=
  oidinfo.Chancode ++ ":" ++
    ((OidInfo.ValueString rt oidinfo (StringMap.index scan oidinfo.Oid)).map Prod.fst).getD ""

/-- The fields of the record, in order: calendar fields, network, station, location,
interval in seconds, then one `code:value` per data identifier. -/
def recordFields (rt : GoRuntime) (sampleInterval : Int) (cfg : TSMConfig) (ts : Int)
    (scan : StringMap) (oidInfos : List OidInfo) : List String :=
  stampFields ts ++
    [cfg.General.Net, cfg.General.Sta, cfg.General.Loc, fmtFixed 0 (Duration.Seconds sampleInterval)] ++
    oidInfos.map (pairField rt scan)

/-- The types `ValueString` has a case for. -/
def KnownType (oidinfo : OidInfo) : Prop :=
  oidinfo.Typ = "string" ∨ oidinfo.Typ = "number" ∨ oidinfo.Typ = "bitreverse" ∨
    oidinfo.Typ = "map" ∨ oidinfo.Typ = "bitmap"

instance (oidinfo : OidInfo) : Decidable (KnownType oidinfo) := by
  unfold KnownType; infer_instance

/-- Scans taken exactly at the target times `T`, `T + I`, `T + 2 I`, ... of consecutive
iterations. -/
def onTargetSnaps (I : Int) : Int → List StringMap → List (Int × StringMap)
  | _, [] => []
  | T, d :: ds => (T, d) :: onTargetSnaps I (T + I) ds

/-- The target times the iterations of a run wait on, in order. -/
def runTargets (env : PollEnv) : LoopState → List Wake → List Int
  | _, [] => []
  | st, w :: ws =>
      if st.exiting then []
      else waitTarget env st ::
        (if (cycle env st w).panicked then [] else runTargets env (cycle env st w).state ws)

/-- The iteration whose effect is `o` took the repeat branch of the too-early arm. -/
def TookRepeat (o : CycleOut) : Prop := LogCall.repeatingPreviousScan ∈ o.logs

instance (o : CycleOut) : Decidable (TookRepeat o) := by
  unfold TookRepeat; infer_instance

/-- The iteration whose effect is `o` reached line 237 and wrote a record: `scanRepeated` is
clear, no panic, and something was written. -/
def EmittedRecord (o : CycleOut) : Prop :=
  o.state.scanRepeated = false ∧ o.panicked = false ∧ o.stdout ≠ []

instance (o : CycleOut) : Decidable (EmittedRecord o) := by
  unfold EmittedRecord; infer_instance

/-- The loop variables after a run. -/
def runFinal (env : PollEnv) : LoopState → List Wake → LoopState
  | st, [] => st
  | st, w :: ws =>
      if st.exiting then st
      else if (cycle env st w).panicked then (cycle env st w).state
      else runFinal env (cycle env st w).state ws

/-- The package variables of `config` after lines 126-127 of `Poll`: `queryForModel`, then
`SetModel` with the model group it returned. -/
def pollVars (c : cmdService) (g : ModelVars) (s : PollScript) : ModelVars :=
  c.TSMCfg.SetModel (queryForModel c g s.modelQuery).2.1 (queryForModel c g s.modelQuery).1.2.1

/-- The environment of the loop of `Poll`, as its lines 117-156 set it up: the model found
by `queryForModel` is set, `dInterval` is the interval parsed and `v1` holds the lists
`initOids` assigned. -/
def pollEnv (rt : GoRuntime) (c : cmdService) (g : ModelVars) (s : PollScript)
    (dInterval : Int) (v1 : OidVars) : PollEnv :=
  { rt := rt, dInterval := dInterval, cfg := c.TSMCfg, vars := pollVars c g s,
    staticOidInfo := v1.staticOidInfo, dataOidInfo := v1.dataOidInfo }

/-- The calls `Poll` has made on the service when it reaches the loop. -/
def pollCallsBefore (c : cmdService) (g : ModelVars) (s : PollScript) (dInterval : Int)
    (v1 : OidVars) : List PollCall :=
  (queryForModel c g s.modelQuery).2.2.2 ++ [PollCall.initAndConnect c.Host c.Port c.Community] ++
    [PollCall.pollStart v1.allOids dInterval]

/-- The lines the default arm of `ValueString` prints while `formatScan` builds the record
of `scan`: `fmt.Println("ToString WOWZA: ", resstr)` once for every identifier of a type
without a case, in the order of the identifiers. -/
def defaultArmLines (scan : StringMap) (oidInfos : List OidInfo) : List String :=
  (oidInfos.filter (fun oidinfo => decide (¬ KnownType oidinfo))).map
    (fun oidinfo => "ToString WOWZA:  " ++ StringMap.index scan oidinfo.Oid ++ "\n")

/-- The number of newline characters in a string. -/
def lineBreaks (s : String) : Nat := s.data.count (Char.ofNat 10)

/-- The number of newline characters written, that is the number of lines of the output. -/
def lineCount (out : List String) : Nat := (out.map lineBreaks).sum

/-- The string holds no newline character. -/
def NoNewline (s : String) : Prop := lineBreaks s = 0

instance (s : String) : Decidable (NoNewline s) := by
  unfold NoNewline; infer_instance

/-- The counter of the wait group is 1 while the goroutine is in its loop, and 0 before it
has registered and after its `wg.Done()`. -/
def PollSystem.WgCounts (s : PollSystem) : Prop :=
  s.wg = if s.task = TaskPc.looping then 1 else 0

/-- What one looks at in a state of `Poll` and the sampler: where `Poll` is, the error it
returns, whether the context is cancelled and the session closed, where the goroutine is,
and what `Poll` has written. -/
structure PollView where
  pc : PollPc
  err : Option String
  cancelled : Bool
  closed : Bool
  task : TaskPc
  stdout : List String
  deriving DecidableEq, Repr

/-- The view of a state. -/
def PollSystem.view (s : PollSystem) : PollView :=
  { pc := s.pc, err := s.err, cancelled := s.cancelled, closed := s.closed, task := s.task,
    stdout := runStdout s.cycles }

/-- What holds in every state `Poll` and the sampler reach: the counter counts the goroutine
in its loop, the session is closed exactly when `Poll` has returned or panicked, and `Poll`
is past `cancel()` only with the context cancelled. -/
def PollSystem.Sound (s : PollSystem) : Prop :=
  s.WgCounts ∧ (s.closed = true ↔ (s.pc = PollPc.returned ∨ s.pc = PollPc.panicked)) ∧
    ((s.pc = PollPc.atWait ∨ s.pc = PollPc.atReturn ∨ s.pc = PollPc.returned) →
      s.cancelled = true)

/-- The goroutine has registered with the wait group (it has run its `wg.Add(1)`), and
`Poll` is past `wg.Wait()` only with the goroutine finished. -/
def PollSystem.Awaits (s : PollSystem) : Prop :=
  (s.task = TaskPc.looping ∨ s.task = TaskPc.finished ∨ s.task = TaskPc.panicked) ∧
    ((s.pc = PollPc.atReturn ∨ s.pc = PollPc.returned) → s.task = TaskPc.finished)

/-! ## Concrete configurations and states -/

/-- A data identifier of type `string` with channel code `A`. -/
def exOid : OidInfo :=
  { Oid := "1.3.6.1.4.1.1", Chancode := "A", Label := "input A", Units := "", Typ := "string",
    Scaling := Float64.finite false 1 0, Values := [], Result := "", Register := 0,
    RegisterType := "" }

/-- A data identifier of type `map` with two values. -/
def exMapOid : OidInfo :=
  { Oid := "1.3.6.1.4.1.2", Chancode := "M", Label := "relay", Units := "", Typ := "map",
    Scaling := Float64.finite false 1 0, Values := ["off", "on"], Result := "", Register := 0,
    RegisterType := "" }

/-- A configuration with one device group whose only data identifier is `oid`. -/
def exCfgOf (oid : OidInfo) : TSMConfig :=
  { General := { Sta := "STA", Net := "NET", Loc := "00" },
    Oids := { EMCOids := [],
              DeviceGroups := [{ GroupOid := "1.3.6.1.4.1.0", ModelGroup := "TS1", Modellist := ["TS1-a"],
                                 Static := [], Status := [oid], Measurements := [], Alarms := [],
                                 Faults := [] }] } }

/-- Polling every two seconds, the model set to the device group of `exCfgOf oid`. -/
def exEnvOf (oid : OidInfo) : PollEnv :=
  { rt := refRuntime, dInterval := 2 * Second, cfg := exCfgOf oid,
    vars := { curModelGroup := "TS1", curModelNdx := 0 }, staticOidInfo := [], dataOidInfo := [oid] }

/-- Polling every two seconds with the identifier `exOid`. -/
def exEnv : PollEnv := exEnvOf exOid

/-- The instant `ms` milliseconds after 2025-01-01 00:00:00 UTC, which is 63871286400 s
after the zero time (1735689600 s after the Unix epoch). -/
def exTime (ms : Int) : Int := 63871286400000000000 + ms * 1000000

/-- The loop variables when the loop is set up at 00:00:06: the first iteration waits on the
target time 00:00:10. -/
def exState : LoopState := LoopState.init (2 * Second) (exTime 6000)

/-- A scan giving the identifier of `exOid` the value `"10"`. -/
def exScan : StringMap := [("1.3.6.1.4.1.1", "10")]

/-- A connected service whose cache holds a scan taken at 00:00:09. -/
def exService : snmpService :=
  { host := "10.0.0.1", port := 161, ready := true, internalInterval := 666666666,
    CurrentScan := some { TS := exTime 9000, Data := [("1.3.6.1.4.1.1", "9")] } }

/-- A static identifier: the model name of the device. -/
def exStaticOid : OidInfo :=
  { Oid := "1.3.6.1.4.1.9", Chancode := "", Label := "model", Units := "", Typ := "string",
    Scaling := Float64.finite false 1 0, Values := [], Result := "", Register := 0,
    RegisterType := "" }

/-- The environment `exEnv` with the static identifier `exStaticOid`. -/
def exEnvStatic : PollEnv := { exEnv with staticOidInfo := [exStaticOid] }

/-- A scan with the model name and the value `"10"` of the identifier of `exOid`. -/
def exScanStatic : StringMap := [("1.3.6.1.4.1.9", "TS1-a"), ("1.3.6.1.4.1.1", "10")]

/-- A data identifier of type `string` with channel code `B`. -/
def exOidB : OidInfo :=
  { Oid := "1.3.6.1.4.1.3", Chancode := "B", Label := "input B", Units := "", Typ := "string",
    Scaling := Float64.finite false 1 0, Values := [], Result := "", Register := 0,
    RegisterType := "" }

/-- A data identifier whose type `ValueString` has no case for. -/
def exOddOid : OidInfo :=
  { Oid := "1.3.6.1.4.1.4", Chancode := "X", Label := "input X", Units := "", Typ := "text",
    Scaling := Float64.finite false 1 0, Values := [], Result := "", Register := 0,
    RegisterType := "" }

/-- A configuration with two device groups; the second, `TS2`, lists the identifier of
`exOid` under `Status` and that of `exOidB` under `Measurements`. -/
def exCfgAB : TSMConfig :=
  { General := { Sta := "STA", Net := "NET", Loc := "00" },
    Oids := { EMCOids := [],
              DeviceGroups :=
                [{ GroupOid := "1.3.6.1.4.1.0", ModelGroup := "TS1", Modellist := ["TS1-a"],
                   Static := [], Status := [exMapOid], Measurements := [], Alarms := [], Faults := [] },
                 { GroupOid := "1.3.6.1.4.1.5", ModelGroup := "TS2", Modellist := ["TS2-a"],
                   Static := [exStaticOid], Status := [exOid], Measurements := [exOidB],
                   Alarms := [], Faults := [] }] } }

/-- Polling every two seconds on `exCfgAB` with the model `TS2` set. -/
def exEnvAB : PollEnv :=
  { rt := refRuntime, dInterval := 2 * Second, cfg := exCfgAB,
    vars := TSMConfig.SetModel exCfgAB ModelVars.zero "TS2",
    staticOidInfo := [exStaticOid], dataOidInfo := [exOid, exOidB] }

/-- A scan giving the identifiers of `exOid` and `exOidB` the values `"10"` and `"20"`. -/
def exScanAB : StringMap := [("1.3.6.1.4.1.1", "10"), ("1.3.6.1.4.1.3", "20")]

/-- Four wake-ups, polling every 2 s from `exState`: a scan on time at 00:00:10, a scan from
00:00:10.5 at 00:00:12, a scan on time at 00:00:14 and a scan from 00:00:14.5 at 00:00:16. -/
def exRepeatWakes : List Wake :=
  [Wake.timer (exTime 10000) (some exScan) none,
   Wake.timer (exTime 10500) (some [("1.3.6.1.4.1.1", "11")]) none,
   Wake.timer (exTime 14000) (some [("1.3.6.1.4.1.1", "12")]) none,
   Wake.timer (exTime 14500) (some [("1.3.6.1.4.1.1", "13")]) none]

/-- The effect of the first iteration on `exRepeatWakes`. -/
def exOut0 : CycleOut := cycle exEnv exState (Wake.timer (exTime 10000) (some exScan) none)

/-- The effect of the second iteration on `exRepeatWakes`. -/
def exOut1 : CycleOut :=
  cycle exEnv exOut0.state (Wake.timer (exTime 10500) (some [("1.3.6.1.4.1.1", "11")]) none)

/-- The effect of the third iteration on `exRepeatWakes`. -/
def exOut2 : CycleOut :=
  cycle exEnv exOut1.state (Wake.timer (exTime 14000) (some [("1.3.6.1.4.1.1", "12")]) none)

/-- The effect of the fourth iteration on `exRepeatWakes`. -/
def exOut3 : CycleOut :=
  cycle exEnv exOut2.state (Wake.timer (exTime 14500) (some [("1.3.6.1.4.1.1", "13")]) none)

/-- The command `tsm 10.0.0.1 poll 2` on the configuration `exCfgAB`. -/
def exCmd : cmdService :=
  { Host := "10.0.0.1", Port := "161", Community := "public", args := ["10.0.0.1", "poll", "2"],
    TSMCfg := exCfgAB }

/-- A script: the device answers the model query with the model `TS2-a`, the connection
succeeds, the sampler starts, the loop is set up at 00:00:06, takes an on-time scan at
00:00:10, finds no scan at 00:00:12, and the stop signal fires during the third wait. -/
def exScript : PollScript :=
  { modelQuery := { connectErr := none,
                    results := [("1.3.6.1.4.1.0", "0"), ("1.3.6.1.4.1.5", "TS2-a")],
                    queryErr := none },
    connectErr := none, startErr := none, now := exTime 6000,
    wakes := [Wake.timer (exTime 10000) (some exScanAB) none,
              Wake.timer (exTime 12000) none (some "scan unavailable"),
              Wake.sigdone] }

/-- The service `exService` before it is connected. -/
def exServiceDown : snmpService := { exService with ready := false }

/-- A data identifier of type `bitreverse` over 3 bits, with channel code `R`. -/
def exBitOid : OidInfo :=
  { Oid := "1.3.6.1.4.1.6", Chancode := "R", Label := "relays", Units := "", Typ := "bitreverse",
    Scaling := Float64.finite false 3 0, Values := [], Result := "", Register := 0,
    RegisterType := "" }

/-! ## Drift classification -/

theorem hInterval_eq (I : Int) (h0 : 0 ≤ I) : hInterval I = I / 2 := by
  unfold hInterval
  exact Int.tdiv_eq_ediv h0 (by decide)

theorem sub_gt_iff (ts T h : Int) (h0 : 0 ≤ h) (h1 : h < maxDuration) :
    Time.Sub ts T > h ↔ ts - T > h := by
  unfold Time.Sub
  unfold maxDuration at h1
  simp only [minDuration, maxDuration]
  split_ifs <;> constructor <;> intro _ <;> omega

theorem sub_lt_neg_iff (ts T h : Int) (h0 : 0 ≤ h) (h1 : h < maxDuration) :
    Time.Sub ts T < -h ↔ ts - T < -h := by
  unfold Time.Sub
  unfold maxDuration at h1
  simp only [minDuration, maxDuration]
  split_ifs <;> constructor <;> intro _ <;> omega

theorem half_lt_max (I : Int) (h0 : 0 ≤ I) (h1 : I ≤ maxDuration) : I / 2 < maxDuration := by
  unfold maxDuration at *
  omega

theorem classify_farFuture_iff (I T ts : Int) (h0 : 0 ≤ I) (h1 : I ≤ maxDuration) :
    classify I T ts = Drift.farFuture ↔ ts - T > I / 2 := by
  have hs := sub_gt_iff ts T (I / 2) (by omega) (half_lt_max I h0 h1)
  unfold classify
  rw [hInterval_eq I h0]
  simp only []
  split_ifs with ha hb
  · simpa using hs.mp ha
  · simp only [reduceCtorEq, false_iff]
    exact fun hc => ha (hs.mpr hc)
  · simp only [reduceCtorEq, false_iff]
    exact fun hc => ha (hs.mpr hc)

theorem classify_tooEarly_iff (I T ts : Int) (h0 : 0 ≤ I) (h1 : I ≤ maxDuration) :
    classify I T ts = Drift.tooEarly ↔ ts - T < -(I / 2) := by
  have hs := sub_gt_iff ts T (I / 2) (by omega) (half_lt_max I h0 h1)
  have hl := sub_lt_neg_iff ts T (I / 2) (by omega) (half_lt_max I h0 h1)
  unfold classify
  rw [hInterval_eq I h0]
  simp only []
  split_ifs with ha hb
  · simp only [reduceCtorEq, false_iff]
    have := hs.mp ha
    omega
  · simpa using hl.mp hb
  · simp only [reduceCtorEq, false_iff]
    exact fun hc => hb (hl.mpr hc)

theorem classify_onTime_iff (I T ts : Int) (h0 : 0 ≤ I) (h1 : I ≤ maxDuration) :
    classify I T ts = Drift.onTime ↔ -(I / 2) ≤ ts - T ∧ ts - T ≤ I / 2 := by
  have hf := classify_farFuture_iff I T ts h0 h1
  have he := classify_tooEarly_iff I T ts h0 h1
  cases hc : classify I T ts
  · simp only [reduceCtorEq, false_iff]
    have := hf.mp hc
    omega
  · simp only [reduceCtorEq, false_iff]
    have := he.mp hc
    omega
  · simp only [true_iff]
    constructor
    · by_contra hn
      have := he.mpr (by omega)
      rw [hc] at this
      cases this
    · by_contra hn
      have := hf.mpr (by omega)
      rw [hc] at this
      cases this

theorem emitRecord_logs (env : PollEnv) (st : LoopState) (logs : List LogCall) (ts : Int)
    (scan : StringMap) : (emitRecord env st logs ts scan).logs = logs := by
  unfold emitRecord
  split <;> rfl

theorem emitRecord_state (env : PollEnv) (st : LoopState) (logs : List LogCall) (ts : Int)
    (scan : StringMap) :
    (emitRecord env st logs ts scan).state = { st with scanRepeated := false } := by
  unfold emitRecord
  split <;> rfl

theorem emitRecord_stdout (env : PollEnv) (st : LoopState) (logs : List LogCall) (ts : Int)
    (scan : StringMap) (line : String) (prints : List String)
    (hf : formatScan env.rt env.vars env.dInterval env.cfg ts scan = (some line, prints)) :
    (emitRecord env st logs ts scan).stdout = prints ++ [line ++ "\n"] ∧
      (emitRecord env st logs ts scan).panicked = false := by
  unfold emitRecord
  rw [hf]
  exact ⟨rfl, rfl⟩

/-- C1. The branch an iteration takes for a scan that is present depends only on the offset
`ts - T` of the scan time from the target time `T` the iteration waits on and on the
interval `I`, whatever the loop variables are: "far future" (the iteration logs the
future-scan warning) iff `ts - T > I/2`, "too early / missing" (it logs the missing-scan
error) iff `ts - T < -(I/2)`, "on time" otherwise; the offsets `I/2` and `-(I/2)` are both
on time. The quotient `I/2` is the integer one of the code; as offsets are whole
nanoseconds, the tests are those against the exact half: `2 * (ts - T) > I` and
`2 * (ts - T) < -I`. -/
theorem drift_classification_by_offset (env : PollEnv) (st : LoopState) (ts : Int)
    (data : StringMap) (err : Option String)
    (h0 : 0 ≤ env.dInterval) (h1 : env.dInterval ≤ maxDuration) :
    (classify env.dInterval (waitTarget env st) ts = Drift.farFuture ↔
        ts - waitTarget env st > env.dInterval / 2) ∧
    (classify env.dInterval (waitTarget env st) ts = Drift.tooEarly ↔
        ts - waitTarget env st < -(env.dInterval / 2)) ∧
    (classify env.dInterval (waitTarget env st) ts = Drift.onTime ↔
        -(env.dInterval / 2) ≤ ts - waitTarget env st ∧ ts - waitTarget env st ≤ env.dInterval / 2) ∧
    (ts - waitTarget env st = env.dInterval / 2 →
        classify env.dInterval (waitTarget env st) ts = Drift.onTime) ∧
    (ts - waitTarget env st = -(env.dInterval / 2) →
        classify env.dInterval (waitTarget env st) ts = Drift.onTime) ∧
    (LogCall.futureScan ∈ (cycle env st (Wake.timer ts (some data) err)).logs ↔
        ts - waitTarget env st > env.dInterval / 2) ∧
    (LogCall.missingScan ts (waitTarget env st) ∈ (cycle env st (Wake.timer ts (some data) err)).logs ↔
        ts - waitTarget env st < -(env.dInterval / 2)) ∧
    (classify env.dInterval (waitTarget env st) ts = Drift.farFuture ↔
        2 * (ts - waitTarget env st) > env.dInterval) ∧
    (classify env.dInterval (waitTarget env st) ts = Drift.tooEarly ↔
        2 * (ts - waitTarget env st) < -env.dInterval) := by
  have hf := classify_farFuture_iff env.dInterval (waitTarget env st) ts h0 h1
  have he := classify_tooEarly_iff env.dInterval (waitTarget env st) ts h0 h1
  have ho := classify_onTime_iff env.dInterval (waitTarget env st) ts h0 h1
  refine ⟨hf, he, ho, fun h => ho.mpr (by omega), fun h => ho.mpr (by omega), ?_, ?_,
    hf.trans (by constructor <;> intro _ <;> omega),
    he.trans (by constructor <;> intro _ <;> omega)⟩
  · rw [← hf]
    unfold waitTarget
    cases hc : classify env.dInterval (Time.Add st.targetTime env.dInterval) ts <;>
      simp [cycle, hc, emitRecord_logs, logDeviceInfo]
    split <;> simp
  · rw [← he]
    unfold waitTarget
    cases hc : classify env.dInterval (Time.Add st.targetTime env.dInterval) ts <;>
      simp [cycle, hc, emitRecord_logs, logDeviceInfo]
    split <;> simp

/-- Witness of `drift_classification_by_offset`: polling every 2 s, target time 00:00:10, scan
taken at 00:00:11, an offset of exactly half an interval. -/
theorem drift_classification_by_offset_witness :
    (0 ≤ exEnv.dInterval ∧ exEnv.dInterval ≤ maxDuration) ∧
    classify exEnv.dInterval (waitTarget exEnv exState) (exTime 11000) = Drift.onTime ∧
    ¬ (LogCall.futureScan ∈ (cycle exEnv exState (Wake.timer (exTime 11000) (some exScan) none)).logs) :=
  have h := drift_classification_by_offset exEnv exState (exTime 11000) exScan none
    (by decide) (by decide)
  ⟨⟨by decide, by decide⟩, h.2.2.2.1 (by decide), fun hm => absurd (h.2.2.2.2.2.1.mp hm) (by decide)⟩

/-! ## The on-time branch -/

theorem formatPairs_extends (rt : GoRuntime) (scan : StringMap) (l : List OidInfo) :
    ∀ (outstr : String) (prints : List String) (line : String) (p : List String),
      formatPairs rt scan l outstr prints = (some line, p) → ∃ rest, line = outstr ++ rest := by
  induction l with
  | nil =>
      intro outstr prints line p h
      simp only [formatPairs, Prod.mk.injEq, Option.some.injEq] at h
      exact ⟨"", by rw [← h.1]; simp⟩
  | cons oidinfo rest ih =>
      intro outstr prints line p h
      unfold formatPairs at h
      split at h
      · simp at h
      · rename_i v p2 _
        obtain ⟨r, hr⟩ := ih _ _ _ _ h
        exact ⟨" " ++ oidinfo.Chancode ++ ":" ++ v ++ r, by rw [hr]; simp only [String.append_assoc]⟩

theorem formatScan_stamp (rt : GoRuntime) (g : ModelVars) (sampleInterval : Int) (cfg : TSMConfig)
    (ts : Int) (scan : StringMap) (line : String) (prints : List String)
    (hf : formatScan rt g sampleInterval cfg ts scan = (some line, prints)) :
    ∃ rest, line = fmtStamp ts ++ rest := by
  unfold formatScan at hf
  simp only [] at hf
  split at hf
  · simp at hf
  · obtain ⟨r, hr⟩ := formatPairs_extends _ _ _ _ _ _ _ hf
    exact ⟨" " ++ cfg.General.Net ++ " " ++ cfg.General.Sta ++ " " ++ cfg.General.Loc ++ " " ++
      fmtFixed 0 (Duration.Seconds sampleInterval) ++ r, by rw [hr]; simp only [String.append_assoc]⟩

theorem cycle_onTime (env : PollEnv) (st : LoopState) (ts : Int) (data : StringMap)
    (err : Option String)
    (hc : classify env.dInterval (waitTarget env st) ts = Drift.onTime) :
    (cycle env st (Wake.timer ts (some data) err)).stdout = recordWrites env ts data ∧
    (cycle env st (Wake.timer ts (some data) err)).panicked =
      (formatScan env.rt env.vars env.dInterval env.cfg ts data).1.isNone ∧
    (cycle env st (Wake.timer ts (some data) err)).state =
      { st with targetTime := waitTarget env st, prevScan := st.scan, ts := ts, scan := some data,
                err := err, first := false, scanMissed := false,
                offset := Time.Sub ts (waitTarget env st), scanRepeated := false } ∧
    LogCall.repeatingPreviousScan ∉ (cycle env st (Wake.timer ts (some data) err)).logs := by
  unfold waitTarget at hc
  simp only [cycle, hc, waitTarget, emitRecord_state, emitRecord_logs]
  refine ⟨?_, ?_, ?_, ?_⟩
  · unfold emitRecord recordWrites
    split <;> simp_all
  · unfold emitRecord
    split <;> simp_all
  · trivial
  · simp [logDeviceInfo]

/-- C2 (as amended). For every state of the loop and every scan that is present and on time
(`-(I/2) <= ts - T <= I/2` for the target time `T` of the iteration), if `formatScan`
returns, the iteration writes exactly one record, as its last write, after the lines
`ValueString` printed; the record is `formatScan(dInterval, cfg, ts, scan)` for the
timestamp `ts` of the scan itself, so it starts with the calendar fields of `ts`, and
`scanRepeated` is false afterwards. -/
theorem onTime_cycle_emits_scan_record (env : PollEnv) (st : LoopState) (ts : Int)
    (data : StringMap) (err : Option String) (line : String) (prints : List String)
    (h0 : 0 ≤ env.dInterval) (h1 : env.dInterval ≤ maxDuration)
    (hlo : -(env.dInterval / 2) ≤ ts - waitTarget env st)
    (hhi : ts - waitTarget env st ≤ env.dInterval / 2)
    (hf : formatScan env.rt env.vars env.dInterval env.cfg ts data = (some line, prints)) :
    (cycle env st (Wake.timer ts (some data) err)).stdout = prints ++ [line ++ "\n"] ∧
    (cycle env st (Wake.timer ts (some data) err)).panicked = false ∧
    (cycle env st (Wake.timer ts (some data) err)).state.scanRepeated = false ∧
    ∃ rest, line = fmtStamp ts ++ rest := by
  have hc := (classify_onTime_iff env.dInterval (waitTarget env st) ts h0 h1).mpr ⟨hlo, hhi⟩
  obtain ⟨hs, hp, hst, _⟩ := cycle_onTime env st ts data err hc
  refine ⟨?_, ?_, ?_, formatScan_stamp _ _ _ _ _ _ _ _ hf⟩
  · rw [hs]; unfold recordWrites; rw [hf]
  · rw [hp, hf]; rfl
  · rw [hst]

/-- Witness of `onTime_cycle_emits_scan_record`: target time 00:00:10, scan taken at 00:00:11. -/
theorem onTime_cycle_emits_scan_record_witness :
    (cycle exEnv exState (Wake.timer (exTime 11000) (some exScan) none)).stdout =
        [] ++ ["2025 01 01 00 00 11 NET STA 00 2 A:10" ++ "\n"] ∧
    (cycle exEnv exState (Wake.timer (exTime 11000) (some exScan) none)).panicked = false ∧
    (cycle exEnv exState (Wake.timer (exTime 11000) (some exScan) none)).state.scanRepeated = false ∧
    ∃ rest, "2025 01 01 00 00 11 NET STA 00 2 A:10" = fmtStamp (exTime 11000) ++ rest :=
  onTime_cycle_emits_scan_record exEnv exState (exTime 11000) exScan none
    "2025 01 01 00 00 11 NET STA 00 2 A:10" [] (by decide) (by decide) (by decide) (by decide)
    (by decide)

/-- C2 (as stated) fails. Polling every 2 s with target time 00:00:10: the scan taken at 00:00:11
is on time, and the record written carries the second `11` of the scan, not the second `10` of
the target time; and the on-time scan `"7"` of an identifier of type `map` with two values
makes `formatScan` panic, so that no record is written at all. -/
theorem onTime_record_not_for_target_time :
    (classify exEnv.dInterval (waitTarget exEnv exState) (exTime 11000) = Drift.onTime ∧
      (cycle exEnv exState (Wake.timer (exTime 11000) (some exScan) none)).stdout =
        ["2025 01 01 00 00 11 NET STA 00 2 A:10\n"] ∧
      formatScan exEnv.rt exEnv.vars exEnv.dInterval exEnv.cfg (waitTarget exEnv exState) exScan =
        (some "2025 01 01 00 00 10 NET STA 00 2 A:10", [])) ∧
    (classify (exEnvOf exMapOid).dInterval (waitTarget (exEnvOf exMapOid) exState) (exTime 10000) =
        Drift.onTime ∧
      (cycle (exEnvOf exMapOid) exState
        (Wake.timer (exTime 10000) (some [("1.3.6.1.4.1.2", "7")]) none)).stdout = [] ∧
      (cycle (exEnvOf exMapOid) exState
        (Wake.timer (exTime 10000) (some [("1.3.6.1.4.1.2", "7")]) none)).panicked = true) := by
  decide

/-! ## The absent branch -/

theorem run_onTime (env : PollEnv) (h0 : 0 ≤ env.dInterval) (h1 : env.dInterval ≤ maxDuration) :
    ∀ (snaps : List (Int × StringMap)) (st : LoopState), st.exiting = false →
      AllOnTime env.dInterval (waitTarget env st) snaps →
      (∀ s ∈ snaps, (formatScan env.rt env.vars env.dInterval env.cfg s.1 s.2).1.isSome = true) →
      (run env st (snaps.map scanWake)).map (fun o => o.stdout) =
          snaps.map (fun s => recordWrites env s.1 s.2) ∧
        ∀ o ∈ run env st (snaps.map scanWake), LogCall.repeatingPreviousScan ∉ o.logs := by
  intro snaps
  induction snaps with
  | nil => intro st _ _ _; simp [run]
  | cons s rest ih =>
      intro st hex hall hfmt
      obtain ⟨⟨hlo, hhi⟩, hrest⟩ := hall
      have hc := (classify_onTime_iff env.dInterval (waitTarget env st) s.1 h0 h1).mpr ⟨hlo, hhi⟩
      obtain ⟨hs, hp, hst, hl⟩ := cycle_onTime env st s.1 s.2 none hc
      have hsome := hfmt s (List.mem_cons_self _ _)
      have hpan : (cycle env st (Wake.timer s.1 (some s.2) none)).panicked = false := by
        rw [hp]
        cases hx : (formatScan env.rt env.vars env.dInterval env.cfg s.1 s.2).1 <;> simp_all
      have hex2 : (cycle env st (Wake.timer s.1 (some s.2) none)).state.exiting = false := by
        rw [hst]; exact hex
      have hwt : waitTarget env (cycle env st (Wake.timer s.1 (some s.2) none)).state =
          waitTarget env st + env.dInterval := by
        rw [hst]; simp [waitTarget, Time.Add]
      have hrest2 : AllOnTime env.dInterval
          (waitTarget env (cycle env st (Wake.timer s.1 (some s.2) none)).state) rest := by
        rw [hwt]; exact hrest
      obtain ⟨ih1, ih2⟩ := ih _ hex2 hrest2 (fun x hx => hfmt x (List.mem_cons_of_mem _ hx))
      simp only [List.map_cons, scanWake, run, hex, hpan, Bool.false_eq_true, if_false]
      refine ⟨?_, ?_⟩
      · rw [hs, ih1]
      · intro o ho
        rcases List.mem_cons.mp ho with rfl | ho
        · exact hl
        · exact ih2 o ho

/-- C3. For every state of the loop, when `GetScan` returns no scan the iteration writes
nothing, sets `scanMissed` and `first`, leaves `scanRepeated` as it was, logs
`no rpm scan available` iff `scanMissed` was false before, and the next target time is the
target time of this iteration plus `dInterval`. Hence one absent iteration followed by scans
that are on time for the following target times skips that one iteration only: every later
iteration writes the record of its own scan and none logs a repeat. -/
theorem absent_cycle_skips_once (env : PollEnv) (st : LoopState) (ts : Int) (err : Option String) :
    (cycle env st (Wake.timer ts none err)).stdout = [] ∧
    (cycle env st (Wake.timer ts none err)).panicked = false ∧
    (cycle env st (Wake.timer ts none err)).state.scanMissed = true ∧
    (cycle env st (Wake.timer ts none err)).state.first = true ∧
    (cycle env st (Wake.timer ts none err)).state.scanRepeated = st.scanRepeated ∧
    (LogCall.noScanAvailable ∈ (cycle env st (Wake.timer ts none err)).logs ↔ st.scanMissed = false) ∧
    waitTarget env (cycle env st (Wake.timer ts none err)).state = waitTarget env st + env.dInterval ∧
    ∀ snaps : List (Int × StringMap),
      0 ≤ env.dInterval → env.dInterval ≤ maxDuration → st.exiting = false →
      AllOnTime env.dInterval (waitTarget env st + env.dInterval) snaps →
      (∀ s ∈ snaps, (formatScan env.rt env.vars env.dInterval env.cfg s.1 s.2).1.isSome = true) →
      (run env st (Wake.timer ts none err :: snaps.map scanWake)).map (fun o => o.stdout) =
          [] :: snaps.map (fun s => recordWrites env s.1 s.2) ∧
        ∀ o ∈ run env st (Wake.timer ts none err :: snaps.map scanWake),
          LogCall.repeatingPreviousScan ∉ o.logs := by
  have hwt : waitTarget env (cycle env st (Wake.timer ts none err)).state =
      waitTarget env st + env.dInterval := by
    simp [cycle, waitTarget, Time.Add]
  refine ⟨by simp [cycle], by simp [cycle], by simp [cycle], by simp [cycle], by simp [cycle],
    ?_, hwt, ?_⟩
  · cases hm : st.scanMissed <;> simp [cycle, hm]
  · intro snaps h0 h1 hex hall hfmt
    have hex2 : (cycle env st (Wake.timer ts none err)).state.exiting = false := by
      simp [cycle, hex]
    obtain ⟨r1, r2⟩ := run_onTime env h0 h1 snaps _ hex2 (by rw [hwt]; exact hall) hfmt
    have hpan : (cycle env st (Wake.timer ts none err)).panicked = false := by simp [cycle]
    simp only [run, hex, hpan, Bool.false_eq_true, if_false, List.map_cons]
    refine ⟨?_, ?_⟩
    · rw [r1]; simp [cycle]
    · intro o ho
      rcases List.mem_cons.mp ho with rfl | ho
      · cases hm : st.scanMissed <;> simp [cycle, hm]
      · exact r2 o ho

/-- Witness of `absent_cycle_skips_once`: polling every 2 s, no scan at the target time
00:00:10, then scans taken at 00:00:12 and 00:00:14. -/
theorem absent_cycle_skips_once_witness :
    (run exEnv exState (Wake.timer (exTime 10000) none (some "scan unavailable") ::
        [(exTime 12000, exScan), (exTime 14000, exScan)].map scanWake)).map (fun o => o.stdout) =
      [] :: [(exTime 12000, exScan), (exTime 14000, exScan)].map (fun s => recordWrites exEnv s.1 s.2) ∧
    ∀ o ∈ run exEnv exState (Wake.timer (exTime 10000) none (some "scan unavailable") ::
        [(exTime 12000, exScan), (exTime 14000, exScan)].map scanWake),
      LogCall.repeatingPreviousScan ∉ o.logs :=
  (absent_cycle_skips_once exEnv exState (exTime 10000) (some "scan unavailable")).2.2.2.2.2.2.2
    [(exTime 12000, exScan), (exTime 14000, exScan)] (by decide) (by decide) (by decide)
    ⟨⟨by decide, by decide⟩, ⟨by decide, by decide⟩, trivial⟩ (by decide)

/-! ## The too-early branch -/

theorem cycle_tooEarly (env : PollEnv) (st : LoopState) (ts : Int) (data : StringMap)
    (err : Option String)
    (hc : classify env.dInterval (waitTarget env st) ts = Drift.tooEarly) :
    (cycle env st (Wake.timer ts (some data) err)).stdout = [] ∧
    (cycle env st (Wake.timer ts (some data) err)).panicked = false ∧
    (cycle env st (Wake.timer ts (some data) err)).state.targetTime = waitTarget env st ∧
    (cycle env st (Wake.timer ts (some data) err)).state.exiting = st.exiting := by
  unfold waitTarget at hc
  simp only [cycle, hc, waitTarget]
  split <;> simp

/-- C4 (the code at the failing input). Polling every 2 s: the scan taken at 00:00:10 is on
time for the target time 00:00:10 and its record is written; the scan taken at 00:00:10.5 is
too early for the target time 00:00:12, the iteration sets `scanRepeated`, logs
`repeating previous scan value` and writes nothing; the scan taken at 00:00:12.5 is
too early for the target time 00:00:14, the iteration writes nothing and sets `first`. -/
theorem repeat_branch_writes_nothing :
    (run exEnv exState
        [Wake.timer (exTime 10000) (some exScan) none,
         Wake.timer (exTime 10500) (some [("1.3.6.1.4.1.1", "11")]) none,
         Wake.timer (exTime 12500) (some [("1.3.6.1.4.1.1", "12")]) none]).map
      (fun o => (o.stdout, o.state.scanRepeated, o.state.first,
        decide (LogCall.repeatingPreviousScan ∈ o.logs))) =
      [(["2025 01 01 00 00 10 NET STA 00 2 A:10\n"], false, false, false),
       ([], true, false, true),
       ([], true, true, false)] := by
  decide

/-! ## The far-future branch -/

theorem round_ne_target (I T ts : Int) (hI : 0 < I) (h : ts - T > I / 2) :
    Time.Round ts I ≠ T := by
  unfold Time.Round
  have hr0 := Int.emod_nonneg ts (ne_of_gt hI)
  have hr1 := Int.emod_lt_of_pos ts hI
  simp only [not_le.mpr hI, if_false]
  generalize ts % I = r at *
  split_ifs <;> omega

theorem cycle_farFuture (env : PollEnv) (st : LoopState) (ts : Int) (data : StringMap)
    (err : Option String)
    (hc : classify env.dInterval (waitTarget env st) ts = Drift.farFuture) :
    (cycle env st (Wake.timer ts (some data) err)).stdout = recordWrites env ts data ∧
    (cycle env st (Wake.timer ts (some data) err)).panicked =
      (formatScan env.rt env.vars env.dInterval env.cfg ts data).1.isNone ∧
    (cycle env st (Wake.timer ts (some data) err)).state =
      { st with targetTime := Time.Round ts env.dInterval, prevScan := st.scan, ts := ts,
                scan := some data, err := err, first := true, scanMissed := false,
                offset := Time.Sub ts (waitTarget env st), scanRepeated := false } := by
  unfold waitTarget at hc
  simp only [cycle, hc, waitTarget, emitRecord_state]
  refine ⟨?_, ?_, ?_⟩
  · unfold emitRecord recordWrites
    split <;> simp_all
  · unfold emitRecord
    split <;> simp_all
  · trivial

/-- C5 (as amended). For every iteration at target time `T` whose scan is present with
offset `ts - T > I/2`, the variable `targetTime` is set to `ts.Round(I)` in that iteration,
and the target time the loop waits on in the next iteration is `ts.Round(I) + I`, which is
not `T + I`. -/
theorem farFuture_reanchors_target (env : PollEnv) (st : LoopState) (ts : Int)
    (data : StringMap) (err : Option String)
    (h0 : 0 < env.dInterval) (h1 : env.dInterval ≤ maxDuration)
    (hoff : ts - waitTarget env st > env.dInterval / 2) :
    (cycle env st (Wake.timer ts (some data) err)).state.targetTime = Time.Round ts env.dInterval ∧
    waitTarget env (cycle env st (Wake.timer ts (some data) err)).state =
      Time.Round ts env.dInterval + env.dInterval ∧
    waitTarget env (cycle env st (Wake.timer ts (some data) err)).state ≠
      waitTarget env st + env.dInterval := by
  have hc := (classify_farFuture_iff env.dInterval (waitTarget env st) ts (le_of_lt h0) h1).mpr hoff
  obtain ⟨_, _, hst⟩ := cycle_farFuture env st ts data err hc
  have hne := round_ne_target env.dInterval (waitTarget env st) ts h0 hoff
  rw [hst]
  refine ⟨rfl, rfl, ?_⟩
  simp only [waitTarget, Time.Add] at hne ⊢
  omega

/-- Witness of `farFuture_reanchors_target`: polling every 2 s, target time 00:00:10, scan
taken at 00:00:13. -/
theorem farFuture_reanchors_target_witness :
    (cycle exEnv exState (Wake.timer (exTime 13000) (some exScan) none)).state.targetTime =
      Time.Round (exTime 13000) exEnv.dInterval ∧
    waitTarget exEnv (cycle exEnv exState (Wake.timer (exTime 13000) (some exScan) none)).state =
      Time.Round (exTime 13000) exEnv.dInterval + exEnv.dInterval ∧
    waitTarget exEnv (cycle exEnv exState (Wake.timer (exTime 13000) (some exScan) none)).state ≠
      waitTarget exEnv exState + exEnv.dInterval :=
  farFuture_reanchors_target exEnv exState (exTime 13000) exScan none (by decide) (by decide)
    (by decide)

/-- C5 (as stated) fails. Polling every 2 s with target time 00:00:10 and a scan taken at
00:00:13 (offset 3 s, more than half an interval): `ts.Round(I)` is 00:00:14, and the target
time the next iteration waits on is 00:00:16. -/
theorem next_target_is_not_rounded_scan_time :
    (exTime 13000 - waitTarget exEnv exState > exEnv.dInterval / 2) ∧
    Time.Round (exTime 13000) exEnv.dInterval = exTime 14000 ∧
    waitTarget exEnv (cycle exEnv exState (Wake.timer (exTime 13000) (some exScan) none)).state =
      exTime 16000 ∧
    waitTarget exEnv (cycle exEnv exState (Wake.timer (exTime 13000) (some exScan) none)).state ≠
      Time.Round (exTime 13000) exEnv.dInterval := by
  decide

/-- C6 (as amended). For every iteration classified "far future" (`ts - T > I/2`), `first`
is true afterwards, and the iteration goes on to line 239: if `formatScan` returns, it
writes exactly one record, `formatScan(dInterval, cfg, ts, scan)` for the scan just taken,
after the lines `ValueString` printed. -/
theorem farFuture_cycle_emits_record (env : PollEnv) (st : LoopState) (ts : Int)
    (data : StringMap) (err : Option String)
    (h0 : 0 ≤ env.dInterval) (h1 : env.dInterval ≤ maxDuration)
    (hoff : ts - waitTarget env st > env.dInterval / 2) :
    (cycle env st (Wake.timer ts (some data) err)).state.first = true ∧
    ∀ (line : String) (prints : List String),
      formatScan env.rt env.vars env.dInterval env.cfg ts data = (some line, prints) →
      (cycle env st (Wake.timer ts (some data) err)).stdout = prints ++ [line ++ "\n"] ∧
      (cycle env st (Wake.timer ts (some data) err)).panicked = false := by
  have hc := (classify_farFuture_iff env.dInterval (waitTarget env st) ts h0 h1).mpr hoff
  obtain ⟨hs, hp, hst⟩ := cycle_farFuture env st ts data err hc
  refine ⟨by rw [hst], ?_⟩
  intro line prints hf
  refine ⟨?_, ?_⟩
  · rw [hs]; unfold recordWrites; rw [hf]
  · rw [hp, hf]; rfl

/-- Witness of `farFuture_cycle_emits_record`: target time 00:00:10, scan taken at 00:00:13. -/
theorem farFuture_cycle_emits_record_witness :
    (cycle exEnv exState (Wake.timer (exTime 13000) (some exScan) none)).state.first = true ∧
    (cycle exEnv exState (Wake.timer (exTime 13000) (some exScan) none)).stdout =
      [] ++ ["2025 01 01 00 00 13 NET STA 00 2 A:10" ++ "\n"] ∧
    (cycle exEnv exState (Wake.timer (exTime 13000) (some exScan) none)).panicked = false :=
  have h := farFuture_cycle_emits_record exEnv exState (exTime 13000) exScan none
    (by decide) (by decide) (by decide)
  ⟨h.1, h.2 "2025 01 01 00 00 13 NET STA 00 2 A:10" [] (by decide)⟩

/-- C6 (as stated) fails. Polling every 2 s with target time 00:00:10: the scan taken at
00:00:13 is "far future", and the iteration writes its record. -/
theorem farFuture_cycle_writes_a_record :
    classify exEnv.dInterval (waitTarget exEnv exState) (exTime 13000) = Drift.farFuture ∧
    (cycle exEnv exState (Wake.timer (exTime 13000) (some exScan) none)).stdout =
      ["2025 01 01 00 00 13 NET STA 00 2 A:10\n"] ∧
    (cycle exEnv exState (Wake.timer (exTime 13000) (some exScan) none)).stdout ≠ [] := by
  decide

/-! ## The scan cache -/

theorem StringMap.set_fresh (m : StringMap) (key val : String)
    (h : key ∉ m.map Prod.fst) : StringMap.set m key val = m ++ [(key, val)] := by
  induction m with
  | nil => rfl
  | cons kv rest ih =>
      obtain ⟨k, v⟩ := kv
      simp only [List.map_cons, List.mem_cons, not_or] at h
      unfold StringMap.set
      rw [if_neg (fun hk => h.1 hk.symm), ih h.2]
      rfl

theorem copy_foldl (l : StringMap) :
    ∀ acc : StringMap, StringMap.WellFormed (acc ++ l) →
      l.foldl (fun newdata kv => StringMap.set newdata kv.1 kv.2) acc = acc ++ l := by
  induction l with
  | nil => intro acc _; simp
  | cons kv rest ih =>
      intro acc hwf
      have hfresh : kv.1 ∉ acc.map Prod.fst := by
        unfold StringMap.WellFormed at hwf
        rw [List.map_append, List.map_cons, List.nodup_append] at hwf
        intro hmem
        exact hwf.2.2 hmem (List.mem_cons_self _ _)
      rw [List.foldl_cons, StringMap.set_fresh acc kv.1 kv.2 hfresh]
      have hwf2 : StringMap.WellFormed ((acc ++ [(kv.1, kv.2)]) ++ rest) := by
        simpa [List.append_assoc] using hwf
      rw [ih _ hwf2]
      simp

theorem snmpScan.copy_eq (scan : snmpScan) (h : StringMap.WellFormed scan.Data) :
    snmpScan.copy scan = scan := by
  unfold snmpScan.copy
  rw [copy_foldl scan.Data [] (by simpa using h)]
  simp

/-- C7. For every state of the service, holding a scan or not, and every scan
`(ts, results)` whose map has pairwise different keys, `saveScan(ts, results)` followed by
`GetScan` returns the timestamp `ts`, a map equal to `results` and no error, whatever was
held before, and empties the cache; a second `GetScan` right after returns a nil scan with
the error `scan unavailable`. -/
theorem scan_cache_round_trip (tsdev : snmpService) (ts : Int) (results : StringMap)
    (now1 now2 : Int) (h : StringMap.WellFormed results) :
    ((tsdev.saveScan ts results).GetScan now1).2 = (ts, some results, none) ∧
    ((tsdev.saveScan ts results).GetScan now1).1.CurrentScan = none ∧
    ((((tsdev.saveScan ts results).GetScan now1).1).GetScan now2).2 =
      (now2, none, some "scan unavailable") := by
  have hc : snmpScan.copy { TS := ts, Data := results } = { TS := ts, Data := results } :=
    snmpScan.copy_eq _ h
  simp [snmpService.saveScan, snmpService.GetScan, hc]

/-- Witness of `scan_cache_round_trip`: a cache that already holds a scan. -/
theorem scan_cache_round_trip_witness :
    (snmpService.GetScan (snmpService.saveScan exService (exTime 10000) exScan) (exTime 11000)).2 =
      (exTime 10000, some exScan, none) ∧
    (snmpService.GetScan (snmpService.saveScan exService (exTime 10000) exScan)
      (exTime 11000)).1.CurrentScan = none ∧
    (snmpService.GetScan
      (snmpService.GetScan (snmpService.saveScan exService (exTime 10000) exScan) (exTime 11000)).1
      (exTime 12000)).2 = (exTime 12000, none, some "scan unavailable") :=
  scan_cache_round_trip exService (exTime 10000) exScan (exTime 11000) (exTime 12000) (by decide)

/-! ## The first target time -/

/-- C8 (as amended). At loop start `targetTime` is set to `now.Round(I) + I`; every iteration
first advances `targetTime` by `I`, so the first target time the loop waits on is
`now.Round(I) + 2 * I`, as the first `rlog` call of the first iteration shows. -/
theorem first_target_time (env : PollEnv) (now : Int) (w : Wake) :
    (LoopState.init env.dInterval now).targetTime = Time.Round now env.dInterval + env.dInterval ∧
    waitTarget env (LoopState.init env.dInterval now) =
      Time.Round now env.dInterval + 2 * env.dInterval ∧
    (cycle env (LoopState.init env.dInterval now) w).logs.head? =
      some (LogCall.nextTargetTime (Time.Round now env.dInterval + 2 * env.dInterval)) := by
  have hw : Time.Round now env.dInterval + env.dInterval + env.dInterval =
      Time.Round now env.dInterval + 2 * env.dInterval := by ring
  refine ⟨rfl, ?_, ?_⟩
  · simp only [waitTarget, LoopState.init, Time.Add]
    exact hw
  · cases w with
    | sigdone => simp [cycle, LoopState.init, Time.Add, hw]
    | timer ts scan err =>
        cases scan with
        | none => simp [cycle, LoopState.init, Time.Add, hw]
        | some data =>
            simp only [cycle, LoopState.init, Time.Add, hw]
            split <;> [skip; split; skip] <;> simp [emitRecord_logs]

/-- C8 (as stated) fails. Polling every 2 s, the loop set up at 00:00:03.2:
`now.Round(I) + I` is 00:00:06, and the first target time the loop waits on is 00:00:08. -/
theorem first_wait_is_one_interval_later :
    Time.Round (exTime 3200) exEnv.dInterval + exEnv.dInterval = exTime 6000 ∧
    waitTarget exEnv (LoopState.init exEnv.dInterval (exTime 3200)) = exTime 8000 ∧
    waitTarget exEnv (LoopState.init exEnv.dInterval (exTime 3200)) ≠
      Time.Round (exTime 3200) exEnv.dInterval + exEnv.dInterval := by
  decide

/-! ## The interval argument -/

theorem Float64.nan_lt (a : Float64) : Float64.lt Float64.nan a = false := by
  cases a <;> rfl

theorem Float64.lt_nan (a : Float64) : Float64.lt a Float64.nan = false := by
  cases a <;> rfl

theorem pollArgsParse_nan (rt : GoRuntime) (a b intstr : String)
    (h : rt.ParseFloat intstr 32 = (Float64.nan, none)) :
    pollArgsParse rt [a, b, intstr] =
      some (wrapInt64 (wrapInt64 (rt.int64OfFloat Float64.nan) * Second), none, []) := by
  simp [pollArgsParse, getSampleInterval, h, Float64.nan_lt, Float64.lt_nan, Float64.gt,
    Float64.toFloat32, Float64.toInt64]

/-- C9 (the code at the failing input). The argument `NaN` parses without error, neither
`val < 1` nor `val > 60` holds for it, so `getSampleInterval` returns it with a nil error and
`pollArgsParse` returns a nil error with the duration `time.Duration(NaN) * time.Second`:
zero where the conversion gives `-1 << 63` (amd64) and where it gives `0` (arm64), which is
not within `[1s, 60s]`. The bounds `1` and `60` are accepted and `61` is rejected. -/
theorem nan_interval_is_accepted :
    getSampleInterval refRuntime "NaN" = (Float64.nan, none, []) ∧
    pollArgsParse refRuntime ["tsm", "poll", "NaN"] = some (0, none, []) ∧
    pollArgsParse { refRuntime with int64OfFloat := fun _ => 0 } ["tsm", "poll", "NaN"] =
      some (0, none, []) ∧
    ¬ (MinSampleInterval ≤ (0 : Int)) ∧
    pollArgsParse refRuntime ["tsm", "poll", "1"] = some (1 * Second, none, []) ∧
    pollArgsParse refRuntime ["tsm", "poll", "60"] = some (60 * Second, none, []) ∧
    (pollArgsParse refRuntime ["tsm", "poll", "61"]).map (fun r => r.2.1.isSome) = some true := by
  decide

/-! ## The sampler period -/

/-- C10 (as amended). For every sample interval `I` in `[1s, 60s]`, the period `p` that
`PollStart` stores is `I / 3` rounded down to a whole number of nanoseconds: three periods
fall short of `I` by less than 3 ns, and add up to exactly `I` iff `I` is a multiple of
3 ns; `p` lies between 333333333 ns and 20 s. -/
theorem sampler_period_is_floor_third (tsdev : snmpService) (I : Int)
    (hmin : MinSampleInterval ≤ I) (hmax : I ≤ MaxSampleInterval) :
    (tsdev.PollStart I).1.internalInterval = I / 3 ∧
    3 * (tsdev.PollStart I).1.internalInterval ≤ I ∧
    I < 3 * (tsdev.PollStart I).1.internalInterval + 3 ∧
    (3 * (tsdev.PollStart I).1.internalInterval = I ↔ I % 3 = 0) ∧
    333333333 ≤ (tsdev.PollStart I).1.internalInterval ∧
    (tsdev.PollStart I).1.internalInterval ≤ 20 * Second := by
  unfold MinSampleInterval Second at hmin
  unfold MaxSampleInterval Second at hmax
  have hp : (tsdev.PollStart I).1.internalInterval = I / 3 := by
    unfold snmpService.PollStart
    simp only []
    split <;> exact Int.tdiv_eq_ediv (by omega) (by decide)
  rw [hp]
  unfold Second
  refine ⟨rfl, ?_, ?_, ?_, ?_, ?_⟩ <;> omega

/-- Witness of `sampler_period_is_floor_third`: the interval 3 s. -/
theorem sampler_period_is_floor_third_witness :
    (exService.PollStart (3 * Second)).1.internalInterval = 3 * Second / 3 ∧
    3 * (exService.PollStart (3 * Second)).1.internalInterval ≤ 3 * Second ∧
    3 * Second < 3 * (exService.PollStart (3 * Second)).1.internalInterval + 3 ∧
    (3 * (exService.PollStart (3 * Second)).1.internalInterval = 3 * Second ↔ 3 * Second % 3 = 0) ∧
    333333333 ≤ (exService.PollStart (3 * Second)).1.internalInterval ∧
    (exService.PollStart (3 * Second)).1.internalInterval ≤ 20 * Second :=
  sampler_period_is_floor_third exService (3 * Second) (by decide) (by decide)

/-- C10 (as stated) fails. For the valid interval of 1 s the stored period is
333333333 ns, and three of them are 999999999 ns. -/
theorem sampler_period_not_exact_third :
    (MinSampleInterval ≤ Second ∧ Second ≤ MaxSampleInterval) ∧
    (exService.PollStart Second).1.internalInterval = 333333333 ∧
    3 * (exService.PollStart Second).1.internalInterval ≠ Second := by
  decide

/-! ## The argument list -/

theorem pollArgsParse_short_list (rt : GoRuntime) (args : List String)
    (h1 : 1 ≤ args.length) (h2 : args.length < 3) : pollArgsParse rt args = none := by
  match args, h1, h2 with
  | [_], _, _ => simp [pollArgsParse]
  | [_, _], _, _ => simp [pollArgsParse]

/-- C20 (the code at the failing input). The test of `pollArgsParse` is `len(args) < 1`: the
empty list gets the error `not enough parameters, polling interval must be specified`, but
on a list of one or two elements `args[2]` is evaluated and the call panics; a list of three
elements has its element 2 parsed as the interval. -/
theorem pollArgsParse_indexes_past_short_list :
    pollArgsParse refRuntime [] =
      some (0, some "not enough parameters, polling interval must be specified", []) ∧
    pollArgsParse refRuntime ["10.0.0.1"] = none ∧
    pollArgsParse refRuntime ["10.0.0.1", "poll"] = none ∧
    pollArgsParse refRuntime ["10.0.0.1", "poll", "2"] = some (2 * Second, none, []) := by
  decide

/-! ## Logging the device identity -/

theorem mem_cycle_logs_initial (env : PollEnv) (st : LoopState) (ts : Int) (data : StringMap)
    (err : Option String) :
    LogCall.initialScanReceived ∈ (cycle env st (Wake.timer ts (some data) err)).logs ↔
      st.first = true := by
  cases hc : classify env.dInterval (Time.Add st.targetTime env.dInterval) ts <;>
    cases hf : st.first <;>
    simp [cycle, hc, hf, emitRecord_logs, logDeviceInfo] <;>
    split <;> simp

theorem mem_cycle_logs_deviceInfo (env : PollEnv) (st : LoopState) (ts : Int) (data : StringMap)
    (err : Option String) (l v : String) :
    LogCall.deviceInfo l v ∈ (cycle env st (Wake.timer ts (some data) err)).logs ↔
      st.first = true ∧ ∃ oidinfo ∈ env.staticOidInfo,
        oidinfo.Label = l ∧ StringMap.index data oidinfo.Oid = v := by
  cases hc : classify env.dInterval (Time.Add st.targetTime env.dInterval) ts <;>
    cases hf : st.first <;>
    simp [cycle, hc, hf, emitRecord_logs, logDeviceInfo] <;>
    split <;> simp

theorem cycle_first_after (env : PollEnv) (st : LoopState) (ts : Int) (data : StringMap)
    (err : Option String) :
    ((cycle env st (Wake.timer ts (some data) err)).state.first = true ↔
      classify env.dInterval (waitTarget env st) ts = Drift.farFuture ∨
        (classify env.dInterval (waitTarget env st) ts = Drift.tooEarly ∧
          ¬ (st.scan.isSome = true ∧ st.scanRepeated = false))) := by
  unfold waitTarget
  cases hc : classify env.dInterval (Time.Add st.targetTime env.dInterval) ts
  · simp [cycle, hc, emitRecord_state]
  · cases hs : st.scan.isSome <;> cases hr : st.scanRepeated <;> simp [cycle, hc, hs, hr]
  · simp [cycle, hc, emitRecord_state]

/-- C19 (as amended). The device identity (the notice `initial rpm scan received` and one
notice per static identifier) is logged in an iteration exactly when `GetScan` returned a
scan and `first` was set, whatever the drift class of the scan: no static identifier is
logged when `first` was clear, when no scan is returned or when the stop signal fires.
`first` is cleared at that point and set again by the far-future arm and by the too-early
arm when it does not repeat, so it is clear after the iteration exactly for a scan that is
on time, or too early with the repeat taken. -/
theorem device_identity_logged_on_first_scan (env : PollEnv) (st : LoopState) (ts : Int)
    (data : StringMap) (err : Option String) :
    (LogCall.initialScanReceived ∈ (cycle env st (Wake.timer ts (some data) err)).logs ↔
      st.first = true) ∧
    (∀ l v, LogCall.deviceInfo l v ∈ (cycle env st (Wake.timer ts (some data) err)).logs ↔
      st.first = true ∧ ∃ oidinfo ∈ env.staticOidInfo,
        oidinfo.Label = l ∧ StringMap.index data oidinfo.Oid = v) ∧
    ((cycle env st (Wake.timer ts (some data) err)).state.first = false ↔
      classify env.dInterval (waitTarget env st) ts = Drift.onTime ∨
        (classify env.dInterval (waitTarget env st) ts = Drift.tooEarly ∧
          st.scan.isSome = true ∧ st.scanRepeated = false)) ∧
    (LogCall.initialScanReceived ∉ (cycle env st (Wake.timer ts none err)).logs ∧
      ∀ l v, LogCall.deviceInfo l v ∉ (cycle env st (Wake.timer ts none err)).logs) ∧
    (LogCall.initialScanReceived ∉ (cycle env st Wake.sigdone).logs ∧
      ∀ l v, LogCall.deviceInfo l v ∉ (cycle env st Wake.sigdone).logs) := by
  refine ⟨mem_cycle_logs_initial env st ts data err,
    fun l v => mem_cycle_logs_deviceInfo env st ts data err l v, ?_, ?_, ?_⟩
  · have h := cycle_first_after env st ts data err
    cases hf : (cycle env st (Wake.timer ts (some data) err)).state.first
    · rw [hf] at h
      simp only [Bool.false_eq_true, false_iff, not_or, not_and, not_not] at h
      simp only [true_iff]
      cases hc : classify env.dInterval (waitTarget env st) ts
      · exact absurd hc h.1
      · exact Or.inr ⟨rfl, by
          have h2 := h.2 hc
          cases hs : st.scan.isSome <;> cases hr : st.scanRepeated <;> simp_all⟩
      · exact Or.inl rfl
    · rw [hf] at h
      simp only [true_iff] at h
      simp only [Bool.true_eq_false, false_iff, not_or, not_and]
      rcases h with h | ⟨h, h2⟩
      · simp [h]
      · simp only [h, reduceCtorEq, not_false_eq_true, true_and, forall_const]
        intro hs
        simpa using fun hr => h2 ⟨hs, hr⟩
  · cases hm : st.scanMissed <;> simp [cycle, hm]
  · simp [cycle]

/-- C19 (as stated) fails. Polling every 2 s with target time 00:00:10 and `first` set: the
scan taken at 00:00:13 is "far future" and the scan taken at 00:00:08 is "too early", and
both iterations log `initial rpm scan received` and the model name of the device. -/
theorem device_identity_logged_off_time :
    exState.first = true ∧
    (classify exEnvStatic.dInterval (waitTarget exEnvStatic exState) (exTime 13000) = Drift.farFuture ∧
      LogCall.initialScanReceived ∈
        (cycle exEnvStatic exState (Wake.timer (exTime 13000) (some exScanStatic) none)).logs ∧
      LogCall.deviceInfo "model" "TS1-a" ∈
        (cycle exEnvStatic exState (Wake.timer (exTime 13000) (some exScanStatic) none)).logs) ∧
    (classify exEnvStatic.dInterval (waitTarget exEnvStatic exState) (exTime 8000) = Drift.tooEarly ∧
      LogCall.initialScanReceived ∈
        (cycle exEnvStatic exState (Wake.timer (exTime 8000) (some exScanStatic) none)).logs ∧
      LogCall.deviceInfo "model" "TS1-a" ∈
        (cycle exEnvStatic exState (Wake.timer (exTime 8000) (some exScanStatic) none)).logs) := by
  decide

/-! ## The data identifiers of the current model -/

theorem setModelLoop_no_match (model : String) :
    ∀ (groups : List DeviceInfo) (ndx : Nat) (g : ModelVars),
      (∀ dg ∈ groups, dg.ModelGroup ≠ model) → setModelLoop model groups ndx g = g := by
  intro groups
  induction groups with
  | nil => intro ndx g _; rfl
  | cons dg rest ih =>
      intro ndx g h
      have hd : ¬ model = dg.ModelGroup := fun e => h dg (List.mem_cons_self _ _) e.symm
      unfold setModelLoop
      rw [if_neg hd]
      exact ih _ _ (fun x hx => h x (List.mem_cons_of_mem _ hx))

theorem setModelLoop_match (model : String) :
    ∀ (groups : List DeviceInfo) (ndx : Nat) (g : ModelVars),
      (∃ dg ∈ groups, dg.ModelGroup = model) →
      (setModelLoop model groups ndx g).curModelGroup = model ∧
      ∃ k dg, (setModelLoop model groups ndx g).curModelNdx = ndx + k ∧
        groups.get? k = some dg ∧ dg.ModelGroup = model := by
  intro groups
  induction groups with
  | nil => intro ndx g h; obtain ⟨dg, hm, _⟩ := h; cases hm
  | cons dg rest ih =>
      intro ndx g h
      unfold setModelLoop
      by_cases hr : ∃ x ∈ rest, x.ModelGroup = model
      · obtain ⟨hg, k, x, hk, hx, hxm⟩ := ih (ndx + 1)
          (if model = dg.ModelGroup then { curModelGroup := model, curModelNdx := ndx } else g) hr
        exact ⟨hg, k + 1, x, by rw [hk]; omega, by simpa using hx, hxm⟩
      · have hno : ∀ x ∈ rest, x.ModelGroup ≠ model := fun x hx e => hr ⟨x, hx, e⟩
        rw [setModelLoop_no_match model rest _ _ hno]
        obtain ⟨x, hx, hxm⟩ := h
        rcases List.mem_cons.mp hx with rfl | hx
        · rw [if_pos hxm.symm]
          exact ⟨rfl, 0, x, rfl, rfl, hxm⟩
        · exact absurd hxm (hno x hx)

theorem dataOidsInfo_lists (cfg : TSMConfig) (g : ModelVars) (oids : List String)
    (infos : List OidInfo) (e : Option String)
    (h : TSMConfig.DataOidsInfo cfg g = some (oids, infos, e)) :
    oids = infos.map (fun oidinfo => oidinfo.Oid) := by
  unfold TSMConfig.DataOidsInfo at h
  split at h
  · simp only [Option.some.injEq, Prod.mk.injEq] at h
    rw [← h.1, ← h.2.1]; rfl
  · split at h
    · cases h
    · simp only [Option.some.injEq, Prod.mk.injEq] at h
      rw [← h.1, ← h.2.1]

/-- C16. For every configuration on which `SetModel` has set a (non-empty) model that one of
its device groups carries, `DataOidsInfo` returns no error, the list
`Status ++ Measurements ++ Alarms ++ Faults` of the current device group, which carries that
model, and the identifier list of the same length whose `i`-th entry is the `Oid` of the
`i`-th `OidInfo`; as long as no model is set it returns an error and no lists. -/
theorem dataOidsInfo_preserves_order (cfg : TSMConfig) (g : ModelVars) (model : String)
    (hm : model ≠ "") (hex : ∃ dg ∈ cfg.Oids.DeviceGroups, dg.ModelGroup = model) :
    (∃ dg, cfg.Oids.DeviceGroups.get? (cfg.SetModel g model).curModelNdx = some dg ∧
      dg.ModelGroup = model ∧
      TSMConfig.DataOidsInfo cfg (cfg.SetModel g model) =
        some ((dg.Status ++ dg.Measurements ++ dg.Alarms ++ dg.Faults).map (fun oidinfo => oidinfo.Oid),
          dg.Status ++ dg.Measurements ++ dg.Alarms ++ dg.Faults, none)) ∧
    (∀ oids infos e, TSMConfig.DataOidsInfo cfg (cfg.SetModel g model) = some (oids, infos, e) →
      oids.length = infos.length ∧
      ∀ i oidinfo, infos.get? i = some oidinfo → oids.get? i = some oidinfo.Oid) ∧
    (∀ g0 : ModelVars, g0.curModelGroup = "" →
      TSMConfig.DataOidsInfo cfg g0 =
        some ([], [], some "Model moust be set before calling DataOidsInfo")) := by
  obtain ⟨hg, k, dg, hk, hdg, hdm⟩ := setModelLoop_match model cfg.Oids.DeviceGroups 0 g hex
  have hidx : cfg.Oids.DeviceGroups.get? (cfg.SetModel g model).curModelNdx = some dg := by
    unfold TSMConfig.SetModel
    rw [hk, Nat.zero_add]
    exact hdg
  have hgrp : (cfg.SetModel g model).curModelGroup ≠ "" := by
    unfold TSMConfig.SetModel
    rw [hg]
    exact hm
  refine ⟨⟨dg, hidx, hdm, ?_⟩, ?_, ?_⟩
  · unfold TSMConfig.DataOidsInfo
    rw [if_neg hgrp, hidx]
  · intro oids infos e h
    have ho := dataOidsInfo_lists cfg _ oids infos e h
    subst ho
    refine ⟨by simp, ?_⟩
    intro i oidinfo hi
    simp [List.get?_eq_getElem?, List.getElem?_map] at hi ⊢
    exact ⟨oidinfo, hi, rfl⟩
  · intro g0 h0
    unfold TSMConfig.DataOidsInfo
    rw [if_pos h0]

/-! ## The format of the record -/

theorem valueString_none_iff (rt : GoRuntime) (oidinfo : OidInfo) (resstr : String) :
    OidInfo.ValueString rt oidinfo resstr = none ↔
      oidinfo.Typ = "map" ∧ oidinfo.Values.length ≤ ParseUint resstr := by
  unfold OidInfo.ValueString
  split_ifs with h1 h2 h3 h4 h5
  · simp [h1]
  · simp [h2]
  · simp [h3]
  · cases hv : oidinfo.Values.get? (ParseUint resstr) with
    | none =>
        simp only [true_iff]
        exact ⟨h4, by simpa [List.get?_eq_none] using hv⟩
    | some v =>
        simp only [reduceCtorEq, false_iff, not_and, not_le]
        intro _
        by_contra hlen
        have : oidinfo.Values.get? (ParseUint resstr) = none := by
          simpa [List.get?_eq_none] using hlen
        rw [this] at hv
        cases hv
  · simp [h4]
  · simp [h4]

theorem valueString_prints (rt : GoRuntime) (oidinfo : OidInfo) (resstr : String) (v : String)
    (p : List String) (hk : KnownType oidinfo)
    (h : OidInfo.ValueString rt oidinfo resstr = some (v, p)) : p = [] := by
  unfold OidInfo.ValueString at h
  unfold KnownType at hk
  split_ifs at h with h1 h2 h3 h4 h5
  · simp only [Option.some.injEq, Prod.mk.injEq] at h; exact h.2.symm
  · simp only [Option.some.injEq, Prod.mk.injEq] at h; exact h.2.symm
  · simp only [Option.some.injEq, Prod.mk.injEq] at h; exact h.2.symm
  · split at h
    · cases h
    · simp only [Option.some.injEq, Prod.mk.injEq] at h; exact h.2.symm
  · simp only [Option.some.injEq, Prod.mk.injEq] at h; exact h.2.symm
  · rcases hk with hk | hk | hk | hk | hk <;> contradiction

theorem formatPairs_eq (rt : GoRuntime) (scan : StringMap) (l : List OidInfo) :
    ∀ (outstr : String) (prints : List String),
      (∀ oidinfo ∈ l, OidInfo.ValueString rt oidinfo (StringMap.index scan oidinfo.Oid) ≠ none) →
      (formatPairs rt scan l outstr prints).1 =
        some (String.intercalate.go outstr " " (l.map (pairField rt scan))) ∧
      ((∀ oidinfo ∈ l, KnownType oidinfo) → (formatPairs rt scan l outstr prints).2 = prints) := by
  induction l with
  | nil => intro outstr prints _; exact ⟨rfl, fun _ => rfl⟩
  | cons oidinfo rest ih =>
      intro outstr prints h
      have hh := h oidinfo (List.mem_cons_self _ _)
      cases hv : OidInfo.ValueString rt oidinfo (StringMap.index scan oidinfo.Oid) with
      | none => exact absurd hv hh
      | some vp =>
          obtain ⟨v, p⟩ := vp
          obtain ⟨ih1, ih2⟩ := ih (outstr ++ " " ++ oidinfo.Chancode ++ ":" ++ v) (prints ++ p)
            (fun x hx => h x (List.mem_cons_of_mem _ hx))
          have hpf : pairField rt scan oidinfo = oidinfo.Chancode ++ ":" ++ v := by
            simp [pairField, hv]
          refine ⟨?_, ?_⟩
          · simp only [formatPairs, hv, List.map_cons, String.intercalate.go, hpf]
            rw [ih1]
            simp only [String.append_assoc]
          · intro hk
            simp only [formatPairs, hv]
            rw [ih2 (fun x hx => hk x (List.mem_cons_of_mem _ hx))]
            rw [valueString_prints rt oidinfo _ v p (hk oidinfo (List.mem_cons_self _ _)) hv]
            simp

theorem formatPairs_none (rt : GoRuntime) (scan : StringMap) (l : List OidInfo) :
    ∀ (outstr : String) (prints : List String),
      (∃ oidinfo ∈ l, OidInfo.ValueString rt oidinfo (StringMap.index scan oidinfo.Oid) = none) →
      (formatPairs rt scan l outstr prints).1 = none := by
  induction l with
  | nil => intro _ _ h; obtain ⟨_, hm, _⟩ := h; cases hm
  | cons oidinfo rest ih =>
      intro outstr prints h
      cases hv : OidInfo.ValueString rt oidinfo (StringMap.index scan oidinfo.Oid) with
      | none => simp [formatPairs, hv]
      | some vp =>
          obtain ⟨x, hx, hxn⟩ := h
          rcases List.mem_cons.mp hx with rfl | hx
          · rw [hv] at hxn; cases hxn
          · simp only [formatPairs, hv]
            exact ih _ _ ⟨x, hx, hxn⟩

theorem formatScan_eq (rt : GoRuntime) (g : ModelVars) (sampleInterval : Int) (cfg : TSMConfig)
    (ts : Int) (scan : StringMap) (oids : List String) (oidInfos : List OidInfo)
    (e : Option String) (hd : TSMConfig.DataOidsInfo cfg g = some (oids, oidInfos, e))
    (hv : ∀ oidinfo ∈ oidInfos,
      OidInfo.ValueString rt oidinfo (StringMap.index scan oidinfo.Oid) ≠ none) :
    (formatScan rt g sampleInterval cfg ts scan).1 =
      some (" ".intercalate (recordFields rt sampleInterval cfg ts scan oidInfos)) ∧
    ((∀ oidinfo ∈ oidInfos, KnownType oidinfo) →
      (formatScan rt g sampleInterval cfg ts scan).2 = []) := by
  unfold formatScan
  simp only [hd]
  obtain ⟨h1, h2⟩ := formatPairs_eq rt scan oidInfos
    (fmtStamp ts ++ " " ++ cfg.General.Net ++ " " ++ cfg.General.Sta ++ " " ++ cfg.General.Loc ++
      " " ++ fmtFixed 0 (Duration.Seconds sampleInterval)) [] hv
  refine ⟨?_, h2⟩
  rw [h1]
  simp only [recordFields, stampFields, fmtStamp, String.intercalate, List.cons_append,
    List.nil_append, String.intercalate.go, String.append_assoc]

theorem seconds_field (k : Nat) (h1 : 1 ≤ k) (h60 : k ≤ 60) :
    fmtFixed 0 (Duration.Seconds ((k : Int) * Second)) = fmtNat k := by
  interval_cases k <;> decide

/-- Witness of `dataOidsInfo_preserves_order`: the model `TS2` on the configuration
`exCfgAB`; the current group is the second one and the identifiers come in the order
`Status`, `Measurements`. -/
theorem dataOidsInfo_preserves_order_witness :
    (∃ dg, exCfgAB.Oids.DeviceGroups.get? (exCfgAB.SetModel ModelVars.zero "TS2").curModelNdx = some dg ∧
      dg.ModelGroup = "TS2" ∧
      TSMConfig.DataOidsInfo exCfgAB (exCfgAB.SetModel ModelVars.zero "TS2") =
        some ((dg.Status ++ dg.Measurements ++ dg.Alarms ++ dg.Faults).map (fun oidinfo => oidinfo.Oid),
          dg.Status ++ dg.Measurements ++ dg.Alarms ++ dg.Faults, none)) ∧
    TSMConfig.DataOidsInfo exCfgAB (exCfgAB.SetModel ModelVars.zero "TS2") =
      some (["1.3.6.1.4.1.1", "1.3.6.1.4.1.3"], [exOid, exOidB], none) :=
  ⟨(dataOidsInfo_preserves_order exCfgAB ModelVars.zero "TS2" (by decide) (by decide)).1,
    by decide⟩

/-- The line of `formatScan`. For every sample interval, configuration, time `ts` and
snapshot, `formatScan` returns a line unless it panics, which it does exactly when the
current model index is outside the device groups or the raw value of an identifier of type
`map` is not an index into its `Values`. The line is made of these fields, joined by single
spaces and in this order: the zero-padded calendar fields `YYYY MM DD HH MM SS` of `ts`, the
network, the station, the location, the sample interval in seconds printed with `%.0f` (the
whole number `k` for an interval of `k` seconds, `1 <= k <= 60`), then one `code:value` per
data identifier in the order of `DataOidsInfo`, `code` being its channel code and `value`
the string `ValueString` returns for the raw value of the snapshot. -/
theorem formatScan_line_format (rt : GoRuntime) (g : ModelVars) (sampleInterval : Int)
    (cfg : TSMConfig) (ts : Int) (scan : StringMap) (oids : List String)
    (oidInfos : List OidInfo) (e : Option String)
    (hd : TSMConfig.DataOidsInfo cfg g = some (oids, oidInfos, e)) :
    ((∀ oidinfo ∈ oidInfos, ¬ (oidinfo.Typ = "map" ∧
        oidinfo.Values.length ≤ ParseUint (StringMap.index scan oidinfo.Oid))) →
      (formatScan rt g sampleInterval cfg ts scan).1 =
        some (" ".intercalate
          (stampFields ts ++
            [cfg.General.Net, cfg.General.Sta, cfg.General.Loc,
              fmtFixed 0 (Duration.Seconds sampleInterval)] ++
            oidInfos.map (pairField rt scan))) ∧
      ∀ oidinfo ∈ oidInfos, ∃ v p,
        OidInfo.ValueString rt oidinfo (StringMap.index scan oidinfo.Oid) = some (v, p) ∧
        pairField rt scan oidinfo = oidinfo.Chancode ++ ":" ++ v) ∧
    ((∃ oidinfo ∈ oidInfos, oidinfo.Typ = "map" ∧
        oidinfo.Values.length ≤ ParseUint (StringMap.index scan oidinfo.Oid)) →
      (formatScan rt g sampleInterval cfg ts scan).1 = none) ∧
    (∀ g0 : ModelVars, TSMConfig.DataOidsInfo cfg g0 = none →
      formatScan rt g0 sampleInterval cfg ts scan = (none, [])) ∧
    (∀ k : Nat, 1 ≤ k → k ≤ 60 → sampleInterval = (k : Int) * Second →
      fmtFixed 0 (Duration.Seconds sampleInterval) = fmtNat k) := by
  refine ⟨?_, ?_, ?_, ?_⟩
  · intro hv
    have hv2 : ∀ oidinfo ∈ oidInfos,
        OidInfo.ValueString rt oidinfo (StringMap.index scan oidinfo.Oid) ≠ none :=
      fun x hx hn => hv x hx ((valueString_none_iff rt x _).mp hn)
    refine ⟨(formatScan_eq rt g sampleInterval cfg ts scan oids oidInfos e hd hv2).1, ?_⟩
    intro oidinfo hx
    cases hvs : OidInfo.ValueString rt oidinfo (StringMap.index scan oidinfo.Oid) with
    | none => exact absurd hvs (hv2 oidinfo hx)
    | some vp => exact ⟨vp.1, vp.2, rfl, by simp [pairField, hvs]⟩
  · intro hbad
    obtain ⟨x, hx, hb⟩ := hbad
    unfold formatScan
    simp only [hd]
    exact formatPairs_none rt scan oidInfos _ _ ⟨x, hx, (valueString_none_iff rt x _).mpr hb⟩
  · intro g0 h0
    unfold formatScan
    simp only [h0]
  · intro k hk1 hk60 hI
    rw [hI]
    exact seconds_field k hk1 hk60

/-- Witness of `formatScan_line_format`: the identifiers `A` and `B` of `exCfgAB` with the
raw values `"10"` and `"20"`, at 00:00:10 on 2025-01-01, polling every 2 s. -/
theorem formatScan_line_format_witness :
    (formatScan refRuntime exEnvAB.vars (2 * Second) exCfgAB (exTime 10000) exScanAB).1 =
        some (" ".intercalate
          (stampFields (exTime 10000) ++
            [exCfgAB.General.Net, exCfgAB.General.Sta, exCfgAB.General.Loc,
              fmtFixed 0 (Duration.Seconds (2 * Second))] ++
            [exOid, exOidB].map (pairField refRuntime exScanAB))) ∧
    " ".intercalate
        (stampFields (exTime 10000) ++
          [exCfgAB.General.Net, exCfgAB.General.Sta, exCfgAB.General.Loc,
            fmtFixed 0 (Duration.Seconds (2 * Second))] ++
          [exOid, exOidB].map (pairField refRuntime exScanAB)) =
      "2025 01 01 00 00 10 NET STA 00 2 A:10 B:20" :=
  ⟨((formatScan_line_format refRuntime exEnvAB.vars (2 * Second) exCfgAB (exTime 10000) exScanAB
      ["1.3.6.1.4.1.1", "1.3.6.1.4.1.3"] [exOid, exOidB] none (by decide)).1 (by decide)).1,
    by decide⟩

/-- C11 (the code at the failing input). For the identifier of type `map` with the two
values `off` and `on` and the raw value `"7"`, `ValueString` panics on `oidInfo.Values[val]`
and `formatScan` returns no line; for the raw value `"1"` it returns the line with the
field `M:on`. -/
theorem formatScan_panics_on_map_value :
    TSMConfig.DataOidsInfo (exCfgOf exMapOid) (exEnvOf exMapOid).vars =
      some (["1.3.6.1.4.1.2"], [exMapOid], none) ∧
    OidInfo.ValueString refRuntime exMapOid "7" = none ∧
    formatScan refRuntime (exEnvOf exMapOid).vars (2 * Second) (exCfgOf exMapOid) (exTime 10000)
      [("1.3.6.1.4.1.2", "7")] = (none, []) ∧
    formatScan refRuntime (exEnvOf exMapOid).vars (2 * Second) (exCfgOf exMapOid) (exTime 10000)
      [("1.3.6.1.4.1.2", "1")] = (some "2025 01 01 00 00 10 NET STA 00 2 M:on", []) := by
  decide

/-! ## A run of on-time scans -/

theorem allOnTime_onTargetSnaps (I : Int) (h0 : 0 ≤ I) :
    ∀ (datas : List StringMap) (T : Int), AllOnTime I T (onTargetSnaps I T datas) := by
  intro datas
  induction datas with
  | nil => intro T; trivial
  | cons d ds ih =>
      intro T
      refine ⟨⟨?_, ?_⟩, ih (T + I)⟩ <;> simp only [sub_self] <;> omega

theorem onTargetSnaps_data (I : Int) :
    ∀ (datas : List StringMap) (T : Int),
      (onTargetSnaps I T datas).map Prod.snd = datas := by
  intro datas
  induction datas with
  | nil => intro T; rfl
  | cons d ds ih => intro T; simp [onTargetSnaps, ih]

theorem recordWrites_eq (env : PollEnv) (ts : Int) (data : StringMap) (oids : List String)
    (oidInfos : List OidInfo) (e : Option String)
    (hd : TSMConfig.DataOidsInfo env.cfg env.vars = some (oids, oidInfos, e))
    (hv : ∀ oidinfo ∈ oidInfos,
      OidInfo.ValueString env.rt oidinfo (StringMap.index data oidinfo.Oid) ≠ none) :
    recordWrites env ts data =
      (formatScan env.rt env.vars env.dInterval env.cfg ts data).2 ++
        [" ".intercalate (recordFields env.rt env.dInterval env.cfg ts data oidInfos) ++ "\n"] := by
  have h := (formatScan_eq env.rt env.vars env.dInterval env.cfg ts data oids oidInfos e hd hv).1
  unfold recordWrites
  cases hf : formatScan env.rt env.vars env.dInterval env.cfg ts data with
  | mk line prints =>
      rw [hf] at h
      simp only at h
      subst h
      rfl

theorem valueString_default (rt : GoRuntime) (oidinfo : OidInfo) (resstr : String)
    (hk : ¬ KnownType oidinfo) :
    OidInfo.ValueString rt oidinfo resstr =
      some (resstr, ["ToString WOWZA:  " ++ resstr ++ "\n"]) := by
  unfold KnownType at hk
  simp only [not_or] at hk
  obtain ⟨h1, h2, h3, h4, h5⟩ := hk
  simp [OidInfo.ValueString, h1, h2, h3, h4, h5]

theorem formatPairs_prints (rt : GoRuntime) (scan : StringMap) (l : List OidInfo) :
    ∀ (outstr : String) (prints : List String),
      (∀ oidinfo ∈ l, OidInfo.ValueString rt oidinfo (StringMap.index scan oidinfo.Oid) ≠ none) →
      (formatPairs rt scan l outstr prints).2 = prints ++ defaultArmLines scan l := by
  induction l with
  | nil => intro outstr prints _; simp [formatPairs, defaultArmLines]
  | cons oidinfo rest ih =>
      intro outstr prints h
      have hrest : ∀ x ∈ rest, OidInfo.ValueString rt x (StringMap.index scan x.Oid) ≠ none :=
        fun x hx => h x (List.mem_cons_of_mem _ hx)
      by_cases hk : KnownType oidinfo
      · cases hv : OidInfo.ValueString rt oidinfo (StringMap.index scan oidinfo.Oid) with
        | none => exact absurd hv (h oidinfo (List.mem_cons_self _ _))
        | some vp =>
            obtain ⟨v, p⟩ := vp
            have hp := valueString_prints rt oidinfo _ v p hk hv
            subst hp
            simp only [formatPairs, hv, List.append_nil]
            rw [ih _ _ hrest]
            simp [defaultArmLines, hk]
      · have hv := valueString_default rt oidinfo (StringMap.index scan oidinfo.Oid) hk
        simp only [formatPairs, hv]
        rw [ih _ _ hrest]
        simp [defaultArmLines, hk]

theorem formatScan_prints (rt : GoRuntime) (g : ModelVars) (sampleInterval : Int)
    (cfg : TSMConfig) (ts : Int) (scan : StringMap) (oids : List String)
    (oidInfos : List OidInfo) (e : Option String)
    (hd : TSMConfig.DataOidsInfo cfg g = some (oids, oidInfos, e))
    (hv : ∀ oidinfo ∈ oidInfos,
      OidInfo.ValueString rt oidinfo (StringMap.index scan oidinfo.Oid) ≠ none) :
    (formatScan rt g sampleInterval cfg ts scan).2 = defaultArmLines scan oidInfos := by
  unfold formatScan
  simp only [hd]
  rw [formatPairs_prints rt scan oidInfos _ _ hv]
  rfl

/-! ### Counting the lines written -/

theorem lineBreaks_append (a b : String) :
    lineBreaks (a ++ b) = lineBreaks a + lineBreaks b := by
  simp [lineBreaks, String.data_append, List.count_append]

theorem lineBreaks_replicate (k : Nat) (c : Char) (hc : c ≠ Char.ofNat 10) :
    lineBreaks (String.mk (List.replicate k c)) = 0 := by
  simp only [lineBreaks]
  rw [List.count_eq_zero]
  intro hm
  exact hc (List.eq_of_mem_replicate hm).symm

theorem digitChar_ne_newline (n : Nat) : Nat.digitChar n ≠ Char.ofNat 10 := by
  by_cases h : n < 16
  · revert n
    decide
  · have : Nat.digitChar n = '*' := by
      unfold Nat.digitChar
      repeat (rw [if_neg (by omega)])
    rw [this]
    decide

theorem digitsFuel_count (base : Nat) : ∀ (fuel n : Nat) (acc : List Char),
    (digitsFuel base fuel n acc).count (Char.ofNat 10) = acc.count (Char.ofNat 10) := by
  intro fuel
  induction fuel with
  | zero => intro n acc; rfl
  | succ fuel ih =>
      intro n acc
      have hne : ∀ k, (Nat.digitChar k == Char.ofNat 10) = false :=
        fun k => beq_eq_false_iff_ne.mpr (digitChar_ne_newline k)
      simp only [digitsFuel]
      split_ifs
      · simp [List.count_cons, hne]
      · rw [ih]
        simp [List.count_cons, hne]

theorem lineBreaks_fmtNat (n : Nat) : lineBreaks (fmtNat n) = 0 := by
  simp [lineBreaks, fmtNat, digitsFuel_count]

theorem lineBreaks_padLeft (c : Char) (width : Nat) (s : String) (hc : c ≠ Char.ofNat 10) :
    lineBreaks (padLeft c width s) = lineBreaks s := by
  unfold padLeft
  rw [lineBreaks_append, lineBreaks_replicate _ _ hc, Nat.zero_add]

theorem lineBreaks_fmtIntZero (width : Nat) (i : Int) : lineBreaks (fmtIntZero width i) = 0 := by
  have h0 : ('0' : Char) ≠ Char.ofNat 10 := by decide
  have hm : lineBreaks "-" = 0 := by decide
  unfold fmtIntZero
  split_ifs
  · rw [lineBreaks_append, lineBreaks_padLeft _ _ _ h0, lineBreaks_fmtNat, hm]
  · rw [lineBreaks_padLeft _ _ _ h0, lineBreaks_fmtNat]

theorem lineBreaks_fmtFixed (prec : Nat) (f : Float64) : lineBreaks (fmtFixed prec f) = 0 := by
  have h0 : ('0' : Char) ≠ Char.ofNat 10 := by decide
  have hm : lineBreaks "-" = 0 := by decide
  have he : lineBreaks "" = 0 := by decide
  have hd : lineBreaks "." = 0 := by decide
  match f with
  | Float64.nan => simp only [fmtFixed]; decide
  | Float64.inf false => simp only [fmtFixed]; decide
  | Float64.inf true => simp only [fmtFixed]; decide
  | Float64.finite neg mant exp =>
      simp only [fmtFixed]
      rw [lineBreaks_append, lineBreaks_append, lineBreaks_fmtNat]
      have h1 : lineBreaks (if neg = true then "-" else "") = 0 := by
        split_ifs <;> assumption
      rw [h1]
      split_ifs
      · exact he
      · rw [lineBreaks_append, lineBreaks_padLeft _ _ _ h0, lineBreaks_fmtNat, hd]

theorem lineCount_append (a b : List String) : lineCount (a ++ b) = lineCount a + lineCount b := by
  simp [lineCount]

theorem lineCount_of_noNewline (l : List String) (h : ∀ x ∈ l, NoNewline x) : lineCount l = 0 := by
  induction l with
  | nil => rfl
  | cons a as ih =>
      have ha : lineBreaks a = 0 := h a (List.mem_cons_self _ _)
      have has := ih (fun x hx => h x (List.mem_cons_of_mem _ hx))
      simp only [lineCount, List.map_cons, List.sum_cons] at has ⊢
      rw [ha, has]

theorem intercalate_go_lineBreaks : ∀ (l : List String) (acc : String),
    lineBreaks (String.intercalate.go acc " " l) = lineBreaks acc + lineCount l := by
  intro l
  induction l with
  | nil => intro acc; simp [String.intercalate.go, lineCount]
  | cons a as ih =>
      intro acc
      have hs : lineBreaks " " = 0 := by decide
      simp only [String.intercalate.go]
      rw [ih, lineBreaks_append, lineBreaks_append, hs]
      simp only [lineCount, List.map_cons, List.sum_cons]
      omega

theorem intercalate_lineBreaks (l : List String) :
    lineBreaks (" ".intercalate l) = lineCount l := by
  cases l with
  | nil => decide
  | cons a as =>
      simp only [String.intercalate, intercalate_go_lineBreaks]
      simp [lineCount]

theorem record_lineBreaks (rt : GoRuntime) (sampleInterval : Int) (cfg : TSMConfig) (ts : Int)
    (scan : StringMap) (oidInfos : List OidInfo)
    (hn : NoNewline cfg.General.Net) (hs : NoNewline cfg.General.Sta)
    (hl : NoNewline cfg.General.Loc)
    (hp : ∀ oidinfo ∈ oidInfos, NoNewline (pairField rt scan oidinfo)) :
    lineBreaks (" ".intercalate (recordFields rt sampleInterval cfg ts scan oidInfos) ++ "\n") =
      1 := by
  have hnl : lineBreaks "\n" = 1 := by decide
  rw [lineBreaks_append, intercalate_lineBreaks, hnl]
  have h0 : lineCount (recordFields rt sampleInterval cfg ts scan oidInfos) = 0 := by
    apply lineCount_of_noNewline
    intro x hx
    simp only [recordFields, stampFields, List.mem_append, List.mem_cons, List.mem_singleton,
      List.not_mem_nil, or_false, List.mem_map] at hx
    rcases hx with (hx | hx) | hx
    · rcases hx with hx | hx | hx | hx | hx | hx <;> subst hx <;> exact lineBreaks_fmtIntZero _ _
    · rcases hx with hx | hx | hx | hx
      · subst hx; exact hn
      · subst hx; exact hs
      · subst hx; exact hl
      · subst hx; exact lineBreaks_fmtFixed _ _
    · obtain ⟨o, ho, rfl⟩ := hx
      exact hp o ho
  rw [h0]

theorem defaultArmLines_lineCount (rt : GoRuntime) (scan : StringMap) (oidInfos : List OidInfo)
    (hp : ∀ oidinfo ∈ oidInfos, NoNewline (pairField rt scan oidinfo)) :
    lineCount (defaultArmLines scan oidInfos) =
      (oidInfos.filter (fun oidinfo => decide (¬ KnownType oidinfo))).length := by
  induction oidInfos with
  | nil => rfl
  | cons o rest ih =>
      have ih2 := ih (fun x hx => hp x (List.mem_cons_of_mem _ hx))
      simp only [defaultArmLines, lineCount] at ih2
      by_cases hk : KnownType o
      · have hdec : decide (¬ KnownType o) = false := by simp [hk]
        simp only [defaultArmLines, lineCount, List.filter_cons, hdec, Bool.false_eq_true,
          if_false]
        exact ih2
      · have hdec : decide (¬ KnownType o) = true := by simp [hk]
        have hpo : lineBreaks (pairField rt scan o) = 0 := hp o (List.mem_cons_self _ _)
        simp only [pairField, valueString_default rt o _ hk, Option.map_some', Option.getD_some,
          lineBreaks_append] at hpo
        have hraw : lineBreaks (StringMap.index scan o.Oid) = 0 := by omega
        have hw : lineBreaks "ToString WOWZA:  " = 0 := by decide
        have hnl : lineBreaks "\n" = 1 := by decide
        simp only [defaultArmLines, lineCount, List.filter_cons, hdec, if_true, List.map_cons,
          List.sum_cons, List.length_cons, lineBreaks_append, hraw, hw, hnl, ih2]
        omega

theorem lineBreaks_padRight (width : Nat) (s : String) :
    lineBreaks (padRight width s) = lineBreaks s := by
  unfold padRight
  rw [lineBreaks_append, lineBreaks_replicate _ _ (by decide), Nat.add_zero]

theorem lineBreaks_fmtBin (n : Nat) : lineBreaks (fmtBin n) = 0 := by
  simp [lineBreaks, fmtBin, digitsFuel_count]

theorem lineBreaks_trim (s : String) : lineBreaks (trimRightSpaceComma s) ≤ lineBreaks s := by
  unfold trimRightSpaceComma lineBreaks
  simp only
  rw [List.count_reverse]
  calc List.count (Char.ofNat 10) (List.dropWhile (fun c => decide (c = ' ' ∨ c = ',')) s.data.reverse)
      ≤ List.count (Char.ofNat 10) s.data.reverse := (List.dropWhile_sublist _).count_le _
    _ = List.count (Char.ofNat 10) s.data := List.count_reverse _ _

theorem lineBreaks_getD (l : List String) (n : Nat) (h : ∀ v ∈ l, NoNewline v) :
    lineBreaks (l.getD n "") = 0 := by
  rw [List.getD_eq_getElem?_getD]
  cases hv : l[n]? with
  | none => decide
  | some v => exact h v (List.getElem?_mem hv)

theorem lineBreaks_bitmapString (bits : Nat) (bitmap : List String)
    (h : ∀ v ∈ bitmap, NoNewline v) : lineBreaks (bitmapString bits bitmap) = 0 := by
  have hfold : ∀ (l : List Nat) (acc : String), lineBreaks acc = 0 →
      lineBreaks (l.foldl (fun res ndx =>
        if ndx < bitmap.length then
          if bits / 2 ^ ndx % 2 ≠ 0 then res ++ bitmap.getD ndx "" ++ ", " else res
        else res) acc) = 0 := by
    intro l
    induction l with
    | nil => intro acc hacc; exact hacc
    | cons n rest ih =>
        intro acc hacc
        simp only [List.foldl_cons]
        apply ih
        have hsep : lineBreaks ", " = 0 := by decide
        split_ifs
        · rw [lineBreaks_append, lineBreaks_append, hacc, lineBreaks_getD _ _ h, hsep]
        · exact hacc
        · exact hacc
  have h0 := hfold (List.range 64) "" (by decide)
  have hle := lineBreaks_trim ((List.range 64).foldl (fun res ndx =>
        if ndx < bitmap.length then
          if bits / 2 ^ ndx % 2 ≠ 0 then res ++ bitmap.getD ndx "" ++ ", " else res
        else res) "")
  unfold bitmapString
  omega

/-- The `code:value` field of an identifier holds no newline character when its channel
code, the raw value of the scan and the texts of its `Values` hold none (and the Go
implementation prints none for a width beyond the limit of `fmt`). -/
theorem pairField_noNewline (rt : GoRuntime) (scan : StringMap) (oidinfo : OidInfo)
    (hc : NoNewline oidinfo.Chancode) (hraw : NoNewline (StringMap.index scan oidinfo.Oid))
    (hvals : ∀ v ∈ oidinfo.Values, NoNewline v)
    (hrt : ∀ w v, NoNewline (rt.SprintfWideBin w v)) :
    NoNewline (pairField rt scan oidinfo) := by
  have hcolon : lineBreaks ":" = 0 := by decide
  have hcode : lineBreaks oidinfo.Chancode = 0 := hc
  have hr : lineBreaks (StringMap.index scan oidinfo.Oid) = 0 := hraw
  unfold NoNewline pairField
  rw [lineBreaks_append, lineBreaks_append, hcode, hcolon]
  simp only [Nat.add_zero, Nat.zero_add]
  unfold OidInfo.ValueString
  split_ifs with h1 h2 h3 h4 h5
  · exact hr
  · simp only [Option.map_some', Option.getD_some, fmtF41]
    rw [lineBreaks_padLeft _ _ _ (by decide), lineBreaks_fmtFixed]
  · simp only [Option.map_some', Option.getD_some, sprintfZeroBin]
    split_ifs
    · exact hrt _ _
    · rw [lineBreaks_padRight, lineBreaks_fmtBin]
    · rw [lineBreaks_padLeft _ _ _ (by decide), lineBreaks_fmtBin]
  · cases hv : oidinfo.Values.get? (ParseUint (StringMap.index scan oidinfo.Oid)) with
    | none => decide
    | some v => exact hvals v (List.get?_mem hv)
  · simp only [Option.map_some', Option.getD_some]
    have hb := lineBreaks_bitmapString (ParseUint (StringMap.index scan oidinfo.Oid))
      oidinfo.Values hvals
    split_ifs
    · decide
    · exact hb
  · exact hr

theorem lineCount_flatten_map {α : Type} (f : α → List String) (k : Nat) :
    ∀ (l : List α), (∀ x ∈ l, lineCount (f x) = k) →
      lineCount (l.map f).flatten = l.length * k := by
  intro l
  induction l with
  | nil => intro _; simp [lineCount]
  | cons a as ih =>
      intro h
      rw [List.map_cons, List.flatten_cons, lineCount_append, h a (List.mem_cons_self _ _),
        ih (fun x hx => h x (List.mem_cons_of_mem _ hx)), List.length_cons]
      rw [Nat.succ_mul]
      omega

/-- C12 (as amended). For every `n` and interval `I`, if in each of `n` consecutive
iterations from the initial state of the loop the scan taken has the target time of that
iteration as its timestamp, and `formatScan` returns a line for these scans (no identifier
of type `map` has a raw value outside its `Values`), then `n` iterations run and each
writes, in this order: one line `ToString WOWZA:  <raw value>` for every configured
identifier of a type `ValueString` has no case for, then exactly one record, the fields of
its own scan joined by single blanks, with the `code:value` fields of the configured
identifiers in configured order, and a newline. When every identifier has a known type each
iteration makes exactly one write. When neither the network, the station, the location nor
a `code:value` field holds a newline character, the output has `1 + u` lines per iteration,
`u` being the number of identifiers of a type without a case: exactly `n` lines, one per
iteration, when every identifier has a known type. (By `pairField_noNewline` a `code:value`
field holds no newline character when the channel code, the raw value and the texts of
`Values` hold none.) -/
theorem onTime_run_emits_one_record_per_cycle (env : PollEnv) (now : Int)
    (datas : List StringMap) (oids : List String) (oidInfos : List OidInfo) (e : Option String)
    (h0 : 0 ≤ env.dInterval) (h1 : env.dInterval ≤ maxDuration)
    (hd : TSMConfig.DataOidsInfo env.cfg env.vars = some (oids, oidInfos, e))
    (hv : ∀ d ∈ datas, ∀ oidinfo ∈ oidInfos, ¬ (oidinfo.Typ = "map" ∧
      oidinfo.Values.length ≤ ParseUint (StringMap.index d oidinfo.Oid))) :
    (run env (LoopState.init env.dInterval now)
      ((onTargetSnaps env.dInterval (waitTarget env (LoopState.init env.dInterval now)) datas).map
        scanWake)).length = datas.length ∧
    (run env (LoopState.init env.dInterval now)
      ((onTargetSnaps env.dInterval (waitTarget env (LoopState.init env.dInterval now)) datas).map
        scanWake)).map (fun o => o.stdout) =
      (onTargetSnaps env.dInterval (waitTarget env (LoopState.init env.dInterval now)) datas).map
        (fun s => defaultArmLines s.2 oidInfos ++
          [" ".intercalate (recordFields env.rt env.dInterval env.cfg s.1 s.2 oidInfos) ++ "\n"]) ∧
    ((∀ oidinfo ∈ oidInfos, KnownType oidinfo) →
      (runStdout (run env (LoopState.init env.dInterval now)
        ((onTargetSnaps env.dInterval (waitTarget env (LoopState.init env.dInterval now)) datas).map
          scanWake))).length = datas.length) ∧
    (NoNewline env.cfg.General.Net → NoNewline env.cfg.General.Sta →
      NoNewline env.cfg.General.Loc →
      (∀ d ∈ datas, ∀ oidinfo ∈ oidInfos, NoNewline (pairField env.rt d oidinfo)) →
      lineCount (runStdout (run env (LoopState.init env.dInterval now)
        ((onTargetSnaps env.dInterval (waitTarget env (LoopState.init env.dInterval now)) datas).map
          scanWake))) =
        datas.length *
          ((oidInfos.filter (fun oidinfo => decide (¬ KnownType oidinfo))).length + 1) ∧
      ((∀ oidinfo ∈ oidInfos, KnownType oidinfo) →
        lineCount (runStdout (run env (LoopState.init env.dInterval now)
          ((onTargetSnaps env.dInterval (waitTarget env (LoopState.init env.dInterval now)) datas).map
            scanWake))) = datas.length)) := by
  have hmem : ∀ s ∈ onTargetSnaps env.dInterval (waitTarget env (LoopState.init env.dInterval now)) datas,
      s.2 ∈ datas := by
    intro s hs
    have := List.mem_map_of_mem Prod.snd hs
    rwa [onTargetSnaps_data] at this
  have hv2 : ∀ s ∈ onTargetSnaps env.dInterval (waitTarget env (LoopState.init env.dInterval now)) datas,
      ∀ oidinfo ∈ oidInfos,
        OidInfo.ValueString env.rt oidinfo (StringMap.index s.2 oidinfo.Oid) ≠ none := by
    intro s hs x hx hn
    exact hv s.2 (hmem s hs) x hx ((valueString_none_iff env.rt x _).mp hn)
  have hfmt : ∀ s ∈ onTargetSnaps env.dInterval (waitTarget env (LoopState.init env.dInterval now)) datas,
      (formatScan env.rt env.vars env.dInterval env.cfg s.1 s.2).1.isSome = true := by
    intro s hs
    rw [(formatScan_eq env.rt env.vars env.dInterval env.cfg s.1 s.2 oids oidInfos e hd
      (hv2 s hs)).1]
    rfl
  obtain ⟨r1, _⟩ := run_onTime env h0 h1 _ (LoopState.init env.dInterval now) rfl
    (allOnTime_onTargetSnaps env.dInterval h0 datas _) hfmt
  have hsnaps : (onTargetSnaps env.dInterval (waitTarget env (LoopState.init env.dInterval now))
      datas).length = datas.length := by
    have h2 := congrArg List.length (onTargetSnaps_data env.dInterval datas
      (waitTarget env (LoopState.init env.dInterval now)))
    simpa using h2
  have hlen : (run env (LoopState.init env.dInterval now)
      ((onTargetSnaps env.dInterval (waitTarget env (LoopState.init env.dInterval now)) datas).map
        scanWake)).length = datas.length := by
    have := congrArg List.length r1
    simp only [List.length_map] at this
    rw [this, hsnaps]
  have hout : (run env (LoopState.init env.dInterval now)
      ((onTargetSnaps env.dInterval (waitTarget env (LoopState.init env.dInterval now)) datas).map
        scanWake)).map (fun o => o.stdout) =
      (onTargetSnaps env.dInterval (waitTarget env (LoopState.init env.dInterval now)) datas).map
        (fun s => defaultArmLines s.2 oidInfos ++
          [" ".intercalate (recordFields env.rt env.dInterval env.cfg s.1 s.2 oidInfos) ++ "\n"]) := by
    rw [r1]
    apply List.map_congr_left
    intro s hs
    rw [recordWrites_eq env s.1 s.2 oids oidInfos e hd (hv2 s hs),
      formatScan_prints env.rt env.vars env.dInterval env.cfg s.1 s.2 oids oidInfos e hd (hv2 s hs)]
  refine ⟨hlen, hout, ?_, ?_⟩
  · intro hk
    unfold runStdout
    rw [hout, List.length_flatten, List.map_map]
    have hnone : (oidInfos.filter (fun oidinfo => decide (¬ KnownType oidinfo))) = [] := by
      rw [List.filter_eq_nil_iff]
      intro x hx
      simpa using hk x hx
    have hone : ∀ s ∈ onTargetSnaps env.dInterval (waitTarget env (LoopState.init env.dInterval now)) datas,
        (List.length ∘ fun s : Int × StringMap =>
          defaultArmLines s.2 oidInfos ++
            [" ".intercalate (recordFields env.rt env.dInterval env.cfg s.1 s.2 oidInfos) ++ "\n"]) s =
          (fun _ => 1) s := by
      intro s _
      simp only [Function.comp, defaultArmLines, hnone, List.map_nil, List.nil_append,
        List.length_singleton]
    rw [List.map_congr_left hone]
    simp [hsnaps]
  · intro hn hs hl hp
    have hcount : lineCount (runStdout (run env (LoopState.init env.dInterval now)
        ((onTargetSnaps env.dInterval (waitTarget env (LoopState.init env.dInterval now)) datas).map
          scanWake))) =
        datas.length *
          ((oidInfos.filter (fun oidinfo => decide (¬ KnownType oidinfo))).length + 1) := by
      unfold runStdout
      rw [hout, ← hsnaps]
      apply lineCount_flatten_map
      intro s hs2
      rw [lineCount_append, defaultArmLines_lineCount env.rt s.2 oidInfos (hp s.2 (hmem s hs2))]
      have hrec := record_lineBreaks env.rt env.dInterval env.cfg s.1 s.2 oidInfos hn hs hl
        (hp s.2 (hmem s hs2))
      simp only [lineCount, List.map_cons, List.map_nil, List.sum_cons, List.sum_nil, hrec,
        Nat.add_zero]
    refine ⟨hcount, ?_⟩
    intro hk
    have hnone : (oidInfos.filter (fun oidinfo => decide (¬ KnownType oidinfo))) = [] := by
      rw [List.filter_eq_nil_iff]
      intro x hx
      simpa using hk x hx
    rw [hcount, hnone]
    simp

/-- Witness of `onTime_run_emits_one_record_per_cycle`: `I = 2s`, `n = 3`, the identifiers
`A` and `B` with the values `"10"` and `"20"`, the loop set up at 00:00:06 so that the
target times are 00:00:10, 00:00:12 and 00:00:14: three iterations, three lines. -/
theorem onTime_run_emits_one_record_per_cycle_witness :
    (run exEnvAB (LoopState.init exEnvAB.dInterval (exTime 6000))
      ((onTargetSnaps exEnvAB.dInterval (waitTarget exEnvAB (LoopState.init exEnvAB.dInterval (exTime 6000)))
        [exScanAB, exScanAB, exScanAB]).map scanWake)).length = [exScanAB, exScanAB, exScanAB].length ∧
    lineCount (runStdout (run exEnvAB (LoopState.init exEnvAB.dInterval (exTime 6000))
      ((onTargetSnaps exEnvAB.dInterval (waitTarget exEnvAB (LoopState.init exEnvAB.dInterval (exTime 6000)))
        [exScanAB, exScanAB, exScanAB]).map scanWake))) = [exScanAB, exScanAB, exScanAB].length ∧
    runStdout (run exEnvAB (LoopState.init exEnvAB.dInterval (exTime 6000))
      ((onTargetSnaps exEnvAB.dInterval (waitTarget exEnvAB (LoopState.init exEnvAB.dInterval (exTime 6000)))
        [exScanAB, exScanAB, exScanAB]).map scanWake)) =
      ["2025 01 01 00 00 10 NET STA 00 2 A:10 B:20\n",
       "2025 01 01 00 00 12 NET STA 00 2 A:10 B:20\n",
       "2025 01 01 00 00 14 NET STA 00 2 A:10 B:20\n"] :=
  ⟨(onTime_run_emits_one_record_per_cycle exEnvAB (exTime 6000) [exScanAB, exScanAB, exScanAB]
      ["1.3.6.1.4.1.1", "1.3.6.1.4.1.3"] [exOid, exOidB] none (by decide) (by decide) (by decide)
      (by decide)).1,
    ((onTime_run_emits_one_record_per_cycle exEnvAB (exTime 6000) [exScanAB, exScanAB, exScanAB]
      ["1.3.6.1.4.1.1", "1.3.6.1.4.1.3"] [exOid, exOidB] none (by decide) (by decide) (by decide)
      (by decide)).2.2.2 (by decide) (by decide) (by decide) (by decide)).2 (by decide),
    by decide⟩

/-- C12 (as stated) fails, for `n = 1` and `I = 2s`, the scan taken at the target time
00:00:10. With an identifier of the type `text`, for which `ValueString` has no case, the
iteration writes two lines, the line `ValueString` prints and the record. With an
identifier of the type `string` whose raw value holds a newline character, the one record
written spans two lines. -/
theorem onTime_run_line_count_differs :
    waitTarget (exEnvOf exOddOid) (LoopState.init (2 * Second) (exTime 6000)) = exTime 10000 ∧
    runStdout (run (exEnvOf exOddOid) (LoopState.init (2 * Second) (exTime 6000))
        ((onTargetSnaps (2 * Second) (exTime 10000) [[("1.3.6.1.4.1.4", "5")]]).map scanWake)) =
      ["ToString WOWZA:  5\n", "2025 01 01 00 00 10 NET STA 00 2 X:5\n"] ∧
    (runStdout (run (exEnvOf exOddOid) (LoopState.init (2 * Second) (exTime 6000))
        ((onTargetSnaps (2 * Second) (exTime 10000) [[("1.3.6.1.4.1.4", "5")]]).map scanWake))).length ≠
      1 ∧
    runStdout (run exEnv (LoopState.init (2 * Second) (exTime 6000))
        ((onTargetSnaps (2 * Second) (exTime 10000) [[("1.3.6.1.4.1.1", "1\n2")]]).map scanWake)) =
      ["2025 01 01 00 00 10 NET STA 00 2 A:1\n2\n"] ∧
    lineCount (runStdout (run exEnv (LoopState.init (2 * Second) (exTime 6000))
        ((onTargetSnaps (2 * Second) (exTime 10000) [[("1.3.6.1.4.1.1", "1\n2")]]).map scanWake))) =
      2 := by
  decide

/-! ## The sequence of target times -/

theorem round_gt (I ts : Int) (hI : 0 < I) : ts - I < Time.Round ts I := by
  unfold Time.Round
  have hr0 := Int.emod_nonneg ts (ne_of_gt hI)
  have hr1 := Int.emod_lt_of_pos ts hI
  simp only [not_le.mpr hI, if_false]
  generalize ts % I = r at *
  split_ifs <;> omega

theorem cycle_targetTime (env : PollEnv) (st : LoopState) (w : Wake) :
    (cycle env st w).state.targetTime =
      match w with
      | Wake.timer ts (some _) _ =>
          if classify env.dInterval (waitTarget env st) ts = Drift.farFuture then
            Time.Round ts env.dInterval
          else waitTarget env st
      | _ => waitTarget env st := by
  unfold waitTarget
  match w with
  | Wake.sigdone => simp [cycle]
  | Wake.timer ts none err => simp [cycle]
  | Wake.timer ts (some data) err =>
      cases hc : classify env.dInterval (Time.Add st.targetTime env.dInterval) ts
      · simp [cycle, hc, emitRecord_state]
      · simp only [cycle, hc]
        split <;> simp
      · simp [cycle, hc, emitRecord_state]

theorem cycle_target_increases (env : PollEnv) (st : LoopState) (w : Wake)
    (h0 : 0 < env.dInterval) (h1 : env.dInterval ≤ maxDuration) :
    waitTarget env st < waitTarget env (cycle env st w).state := by
  have ht := cycle_targetTime env st w
  have hw : waitTarget env (cycle env st w).state =
      (cycle env st w).state.targetTime + env.dInterval := rfl
  rw [hw, ht]
  match w with
  | Wake.sigdone => simp only []; omega
  | Wake.timer ts none err => simp only []; omega
  | Wake.timer ts (some data) err =>
      simp only []
      split_ifs with hc
      · have hoff := (classify_farFuture_iff env.dInterval (waitTarget env st) ts (le_of_lt h0) h1).mp hc
        have hr := round_gt env.dInterval ts h0
        omega
      · omega

theorem runTargets_ge (env : PollEnv) (h0 : 0 < env.dInterval) (h1 : env.dInterval ≤ maxDuration) :
    ∀ (ws : List Wake) (st : LoopState), ∀ T ∈ runTargets env st ws, waitTarget env st ≤ T := by
  intro ws
  induction ws with
  | nil => intro st T hT; simp [runTargets] at hT
  | cons w rest ih =>
      intro st T hT
      unfold runTargets at hT
      split_ifs at hT with hex hp
      · cases hT
      · simp only [List.mem_singleton] at hT
        omega
      · rcases List.mem_cons.mp hT with rfl | hT
        · exact le_refl _
        · have := ih _ T hT
          have := cycle_target_increases env st w h0 h1
          omega

theorem runTargets_pairwise (env : PollEnv) (h0 : 0 < env.dInterval)
    (h1 : env.dInterval ≤ maxDuration) :
    ∀ (ws : List Wake) (st : LoopState), List.Pairwise (fun a b => a < b) (runTargets env st ws) := by
  intro ws
  induction ws with
  | nil => intro st; simp [runTargets]
  | cons w rest ih =>
      intro st
      unfold runTargets
      split_ifs with hex hp
      · exact List.Pairwise.nil
      · simp
      · refine List.Pairwise.cons ?_ (ih _)
        intro T hT
        have := runTargets_ge env h0 h1 rest _ T hT
        have := cycle_target_increases env st w h0 h1
        omega

theorem run_logs_head (env : PollEnv) :
    ∀ (ws : List Wake) (st : LoopState),
      (run env st ws).map (fun o => o.logs.head?) =
        (runTargets env st ws).map (fun T => some (LogCall.nextTargetTime T)) := by
  intro ws
  induction ws with
  | nil => intro st; rfl
  | cons w rest ih =>
      intro st
      have hh : (cycle env st w).logs.head? = some (LogCall.nextTargetTime (waitTarget env st)) := by
        unfold waitTarget
        match w with
        | Wake.sigdone => simp [cycle]
        | Wake.timer ts none err => simp [cycle]
        | Wake.timer ts (some data) err =>
            cases hc : classify env.dInterval (Time.Add st.targetTime env.dInterval) ts
            · simp [cycle, hc, emitRecord_logs]
            · simp only [cycle, hc]
              split <;> simp
            · simp [cycle, hc, emitRecord_logs]
      unfold run runTargets
      split_ifs with hex hp
      · rfl
      · simp [hh]
      · simp [hh, ih]

/-- C17. For every state the loop starts from (so for every start time), every interval
`0 < I` in the range of `time.Duration` and every sequence of wake-ups (no scan, or a scan
with any timestamp, or the stop signal), the target times the iterations wait on, which are
the ones they log first, are strictly increasing; and after every iteration that is not
"far future" the next target time is exactly `T + I`. -/
theorem target_times_strictly_increase (env : PollEnv) (st : LoopState) (ws : List Wake)
    (h0 : 0 < env.dInterval) (h1 : env.dInterval ≤ maxDuration) :
    List.Pairwise (fun a b => a < b) (runTargets env st ws) ∧
    (run env st ws).map (fun o => o.logs.head?) =
      (runTargets env st ws).map (fun T => some (LogCall.nextTargetTime T)) ∧
    (∀ (st0 : LoopState) (w : Wake),
      waitTarget env st0 < waitTarget env (cycle env st0 w).state) ∧
    (∀ (st0 : LoopState) (ts : Int) (err : Option String),
      waitTarget env (cycle env st0 (Wake.timer ts none err)).state =
        waitTarget env st0 + env.dInterval) ∧
    (∀ (st0 : LoopState) (ts : Int) (data : StringMap) (err : Option String),
      ¬ (ts - waitTarget env st0 > env.dInterval / 2) →
      waitTarget env (cycle env st0 (Wake.timer ts (some data) err)).state =
        waitTarget env st0 + env.dInterval) := by
  refine ⟨runTargets_pairwise env h0 h1 ws st, run_logs_head env ws st,
    fun st0 w => cycle_target_increases env st0 w h0 h1, ?_, ?_⟩
  · intro st0 ts err
    have hw : waitTarget env (cycle env st0 (Wake.timer ts none err)).state =
        (cycle env st0 (Wake.timer ts none err)).state.targetTime + env.dInterval := rfl
    rw [hw, cycle_targetTime]
  · intro st0 ts data err hnf
    have hc : ¬ classify env.dInterval (waitTarget env st0) ts = Drift.farFuture :=
      fun hc => hnf ((classify_farFuture_iff env.dInterval _ ts (le_of_lt h0) h1).mp hc)
    have hw : waitTarget env (cycle env st0 (Wake.timer ts (some data) err)).state =
        (cycle env st0 (Wake.timer ts (some data) err)).state.targetTime + env.dInterval := rfl
    rw [hw, cycle_targetTime]
    simp only [hc, if_false]

/-- Witness of `target_times_strictly_increase`: polling every 2 s from the loop set up at
00:00:06, with no scan at 00:00:10, a scan on time at 00:00:12, a scan too early at
00:00:14, a scan from 00:00:19.2 at 00:00:16 and a scan on time at 00:00:22. -/
theorem target_times_strictly_increase_witness :
    List.Pairwise (fun a b => a < b)
      (runTargets exEnv exState
        [Wake.timer (exTime 10000) none (some "scan unavailable"),
         Wake.timer (exTime 12000) (some exScan) none,
         Wake.timer (exTime 12500) (some exScan) none,
         Wake.timer (exTime 19200) (some exScan) none,
         Wake.timer (exTime 22000) (some exScan) none]) ∧
    runTargets exEnv exState
        [Wake.timer (exTime 10000) none (some "scan unavailable"),
         Wake.timer (exTime 12000) (some exScan) none,
         Wake.timer (exTime 12500) (some exScan) none,
         Wake.timer (exTime 19200) (some exScan) none,
         Wake.timer (exTime 22000) (some exScan) none] =
      [exTime 10000, exTime 12000, exTime 14000, exTime 16000, exTime 22000] :=
  ⟨(target_times_strictly_increase exEnv exState _ (by decide) (by decide)).1, by decide⟩

/-! ## The repeat branch -/

theorem tookRepeat_cycle (env : PollEnv) (st : LoopState) (w : Wake)
    (h : TookRepeat (cycle env st w)) :
    st.scanRepeated = false ∧ (cycle env st w).state.scanRepeated = true ∧
      (cycle env st w).panicked = false ∧ (cycle env st w).stdout = [] := by
  unfold TookRepeat at h
  match w with
  | Wake.sigdone => simp [cycle] at h
  | Wake.timer ts none err =>
      cases hm : st.scanMissed <;> simp [cycle, hm] at h
  | Wake.timer ts (some data) err =>
      cases hc : classify env.dInterval (Time.Add st.targetTime env.dInterval) ts
      · simp [cycle, hc, emitRecord_logs, logDeviceInfo] at h
      · cases hs : st.scan.isSome <;> cases hr : st.scanRepeated <;>
          simp [cycle, hc, hs, hr, logDeviceInfo] at h ⊢
      · simp [cycle, hc, emitRecord_logs, logDeviceInfo] at h

theorem cycle_clears_repeated (env : PollEnv) (st : LoopState) (w : Wake)
    (h1 : st.scanRepeated = true) (h2 : (cycle env st w).state.scanRepeated = false)
    (h3 : (cycle env st w).panicked = false) : (cycle env st w).stdout ≠ [] := by
  match w with
  | Wake.sigdone => simp [cycle, h1] at h2
  | Wake.timer ts none err => simp [cycle, h1] at h2
  | Wake.timer ts (some data) err =>
      cases hc : classify env.dInterval (Time.Add st.targetTime env.dInterval) ts
      · simp only [cycle, hc] at h3 ⊢
        unfold emitRecord at h3 ⊢
        split <;> simp_all
      · cases hs : st.scan.isSome <;> simp [cycle, hc, hs, h1] at h2
      · simp only [cycle, hc] at h3 ⊢
        unfold emitRecord at h3 ⊢
        split <;> simp_all

theorem run_cons_eq (env : PollEnv) (st : LoopState) (ws : List Wake) (o : CycleOut)
    (rest : List CycleOut) (h : run env st ws = o :: rest) :
    ∃ w ws1, ws = w :: ws1 ∧ o = cycle env st w ∧
      (rest = [] ∨ (o.panicked = false ∧ rest = run env o.state ws1)) := by
  match ws with
  | [] => simp [run] at h
  | w :: ws1 =>
      unfold run at h
      split_ifs at h with hex hp
      · simp only [List.cons.injEq] at h
        exact ⟨w, ws1, rfl, h.1.symm, Or.inl h.2.symm⟩
      · simp only [List.cons.injEq] at h
        refine ⟨w, ws1, rfl, h.1.symm, Or.inr ⟨?_, ?_⟩⟩
        · rw [← h.1]; simpa using hp
        · rw [← h.1]; exact h.2.symm

theorem no_repeat_while_repeated (env : PollEnv) :
    ∀ (mid : List CycleOut) (st : LoopState) (ws : List Wake) (oj : CycleOut)
      (post : List CycleOut),
      st.scanRepeated = true → run env st ws = mid ++ oj :: post → TookRepeat oj →
      ∃ ok ∈ mid, EmittedRecord ok := by
  intro mid
  induction mid with
  | nil =>
      intro st ws oj post hst hrun hrep
      obtain ⟨w, ws1, _, ho, _⟩ := run_cons_eq env st ws oj post hrun
      subst ho
      have := (tookRepeat_cycle env st w hrep).1
      rw [hst] at this
      cases this
  | cons m mid1 ih =>
      intro st ws oj post hst hrun hrep
      obtain ⟨w, ws1, _, hm, hrest⟩ := run_cons_eq env st ws m (mid1 ++ oj :: post) hrun
      rcases hrest with hnil | ⟨hp, hrest⟩
      · simp at hnil
      · subst hm
        cases hsr : (cycle env st w).state.scanRepeated
        · exact ⟨_, List.mem_cons_self _ _, hsr, hp, cycle_clears_repeated env st w hst hsr hp⟩
        · obtain ⟨ok, hok, hem⟩ := ih _ ws1 oj post hsr hrest.symm hrep
          exact ⟨ok, List.mem_cons_of_mem _ hok, hem⟩

theorem run_suffix (env : PollEnv) :
    ∀ (pre : List CycleOut) (st : LoopState) (ws : List Wake) (o : CycleOut)
      (rest : List CycleOut),
      run env st ws = pre ++ o :: rest →
      ∃ st0 ws0, run env st0 ws0 = o :: rest := by
  intro pre
  induction pre with
  | nil => intro st ws o rest h; exact ⟨st, ws, h⟩
  | cons p pre1 ih =>
      intro st ws o rest h
      obtain ⟨w, ws1, _, _, hrest⟩ := run_cons_eq env st ws p (pre1 ++ o :: rest) h
      rcases hrest with hnil | ⟨_, hrest⟩
      · simp at hnil
      · exact ih _ _ o rest hrest.symm

/-- C18. In every run of the loop, for every sequence of wake-ups: between two iterations
that take the repeat branch there is an iteration that reaches line 237, clears
`scanRepeated` and writes a record; in particular the repeat branch is never taken in two
consecutive iterations. An iteration that takes it finds `scanRepeated` clear and sets
it. -/
theorem repeat_only_once_in_a_row (env : PollEnv) (st : LoopState) (ws : List Wake) :
    (∀ (pre mid post : List CycleOut) (oi oj : CycleOut),
      run env st ws = pre ++ oi :: (mid ++ oj :: post) → TookRepeat oi → TookRepeat oj →
      ∃ ok ∈ mid, EmittedRecord ok) ∧
    (∀ (pre post : List CycleOut) (oi oj : CycleOut),
      run env st ws = pre ++ oi :: oj :: post → ¬ (TookRepeat oi ∧ TookRepeat oj)) ∧
    (∀ (st0 : LoopState) (w : Wake), TookRepeat (cycle env st0 w) →
      st0.scanRepeated = false ∧ (cycle env st0 w).state.scanRepeated = true ∧
        (cycle env st0 w).stdout = []) := by
  have main : ∀ (pre mid post : List CycleOut) (oi oj : CycleOut),
      run env st ws = pre ++ oi :: (mid ++ oj :: post) → TookRepeat oi → TookRepeat oj →
      ∃ ok ∈ mid, EmittedRecord ok := by
    intro pre mid post oi oj hrun hi hj
    obtain ⟨st0, ws0, h0⟩ := run_suffix env pre st ws oi (mid ++ oj :: post) hrun
    obtain ⟨w, ws1, _, ho, hrest⟩ := run_cons_eq env st0 ws0 oi (mid ++ oj :: post) h0
    rcases hrest with hnil | ⟨_, hrest⟩
    · simp at hnil
    · subst ho
      exact no_repeat_while_repeated env mid _ ws1 oj post (tookRepeat_cycle env st0 w hi).2.1
        hrest.symm hj
  refine ⟨main, ?_, ?_⟩
  · intro pre post oi oj hrun hboth
    obtain ⟨ok, hok, _⟩ := main pre [] post oi oj (by simpa using hrun) hboth.1 hboth.2
    cases hok
  · intro st0 w h
    have := tookRepeat_cycle env st0 w h
    exact ⟨this.1, this.2.1, this.2.2.2⟩

/-- Witness of `repeat_only_once_in_a_row`: on `exRepeatWakes` the second and the fourth
iteration take the repeat branch, and the third one, between them, writes a record. -/
theorem repeat_only_once_in_a_row_witness :
    (TookRepeat exOut1 ∧ TookRepeat exOut3) ∧ ∃ ok ∈ [exOut2], EmittedRecord ok :=
  ⟨by decide,
    (repeat_only_once_in_a_row exEnv exState exRepeatWakes).1 [exOut0] [exOut2] [] exOut1 exOut3
      (by decide) (by decide) (by decide)⟩

/-! ## The sampler -/

theorem Poll_start_error (rt : GoRuntime) (c : cmdService) (g : ModelVars) (v : OidVars)
    (s : PollScript) (arg0 : String) (dInterval : Int) (plogs : List LogCall) (v1 : OidVars)
    (ie : Option String) (err : String)
    (hargs : c.args.head? = some arg0)
    (hparse : pollArgsParse rt c.args = some (dInterval, none, plogs))
    (hconn : s.connectErr = none)
    (hinit : initOids c (pollVars c g s) v = some (v1, ie))
    (hstart : s.startErr = some err) :
    (Poll rt c g v s).result = PollResult.returned (some err) ∧
    (Poll rt c g v s).cycles = [] ∧ (Poll rt c g v s).stdout = [] ∧
    (Poll rt c g v s).calls =
      pollCallsBefore c g s dInterval v1 ++ [PollCall.cancel, PollCall.wgWait, PollCall.close] := by
  simp only [pollVars] at hinit
  simp [Poll, hargs, hparse, hconn, hinit, hstart, pollCallsBefore]

theorem Poll_started (rt : GoRuntime) (c : cmdService) (g : ModelVars) (v : OidVars)
    (s : PollScript) (arg0 : String) (dInterval : Int) (plogs : List LogCall) (v1 : OidVars)
    (ie : Option String)
    (hargs : c.args.head? = some arg0)
    (hparse : pollArgsParse rt c.args = some (dInterval, none, plogs))
    (hconn : s.connectErr = none)
    (hinit : initOids c (pollVars c g s) v = some (v1, ie))
    (hstart : s.startErr = none) :
    (Poll rt c g v s).result = (pollLoop (pollEnv rt c g s dInterval v1) s.now s.wakes).result ∧
    (Poll rt c g v s).cycles = (pollLoop (pollEnv rt c g s dInterval v1) s.now s.wakes).cycles ∧
    (Poll rt c g v s).stdout = (pollLoop (pollEnv rt c g s dInterval v1) s.now s.wakes).stdout ∧
    (Poll rt c g v s).calls =
      pollCallsBefore c g s dInterval v1 ++
        (pollLoop (pollEnv rt c g s dInterval v1) s.now s.wakes).calls := by
  simp only [pollVars] at hinit
  simp [Poll, hargs, hparse, hconn, hinit, hstart, pollCallsBefore, pollEnv, pollVars]

/-- C14. For every state of the service with `ready = false`, `PollStart` returns an error
and does not start the sampler goroutine; and when `PollStart` returns an error, `Poll`
(having parsed its interval and connected) returns that same error after `cancel()`,
`wg.Wait()` and the deferred `Close()`, without running an iteration of the loop, calling
`GetScan` or writing anything. With `ready = true` `PollStart` returns no error and starts
the goroutine. -/
theorem sampler_start_failure_is_fatal (rt : GoRuntime) (c : cmdService) (g : ModelVars)
    (v : OidVars) (s : PollScript) (tsdev : snmpService) (arg0 : String) (dInterval : Int)
    (plogs : List LogCall) (v1 : OidVars) (ie : Option String)
    (hready : tsdev.ready = false)
    (hargs : c.args.head? = some arg0)
    (hparse : pollArgsParse rt c.args = some (dInterval, none, plogs))
    (hconn : s.connectErr = none)
    (hinit : initOids c (pollVars c g s) v = some (v1, ie))
    (hstart : s.startErr = (tsdev.PollStart dInterval).2.1) :
    (tsdev.PollStart dInterval).2.1 =
      some ("TSEMC1Device is not connected to host: " ++ tsdev.host) ∧
    (tsdev.PollStart dInterval).2.2 = false ∧
    (Poll rt c g v s).result = PollResult.returned (tsdev.PollStart dInterval).2.1 ∧
    (Poll rt c g v s).cycles = [] ∧
    (Poll rt c g v s).stdout = [] ∧
    PollCall.getScan ∉ (Poll rt c g v s).calls ∧
    (Poll rt c g v s).calls =
      pollCallsBefore c g s dInterval v1 ++ [PollCall.cancel, PollCall.wgWait, PollCall.close] ∧
    (∀ up : snmpService, up.ready = true →
      (up.PollStart dInterval).2.1 = none ∧ (up.PollStart dInterval).2.2 = true) := by
  have hps : (tsdev.PollStart dInterval).2.1 =
      some ("TSEMC1Device is not connected to host: " ++ tsdev.host) := by
    simp [snmpService.PollStart, hready]
  have hgo : (tsdev.PollStart dInterval).2.2 = false := by
    simp [snmpService.PollStart, hready]
  rw [hps] at hstart
  obtain ⟨r1, r2, r3, r4⟩ := Poll_start_error rt c g v s arg0 dInterval plogs v1 ie _
    hargs hparse hconn hinit hstart
  refine ⟨hps, hgo, by rw [r1, hps], r2, r3, ?_, r4, ?_⟩
  · rw [r4]
    simp only [pollCallsBefore, queryForModel]
    split <;> [skip; split <;> [skip; split]] <;> simp
  · intro up hup
    simp [snmpService.PollStart, hup]

/-- Witness of `sampler_start_failure_is_fatal`: the command `tsm 10.0.0.1 poll 2` with a
service that is not connected. -/
theorem sampler_start_failure_is_fatal_witness :
    (Poll refRuntime exCmd ModelVars.zero OidVars.zero
        { exScript with startErr := (exServiceDown.PollStart (2 * Second)).2.1 }).result =
      PollResult.returned (exServiceDown.PollStart (2 * Second)).2.1 ∧
    (Poll refRuntime exCmd ModelVars.zero OidVars.zero
        { exScript with startErr := (exServiceDown.PollStart (2 * Second)).2.1 }).result =
      PollResult.returned (some "TSEMC1Device is not connected to host: 10.0.0.1") ∧
    (Poll refRuntime exCmd ModelVars.zero OidVars.zero
        { exScript with startErr := (exServiceDown.PollStart (2 * Second)).2.1 }).calls =
      [PollCall.initAndConnect "10.0.0.1" "161" "public",
       PollCall.queryOids ["1.3.6.1.4.1.0", "1.3.6.1.4.1.5"], PollCall.close,
       PollCall.initAndConnect "10.0.0.1" "161" "public",
       PollCall.pollStart ["1.3.6.1.4.1.9", "1.3.6.1.4.1.1", "1.3.6.1.4.1.3"] (2 * Second),
       PollCall.cancel, PollCall.wgWait, PollCall.close] :=
  ⟨(sampler_start_failure_is_fatal refRuntime exCmd ModelVars.zero OidVars.zero
      { exScript with startErr := (exServiceDown.PollStart (2 * Second)).2.1 } exServiceDown
      "10.0.0.1" (2 * Second) []
      { staticOids := ["1.3.6.1.4.1.9"], staticOidInfo := [exStaticOid],
        dataOids := ["1.3.6.1.4.1.1", "1.3.6.1.4.1.3"], dataOidInfo := [exOid, exOidB],
        allOids := ["1.3.6.1.4.1.9", "1.3.6.1.4.1.1", "1.3.6.1.4.1.3"] } none
      (by decide) (by decide) (by decide) (by decide) (by decide) (by decide)).2.2.1,
    by decide, by decide⟩

/-! ## Shutdown -/

theorem cycle_timer_exiting (env : PollEnv) (st : LoopState) (ts : Int)
    (scan : Option StringMap) (err : Option String) :
    (cycle env st (Wake.timer ts scan err)).state.exiting = st.exiting := by
  match scan with
  | none => simp [cycle]
  | some data =>
      cases hc : classify env.dInterval (Time.Add st.targetTime env.dInterval) ts
      · simp [cycle, hc, emitRecord_state]
      · simp only [cycle, hc]
        split <;> simp
      · simp [cycle, hc, emitRecord_state]

theorem run_sigdone (env : PollEnv) (st : LoopState) (rest : List Wake)
    (h : st.exiting = false) :
    run env st (Wake.sigdone :: rest) = [cycle env st Wake.sigdone] := by
  have hx : (cycle env st Wake.sigdone).state.exiting = true := by simp [cycle]
  have hp : (cycle env st Wake.sigdone).panicked = false := by simp [cycle]
  unfold run
  simp only [h, hp, Bool.false_eq_true, if_false]
  cases rest with
  | nil => simp [run]
  | cons w ws => simp [run, hx]

theorem run_until_sigdone (env : PollEnv) (rest : List Wake) :
    ∀ (ws : List Wake) (st : LoopState), st.exiting = false → Wake.sigdone ∉ ws →
      (∀ o ∈ run env st ws, o.panicked = false) →
      run env st (ws ++ Wake.sigdone :: rest) =
        run env st ws ++ [cycle env (runFinal env st ws) Wake.sigdone] ∧
      (run env st ws).length = ws.length ∧ (runFinal env st ws).exiting = false := by
  intro ws
  induction ws with
  | nil =>
      intro st h _ _
      refine ⟨?_, by simp [run], by simpa [runFinal] using h⟩
      simpa [run, runFinal] using run_sigdone env st rest h
  | cons w ws ih =>
      intro st h hno hok
      have hw : w ≠ Wake.sigdone := fun e => hno (by simp [e])
      have hws : Wake.sigdone ∉ ws := fun e => hno (by simp [e])
      have hrun : run env st (w :: ws) =
          cycle env st w :: (if (cycle env st w).panicked then [] else
            run env (cycle env st w).state ws) := by
        simp [run, h]
      have hp : (cycle env st w).panicked = false := hok _ (by rw [hrun]; simp)
      have hx : (cycle env st w).state.exiting = false := by
        match w, hw with
        | Wake.timer ts scan err, _ => rw [cycle_timer_exiting]; exact h
        | Wake.sigdone, hw => exact absurd rfl hw
      have hok1 : ∀ o ∈ run env (cycle env st w).state ws, o.panicked = false := by
        intro o ho
        apply hok
        rw [hrun]
        simp [hp, ho]
      obtain ⟨i1, i2, i3⟩ := ih (cycle env st w).state hx hws hok1
      refine ⟨?_, ?_, ?_⟩
      · simp only [List.cons_append, run, runFinal, h, hp, Bool.false_eq_true, if_false]
        exact congrArg (List.cons (cycle env st w)) i1
      · simp only [run, h, hp, Bool.false_eq_true, if_false, List.length_cons, i2]
      · simp only [runFinal, h, hp, Bool.false_eq_true, if_false]
        exact i3

theorem loopResult_exit (outs : List CycleOut) (o : CycleOut) (hp : o.panicked = false)
    (hx : o.state.exiting = true) : loopResult (outs ++ [o]) = PollResult.returned none := by
  simp [loopResult, hp, hx]

theorem wakeCalls_timers (ws : List Wake) (h : Wake.sigdone ∉ ws) :
    (ws.map wakeCalls).flatten = List.replicate ws.length PollCall.getScan := by
  induction ws with
  | nil => rfl
  | cons w ws ih =>
      have hws : Wake.sigdone ∉ ws := fun e => h (by simp [e])
      match w, h with
      | Wake.timer ts scan err, _ =>
          simp [wakeCalls, ih hws, List.replicate_succ]
      | Wake.sigdone, h => exact absurd (by simp) h

theorem pollLoop_until_sigdone (env : PollEnv) (now : Int) (ws rest : List Wake)
    (hws : Wake.sigdone ∉ ws)
    (hok : ∀ o ∈ run env (LoopState.init env.dInterval now) ws, o.panicked = false) :
    (pollLoop env now (ws ++ Wake.sigdone :: rest)).result = PollResult.returned none ∧
    (pollLoop env now (ws ++ Wake.sigdone :: rest)).cycles =
      run env (LoopState.init env.dInterval now) ws ++
        [cycle env (runFinal env (LoopState.init env.dInterval now) ws) Wake.sigdone] ∧
    (pollLoop env now (ws ++ Wake.sigdone :: rest)).stdout =
      runStdout (run env (LoopState.init env.dInterval now) ws) ∧
    (pollLoop env now (ws ++ Wake.sigdone :: rest)).calls =
      List.replicate ws.length PollCall.getScan ++
        [PollCall.cancel, PollCall.wgWait, PollCall.close] := by
  obtain ⟨r1, r2, _⟩ := run_until_sigdone env rest ws (LoopState.init env.dInterval now)
    rfl hws hok
  have hres := loopResult_exit (run env (LoopState.init env.dInterval now) ws)
    (cycle env (runFinal env (LoopState.init env.dInterval now) ws) Wake.sigdone)
    (by simp [cycle]) (by simp [cycle])
  have htake : List.take (ws.length + 1) (ws ++ Wake.sigdone :: rest) = ws ++ [Wake.sigdone] := by
    rw [List.take_append_eq_append_take]
    simp
  have hcalls : (List.map wakeCalls (ws ++ [Wake.sigdone])).flatten =
      List.replicate ws.length PollCall.getScan := by
    rw [List.map_append, List.flatten_append, wakeCalls_timers ws hws]
    simp [wakeCalls]
  have hout : runStdout (run env (LoopState.init env.dInterval now) ws ++
      [cycle env (runFinal env (LoopState.init env.dInterval now) ws) Wake.sigdone]) =
      runStdout (run env (LoopState.init env.dInterval now) ws) := by
    simp [runStdout, cycle]
  unfold pollLoop
  simp only [r1, hres, List.length_append, List.length_singleton, r2, htake, hcalls, hout,
    and_self]

/-- The calls of `Poll` on a stop signal, `Poll` taken alone. For every loop state, the
iteration in which `sigdone` fires writes nothing, does not panic, sets `exiting` and leaves
the service (and its scan cache) untouched, and while the loop is running no further
iteration follows it. When `PollStart` has returned no error and the stop signal follows
wake-ups of the timer none of which panicked, `Poll` returns nil; its iterations are those of
the timer wake-ups and the one of the signal; it has written what the timer iterations
wrote; and after one `GetScan` per timer wake-up its calls end with `cancel()`, `wg.Wait()`
and then the deferred `Close()`. What `wg.Wait()` waits for is the matter of
`registered_sampler_is_awaited` and `stop_signal_before_registration`. -/
theorem stop_signal_shuts_down (rt : GoRuntime) (c : cmdService) (g : ModelVars)
    (v : OidVars) (s : PollScript) (env : PollEnv) (st : LoopState) (tsdev : snmpService)
    (arg0 : String) (dInterval : Int) (plogs : List LogCall) (v1 : OidVars)
    (ie : Option String) (ws rest : List Wake)
    (hargs : c.args.head? = some arg0)
    (hparse : pollArgsParse rt c.args = some (dInterval, none, plogs))
    (hconn : s.connectErr = none)
    (hinit : initOids c (pollVars c g s) v = some (v1, ie))
    (hstart : s.startErr = none)
    (hwakes : s.wakes = ws ++ Wake.sigdone :: rest)
    (hws : Wake.sigdone ∉ ws)
    (hok : ∀ o ∈ run (pollEnv rt c g s dInterval v1) (LoopState.init dInterval s.now) ws,
      o.panicked = false) :
    (cycle env st Wake.sigdone).stdout = [] ∧
    (cycle env st Wake.sigdone).panicked = false ∧
    (cycle env st Wake.sigdone).state.exiting = true ∧
    cycleOn env st tsdev none = (cycle env st Wake.sigdone, tsdev) ∧
    (st.exiting = false → run env st (Wake.sigdone :: rest) = [cycle env st Wake.sigdone]) ∧
    (Poll rt c g v s).result = PollResult.returned none ∧
    (Poll rt c g v s).cycles =
      run (pollEnv rt c g s dInterval v1) (LoopState.init dInterval s.now) ws ++
        [cycle (pollEnv rt c g s dInterval v1)
          (runFinal (pollEnv rt c g s dInterval v1) (LoopState.init dInterval s.now) ws)
          Wake.sigdone] ∧
    (Poll rt c g v s).stdout =
      runStdout (run (pollEnv rt c g s dInterval v1) (LoopState.init dInterval s.now) ws) ∧
    (Poll rt c g v s).calls =
      pollCallsBefore c g s dInterval v1 ++ List.replicate ws.length PollCall.getScan ++
        [PollCall.cancel, PollCall.wgWait, PollCall.close] := by
  obtain ⟨p1, p2, p3, p4⟩ := Poll_started rt c g v s arg0 dInterval plogs v1 ie
    hargs hparse hconn hinit hstart
  obtain ⟨l1, l2, l3, l4⟩ := pollLoop_until_sigdone (pollEnv rt c g s dInterval v1) s.now ws rest
    hws hok
  rw [hwakes] at p1 p2 p3 p4
  refine ⟨by simp [cycle], by simp [cycle], by simp [cycle], rfl, run_sigdone env st rest,
    ?_, ?_, ?_, ?_⟩
  · rw [p1, l1]
  · rw [p2, l2]; rfl
  · rw [p3, l3]; rfl
  · rw [p4, l4, List.append_assoc]

/-- Witness of `stop_signal_shuts_down`: the command `tsm 10.0.0.1 poll 2`, with an on-time
scan, a missing scan and then the stop signal. -/
theorem stop_signal_shuts_down_witness :
    (Poll refRuntime exCmd ModelVars.zero OidVars.zero exScript).result =
      PollResult.returned none ∧
    (Poll refRuntime exCmd ModelVars.zero OidVars.zero exScript).stdout =
      ["2025 01 01 00 00 10 NET STA 00 2 A:10 B:20\n"] ∧
    (Poll refRuntime exCmd ModelVars.zero OidVars.zero exScript).calls =
      [PollCall.initAndConnect "10.0.0.1" "161" "public",
       PollCall.queryOids ["1.3.6.1.4.1.0", "1.3.6.1.4.1.5"], PollCall.close,
       PollCall.initAndConnect "10.0.0.1" "161" "public",
       PollCall.pollStart ["1.3.6.1.4.1.9", "1.3.6.1.4.1.1", "1.3.6.1.4.1.3"] (2 * Second),
       PollCall.getScan, PollCall.getScan,
       PollCall.cancel, PollCall.wgWait, PollCall.close] :=
  ⟨(stop_signal_shuts_down refRuntime exCmd ModelVars.zero OidVars.zero exScript exEnv exState
      exService "10.0.0.1" (2 * Second) []
      { staticOids := ["1.3.6.1.4.1.9"], staticOidInfo := [exStaticOid],
        dataOids := ["1.3.6.1.4.1.1", "1.3.6.1.4.1.3"], dataOidInfo := [exOid, exOidB],
        allOids := ["1.3.6.1.4.1.9", "1.3.6.1.4.1.1", "1.3.6.1.4.1.3"] } none
      [Wake.timer (exTime 10000) (some exScanAB) none,
       Wake.timer (exTime 12000) none (some "scan unavailable")] []
      (by decide) (by decide) (by decide) (by decide) (by decide) (by decide) (by decide)
      (by decide)).2.2.2.2.2.1,
    by decide, by decide⟩

/-! ## Bit reversal -/

theorem reverseBitsLoop_zero (fuel ret power : Nat) : reverseBitsLoop fuel ret 0 power = ret := by
  cases fuel <;> simp [reverseBitsLoop]

theorem reverseBitsLoop_spec : ∀ (fuel ret num p : Nat), num ≤ fuel → p < 64 →
    num < 2 ^ (p + 1) → ret + 2 ^ (p + 1) ≤ 18446744073709551616 →
    ∃ v, reverseBitsLoop fuel ret num p = ret + v ∧ v < 2 ^ (p + 1) ∧
      ∀ i, i ≤ p → v.testBit i = num.testBit (p - i) := by
  intro fuel
  induction fuel with
  | zero =>
      intro ret num p hf _ _ _
      have h0 : num = 0 := by omega
      subst h0
      exact ⟨0, by simp [reverseBitsLoop], Nat.pos_pow_of_pos _ (by decide), by simp⟩
  | succ fuel ih =>
      intro ret num p hf hp hn hr
      by_cases h0 : num = 0
      · subst h0
        exact ⟨0, by simp [reverseBitsLoop], Nat.pos_pow_of_pos _ (by decide), by simp⟩
      · have hb : num % 2 < 2 := Nat.mod_lt _ (by decide)
        have hpow : 2 ^ (p + 1) = 2 * 2 ^ p := by rw [Nat.pow_succ, Nat.mul_comm]
        have hpos : 0 < 2 ^ p := Nat.pos_pow_of_pos _ (by decide)
        have hbp : num % 2 * 2 ^ p ≤ 2 ^ p := by
          calc num % 2 * 2 ^ p ≤ 1 * 2 ^ p := Nat.mul_le_mul_right _ (by omega)
            _ = 2 ^ p := Nat.one_mul _
        have hshl : shl64 (num % 2) p = num % 2 * 2 ^ p := by
          unfold shl64
          rw [if_pos hp]
          exact Nat.mod_eq_of_lt (by omega)
        have hret : (ret + shl64 (num % 2) p) % 18446744073709551616 = ret + num % 2 * 2 ^ p := by
          rw [hshl]
          exact Nat.mod_eq_of_lt (by omega)
        have hstep : reverseBitsLoop (fuel + 1) ret num p =
            reverseBitsLoop fuel (ret + num % 2 * 2 ^ p) (num / 2)
              ((p + 18446744073709551615) % 18446744073709551616) := by
          simp only [reverseBitsLoop, h0, if_false, hret]
        cases p with
        | zero =>
            have h1 : num = 1 := by
              simp only [Nat.zero_add, Nat.pow_one] at hn
              omega
            subst h1
            refine ⟨1, ?_, by decide, ?_⟩
            · rw [hstep]
              simp [reverseBitsLoop_zero]
            · intro i hi
              have : i = 0 := by omega
              subst this
              rfl
        | succ q =>
            have hq : (q + 1 + 18446744073709551615) % 18446744073709551616 = q := by omega
            have hpowq : 2 ^ (q + 1 + 1) = 2 * 2 ^ (q + 1) := by rw [Nat.pow_succ, Nat.mul_comm]
            have hn2 : num / 2 < 2 ^ (q + 1) := by
              rw [hpowq] at hn
              omega
            obtain ⟨v, hv, hvlt, hvb⟩ := ih (ret + num % 2 * 2 ^ (q + 1)) (num / 2) q
              (by omega) (by omega) hn2 (by omega)
            refine ⟨2 ^ (q + 1) * (num % 2) + v, ?_, ?_, ?_⟩
            · rw [hstep, hq, hv, Nat.mul_comm (2 ^ (q + 1)) (num % 2), Nat.add_assoc]
            · rw [hpowq]
              have : 2 ^ (q + 1) * (num % 2) ≤ 2 ^ (q + 1) := by
                rw [Nat.mul_comm]
                exact hbp
              omega
            · intro i hi
              rw [Nat.testBit_mul_pow_two_add _ hvlt]
              by_cases hlt : i < q + 1
              · have e : q + 1 - i = q - i + 1 := by omega
                rw [if_pos hlt, hvb i (by omega), Nat.testBit_div_two, e]
              · have hi2 : i = q + 1 := by omega
                subst hi2
                rw [if_neg hlt]
                simp [Nat.testBit_zero]

/-- C21. For every width `len` with `1 <= len <= 64` and every `num < 2^len`,
`reverseBits(num, len)` is the `len`-bit reversal of `num`: the result is below `2^len` and,
for every `i < len`, bit `i` of the result is bit `len-1-i` of `num`. -/
theorem reverseBits_reverses (num len : Nat) (h1 : 1 ≤ len) (h64 : len ≤ 64)
    (hn : num < 2 ^ len) :
    reverseBits num len < 2 ^ len ∧
    ∀ i, i < len → (reverseBits num len).testBit i = num.testBit (len - 1 - i) := by
  obtain ⟨p, rfl⟩ : ∃ p, len = p + 1 := ⟨len - 1, by omega⟩
  have hp : (p + 1 + 18446744073709551615) % 18446744073709551616 = p := by omega
  have hle : 2 ^ (p + 1) ≤ 2 ^ 64 := Nat.pow_le_pow_right (by decide) h64
  have h2 : (2 : Nat) ^ 64 = 18446744073709551616 := by norm_num
  obtain ⟨v, hv, hvlt, hvb⟩ := reverseBitsLoop_spec num 0 num p (Nat.le_refl _) (by omega) hn
    (by omega)
  unfold reverseBits
  rw [hp, hv, Nat.zero_add]
  refine ⟨hvlt, ?_⟩
  intro i hi
  rw [hvb i (by omega), Nat.add_sub_cancel]

/-- Witness of `reverseBits_reverses`: over 3 bits, `6 = 110` is reversed to `3 = 011`, and
an identifier of type `bitreverse` with scaling 3 prints the raw value `"6"` as `011`. -/
theorem reverseBits_reverses_witness :
    (reverseBits 6 3 < 2 ^ 3 ∧
      ∀ i, i < 3 → (reverseBits 6 3).testBit i = Nat.testBit 6 (3 - 1 - i)) ∧
    reverseBits 6 3 = 3 ∧
    OidInfo.ValueString refRuntime exBitOid "6" = some ("011", []) :=
  ⟨reverseBits_reverses 6 3 (by decide) (by decide) (by decide), by decide, by decide⟩

/-! ## Shutdown with the sampler running beside `Poll` -/

theorem PollSystem.exec_induct (env : PollEnv) (oids : List String) (P : PollSystem → Prop)
    (hstep : ∀ s x s1, P s → PollSystem.step env oids s x = some s1 → P s1) :
    ∀ (sch : List Sched) (s s1 : PollSystem), P s → PollSystem.exec env oids s sch = some s1 →
      P s1 := by
  intro sch
  induction sch with
  | nil =>
      intro s s1 hP h
      simp only [PollSystem.exec, Option.some.injEq] at h
      exact h ▸ hP
  | cons x xs ih =>
      intro s s1 hP h
      simp only [PollSystem.exec] at h
      cases hx : PollSystem.step env oids s x with
      | none => rw [hx] at h; cases h
      | some s2 =>
          rw [hx] at h
          exact ih s2 s1 (hstep s x s2 hP hx) h

theorem PollSystem.start_sound (dInterval : Int) (tsdev : snmpService) (now : Int) :
    (PollSystem.start dInterval tsdev now).Sound := by
  unfold PollSystem.Sound PollSystem.WgCounts PollSystem.start
  refine ⟨?_, ?_, ?_⟩
  · simp only
    split_ifs <;> simp_all
  · simp only
    split_ifs <;> simp
  · simp only
    split_ifs <;> simp

theorem PollSystem.step_sound (env : PollEnv) (oids : List String) (s : PollSystem) (x : Sched)
    (s1 : PollSystem) (h : s.Sound) (hs : PollSystem.step env oids s x = some s1) :
    s1.Sound := by
  unfold PollSystem.Sound PollSystem.WgCounts at h ⊢
  obtain ⟨hw, hc, hk⟩ := h
  cases x with
  | pollTimer now =>
      simp only [PollSystem.step] at hs
      split_ifs at hs with hcond
      cases hs
      have hcl : s.closed = false := by
        cases hcv : s.closed
        · rfl
        · have := hc.mp hcv
          rw [hcond.2] at this
          simp at this
      simp only [PollSystem.afterCycle, hcl, Bool.false_or]
      refine ⟨hw, ?_, ?_⟩
      · cases (cycleOn env s.loop s.tsdev (some now)).1.panicked <;>
          cases (cycleOn env s.loop s.tsdev (some now)).1.state.exiting <;> simp
      · cases (cycleOn env s.loop s.tsdev (some now)).1.panicked <;>
          cases (cycleOn env s.loop s.tsdev (some now)).1.state.exiting <;> simp
  | pollSignal =>
      simp only [PollSystem.step] at hs
      split_ifs at hs with hcond
      cases hs
      have hcl : s.closed = false := by
        cases hcv : s.closed
        · rfl
        · have := hc.mp hcv
          rw [hcond.2] at this
          simp at this
      simp only [PollSystem.afterCycle, hcl, Bool.false_or]
      refine ⟨hw, ?_, ?_⟩
      · cases (cycleOn env s.loop s.tsdev none).1.panicked <;>
          cases (cycleOn env s.loop s.tsdev none).1.state.exiting <;> simp
      · cases (cycleOn env s.loop s.tsdev none).1.panicked <;>
          cases (cycleOn env s.loop s.tsdev none).1.state.exiting <;> simp
  | pollNext =>
      simp only [PollSystem.step] at hs
      by_cases hal : s.alive = true
      · rw [if_pos hal] at hs
        cases hpc : s.pc with
        | inLoop => rw [hpc] at hs; cases hs
        | atCancel =>
            rw [hpc] at hs hc
            cases hs
            refine ⟨hw, ?_, fun _ => rfl⟩
            show s.closed = true ↔
              PollPc.atWait = PollPc.returned ∨ PollPc.atWait = PollPc.panicked
            simpa using hc
        | atWait =>
            rw [hpc] at hs hc hk
            by_cases hz : s.wg = 0
            · rw [if_pos hz] at hs
              cases hs
              refine ⟨hw, ?_, fun _ => hk (Or.inl rfl)⟩
              show s.closed = true ↔
                PollPc.atReturn = PollPc.returned ∨ PollPc.atReturn = PollPc.panicked
              simpa using hc
            · rw [if_neg hz] at hs
              cases hs
        | atReturn =>
            rw [hpc] at hs hk
            cases hs
            refine ⟨hw, ?_, fun _ => hk (Or.inr (Or.inl rfl))⟩
            show true = true ↔
              PollPc.returned = PollPc.returned ∨ PollPc.returned = PollPc.panicked
            simp
        | returned => rw [hpc] at hs; cases hs
        | panicked => rw [hpc] at hs; cases hs
      · rw [if_neg hal] at hs
        cases hs
  | taskStart now =>
      simp only [PollSystem.step] at hs
      split_ifs at hs with hcond
      cases hs
      refine ⟨?_, hc, hk⟩
      simp only [hcond.2] at hw
      simp only [if_true]
      simp at hw
      omega
  | taskTick get now =>
      simp only [PollSystem.step] at hs
      split_ifs at hs with hcond
      simp only [hcond.2, if_true] at hw
      split at hs
      · cases hs
        refine ⟨?_, hc, hk⟩
        simp only [reduceCtorEq, if_false]
        omega
      · cases hs
        refine ⟨?_, hc, hk⟩
        simp only [hcond.2, if_true]
        exact hw
  | taskDone =>
      simp only [PollSystem.step] at hs
      split_ifs at hs with hcond
      simp only [hcond.2.1, if_true] at hw
      split at hs
      · cases hs
        refine ⟨?_, hc, hk⟩
        simp only [reduceCtorEq, if_false]
        omega
      · cases hs
        refine ⟨?_, hc, hk⟩
        simp only [reduceCtorEq, if_false]
        omega

theorem PollSystem.step_awaits (env : PollEnv) (oids : List String) (s : PollSystem) (x : Sched)
    (s1 : PollSystem) (h : s.Sound ∧ s.Awaits)
    (hs : PollSystem.step env oids s x = some s1) : s1.Sound ∧ s1.Awaits := by
  refine ⟨PollSystem.step_sound env oids s x s1 h.1 hs, ?_⟩
  obtain ⟨⟨hw, _, _⟩, hr, hp⟩ := h
  unfold PollSystem.WgCounts at hw
  unfold PollSystem.Awaits
  cases x with
  | pollTimer now =>
      simp only [PollSystem.step] at hs
      split_ifs at hs with hcond
      cases hs
      simp only [PollSystem.afterCycle]
      refine ⟨hr, ?_⟩
      cases (cycleOn env s.loop s.tsdev (some now)).1.panicked <;>
        cases (cycleOn env s.loop s.tsdev (some now)).1.state.exiting <;> simp
  | pollSignal =>
      simp only [PollSystem.step] at hs
      split_ifs at hs with hcond
      cases hs
      simp only [PollSystem.afterCycle]
      refine ⟨hr, ?_⟩
      cases (cycleOn env s.loop s.tsdev none).1.panicked <;>
        cases (cycleOn env s.loop s.tsdev none).1.state.exiting <;> simp
  | pollNext =>
      simp only [PollSystem.step] at hs
      by_cases hal : s.alive = true
      · rw [if_pos hal] at hs
        cases hpc : s.pc with
        | inLoop => rw [hpc] at hs; cases hs
        | atCancel =>
            rw [hpc] at hs
            cases hs
            refine ⟨hr, fun h => ?_⟩
            rcases h with h | h <;> cases h
        | atWait =>
            rw [hpc] at hs
            by_cases hz : s.wg = 0
            · rw [if_pos hz] at hs
              cases hs
              refine ⟨hr, fun _ => ?_⟩
              simp only [PollSystem.alive, Bool.and_eq_true, decide_eq_true_eq] at hal
              rcases hr with hr | hr | hr
              · rw [hr, hz] at hw
                simp at hw
              · exact hr
              · exact absurd hr hal.2
            · rw [if_neg hz] at hs
              cases hs
        | atReturn =>
            rw [hpc] at hs
            cases hs
            exact ⟨hr, fun _ => hp (Or.inl hpc)⟩
        | returned => rw [hpc] at hs; cases hs
        | panicked => rw [hpc] at hs; cases hs
      · rw [if_neg hal] at hs
        cases hs
  | taskStart now =>
      simp only [PollSystem.step] at hs
      split_ifs at hs with hcond
      rcases hr with hr | hr | hr <;> rw [hr] at hcond <;> simp at hcond
  | taskTick get now =>
      simp only [PollSystem.step] at hs
      split_ifs at hs with hcond
      have hnp : ¬ (s.pc = PollPc.atReturn ∨ s.pc = PollPc.returned) := by
        intro hpc
        have := hp hpc
        rw [hcond.2] at this
        cases this
      split at hs
      · cases hs
        exact ⟨Or.inr (Or.inr rfl), fun hpc => absurd hpc hnp⟩
      · cases hs
        exact ⟨hr, fun hpc => absurd hpc hnp⟩
  | taskDone =>
      simp only [PollSystem.step] at hs
      split_ifs at hs with hcond
      have hnp : ¬ (s.pc = PollPc.atReturn ∨ s.pc = PollPc.returned) := by
        intro hpc
        have := hp hpc
        rw [hcond.2.1] at this
        cases this
      split at hs
      · cases hs
        exact ⟨Or.inr (Or.inr rfl), fun hpc => absurd hpc hnp⟩
      · cases hs
        exact ⟨Or.inr (Or.inl rfl), fun _ => rfl⟩

/-- Every state `Poll` and the sampler reach from the return of `PollStart` is sound: the
wait group counts the goroutine in its loop, and the session is closed only when `Poll` has
returned, which it does after `cancel()`, or has panicked. -/
theorem PollSystem.reachable_sound (env : PollEnv) (oids : List String) (dInterval : Int)
    (tsdev : snmpService) (now : Int) (sch : List Sched) (s : PollSystem)
    (h : PollSystem.exec env oids (PollSystem.start dInterval tsdev now) sch = some s) :
    s.Sound :=
  PollSystem.exec_induct env oids PollSystem.Sound (PollSystem.step_sound env oids) sch _ s
    (PollSystem.start_sound dInterval tsdev now) h

/-- When the goroutine has registered with the wait group before `Poll` is past
`wg.Wait()`, the session is closed only after the goroutine has finished: in every state
reached afterwards in which `Close()` has run without a panic, the context is cancelled and
the goroutine has returned. -/
theorem registered_sampler_is_awaited (env : PollEnv) (oids : List String) (dInterval : Int)
    (tsdev : snmpService) (now : Int) (pre post : List Sched) (s s1 : PollSystem)
    (hpre : PollSystem.exec env oids (PollSystem.start dInterval tsdev now) pre = some s)
    (hreg : s.task = TaskPc.looping)
    (hpc : s.pc = PollPc.inLoop ∨ s.pc = PollPc.atCancel ∨ s.pc = PollPc.atWait)
    (hpost : PollSystem.exec env oids s post = some s1)
    (hclosed : s1.closed = true) (hok : s1.pc ≠ PollPc.panicked) :
    s1.pc = PollPc.returned ∧ s1.cancelled = true ∧ s1.task = TaskPc.finished ∧ s1.wg = 0 := by
  have hsound := PollSystem.reachable_sound env oids dInterval tsdev now pre s hpre
  have haw : s.Awaits := by
    refine ⟨Or.inl hreg, ?_⟩
    intro h
    rcases hpc with hpc | hpc | hpc <;> rw [hpc] at h <;> simp at h
  obtain ⟨⟨hw, hc, hk⟩, _, hp⟩ := PollSystem.exec_induct env oids
    (fun t => t.Sound ∧ t.Awaits) (PollSystem.step_awaits env oids) post s s1 ⟨hsound, haw⟩ hpost
  have hret : s1.pc = PollPc.returned := by
    rcases hc.mp hclosed with h | h
    · exact h
    · exact absurd h hok
  have hfin := hp (Or.inr hret)
  refine ⟨hret, hk (Or.inr (Or.inr hret)), hfin, ?_⟩
  unfold PollSystem.WgCounts at hw
  rw [hw, hfin]
  simp

/-- From every state in which `Poll` is in its loop and the goroutine in its own, the stop
signal shuts down: the iteration of the signal writes nothing and leaves the service as it
is, `Poll` calls `cancel()`, the goroutine takes `ctx.Done()` and returns, `wg.Wait()`
returns, the session is closed and `Poll` returns the error it held, nil after a start
without error. -/
theorem stop_signal_shutdown_completes (env : PollEnv) (oids : List String) (s : PollSystem)
    (hpc : s.pc = PollPc.inLoop) (htask : s.task = TaskPc.looping) (hw : s.WgCounts) :
    ∃ s1, PollSystem.exec env oids s
        [Sched.pollSignal, Sched.pollNext, Sched.taskDone, Sched.pollNext, Sched.pollNext] =
        some s1 ∧
      s1.pc = PollPc.returned ∧ s1.err = s.err ∧ s1.cancelled = true ∧ s1.closed = true ∧
      s1.task = TaskPc.finished ∧ s1.tsdev = s.tsdev ∧
      s1.cycles = s.cycles ++ [cycle env s.loop Wake.sigdone] ∧
      (cycle env s.loop Wake.sigdone).stdout = [] := by
  unfold PollSystem.WgCounts at hw
  rw [htask] at hw
  simp only [if_true] at hw
  have hx : (cycle env s.loop Wake.sigdone).state.exiting = true := by simp [cycle]
  have hp : (cycle env s.loop Wake.sigdone).panicked = false := by simp [cycle]
  cases hexec : PollSystem.exec env oids s
      [Sched.pollSignal, Sched.pollNext, Sched.taskDone, Sched.pollNext, Sched.pollNext] with
  | none =>
      simp [PollSystem.exec, PollSystem.step, PollSystem.alive, PollSystem.afterCycle, cycleOn,
        hpc, htask, hw, hx, hp, samplerStep] at hexec
  | some s1 =>
      simp [PollSystem.exec, PollSystem.step, PollSystem.alive, PollSystem.afterCycle, cycleOn,
        hpc, htask, hw, hx, hp, samplerStep] at hexec
      subst hexec
      exact ⟨_, rfl, rfl, rfl, rfl, rfl, rfl, rfl, rfl, by simp [cycle]⟩

/-- The stop signal taken before the goroutine has run its first statement: from every
state in which `Poll` is in its loop and the goroutine is started but has not registered,
`cancel()`, `wg.Wait()` and the return with `Close()` go through at once, the counter being
0, and `Poll` returns with the session closed and the goroutine not awaited. -/
theorem stop_signal_before_registration (env : PollEnv) (oids : List String) (s : PollSystem)
    (hpc : s.pc = PollPc.inLoop) (htask : s.task = TaskPc.spawned) (hw : s.WgCounts) :
    ∃ s1, PollSystem.exec env oids s
        [Sched.pollSignal, Sched.pollNext, Sched.pollNext, Sched.pollNext] = some s1 ∧
      s1.pc = PollPc.returned ∧ s1.err = s.err ∧ s1.cancelled = true ∧ s1.closed = true ∧
      s1.task = TaskPc.spawned := by
  unfold PollSystem.WgCounts at hw
  rw [htask] at hw
  simp only [reduceCtorEq, if_false] at hw
  have hx : (cycle env s.loop Wake.sigdone).state.exiting = true := by simp [cycle]
  have hp : (cycle env s.loop Wake.sigdone).panicked = false := by simp [cycle]
  cases hexec : PollSystem.exec env oids s
      [Sched.pollSignal, Sched.pollNext, Sched.pollNext, Sched.pollNext] with
  | none =>
      simp [PollSystem.exec, PollSystem.step, PollSystem.alive, PollSystem.afterCycle, cycleOn,
        hpc, htask, hw, hx, hp] at hexec
  | some s1 =>
      simp [PollSystem.exec, PollSystem.step, PollSystem.alive, PollSystem.afterCycle, cycleOn,
        hpc, htask, hw, hx, hp] at hexec
      subst hexec
      exact ⟨_, rfl, rfl, rfl, rfl, rfl, rfl⟩

/-- C15 (the code at the failing input). Polling every 2 s on the connected service
`exService`, `PollStart` leaves the counter of the wait group at 0 and the goroutine started
but not registered. When the stop signal is taken before the goroutine has run its
`wg.Add(1)`, the iteration of the signal writes nothing, `cancel()` is called, `wg.Wait()`
returns at once, and `Poll` closes the session and returns nil while the goroutine has not
been awaited: it starts only afterwards, and then leaves on `ctx.Done()`. When the goroutine
has registered first (here it also stores a scan, of which `Poll` writes the record),
`wg.Wait()` does not return before the goroutine has taken `ctx.Done()`, and the session is
closed after the goroutine has finished. -/
theorem stop_signal_outruns_sampler_registration :
    (PollSystem.start (2 * Second) exService (exTime 6000)).view =
      { pc := PollPc.inLoop, err := none, cancelled := false, closed := false, task := TaskPc.spawned,
        stdout := [] } ∧
    (PollSystem.start (2 * Second) exService (exTime 6000)).wg = 0 ∧
    (PollSystem.exec exEnv ["1.3.6.1.4.1.1"] (PollSystem.start (2 * Second) exService (exTime 6000))
        [Sched.pollSignal, Sched.pollNext, Sched.pollNext, Sched.pollNext]).map PollSystem.view =
      some
        { pc := PollPc.returned, err := none, cancelled := true, closed := true, task := TaskPc.spawned,
          stdout := [] } ∧
    (PollSystem.exec exEnv ["1.3.6.1.4.1.1"] (PollSystem.start (2 * Second) exService (exTime 6000))
        [Sched.pollSignal, Sched.pollNext, Sched.pollNext, Sched.pollNext,
         Sched.taskStart (exTime 6001), Sched.taskDone]).map PollSystem.view =
      some
        { pc := PollPc.returned, err := none, cancelled := true, closed := true, task := TaskPc.finished,
          stdout := [] } ∧
    (PollSystem.exec exEnv ["1.3.6.1.4.1.1"] (PollSystem.start (2 * Second) exService (exTime 6000))
        [Sched.taskStart (exTime 6001),
         Sched.taskTick (Except.ok [SnmpVar.octetString "10"]) (exTime 9700),
         Sched.pollTimer (exTime 10000),
         Sched.pollSignal, Sched.pollNext, Sched.pollNext]).map PollSystem.view = none ∧
    (PollSystem.exec exEnv ["1.3.6.1.4.1.1"] (PollSystem.start (2 * Second) exService (exTime 6000))
        [Sched.taskStart (exTime 6001),
         Sched.taskTick (Except.ok [SnmpVar.octetString "10"]) (exTime 9700),
         Sched.pollTimer (exTime 10000),
         Sched.pollSignal, Sched.pollNext, Sched.taskDone, Sched.pollNext,
         Sched.pollNext]).map PollSystem.view =
      some
        { pc := PollPc.returned, err := none, cancelled := true, closed := true, task := TaskPc.finished,
          stdout := ["2025 01 01 00 00 09 NET STA 00 2 A:10\n"] } := by
  decide

end TSM
